import Mathlib

/-!
# Verification development for the srsRAN executor topology and async event primitives

Shallow embedding of

* `include/srsgnb/support/async/async_event_source.h`
  (`async_event_source<T>` / `async_single_event_observer<T>`),
* `apps/gnb/gnb_worker_manager.cpp` (`worker_manager`),
* `lib/cu_cp/du_processor_repository.cpp` (`du_processor_repository`),
* `lib/scheduler/support/pdcch/search_space_helper.h` (`search_space_helper`),

followed by the theorems that settle the specification claims about them.

Objects that the C++ code links through raw pointers live in an explicit heap: a pointer is
an identifier, `nullptr` is `none`, and a destroyed object is an identifier the heap maps to
`none`.  Operations that can hit an `srsgnb_assert` / `srsran_assert` or dereference a dead
pointer return `Except fault _`, as do the functions that can call `report_fatal_error`.
-/

/-- Ways in which an operation can terminate abnormally. -/
inductive fault where
  /-- A failed `srsgnb_assert` / `srsran_assert`; the argument is the diagnostic text. -/
  | assertion (msg : String)
  /-- Use of a pointer to an object that does not exist (undefined behaviour in C++). -/
  | invalid_access
  /-- The exception `std::out_of_range` thrown by `std::map::at` for a key that is absent. -/
  | out_of_range (key : String)
  /-- A call of `report_fatal_error`, which ends the program; the argument is the reason. -/
  | fatal_error (msg : String)
  deriving DecidableEq, Repr

/-- Point update of a finite map represented as a function. -/
def upd {κ α : Type} [DecidableEq κ] (f : κ → α) (k : κ) (v : α) : κ → α :=
  fun i => if i = k then v else f i

namespace srsgnb

/-- Address of an `async_event_source` object. -/
abbrev source_id := Nat

/-- Address of an `async_single_event_observer` object. -/
abbrev observer_id := Nat

/-- Modelled from the spec: `manual_event<T>` (manual_event.h) is not part of the sources.
The spec describes it as a completion slot that goes from "pending" to "complete(value)";
`data = none` is the pending slot.  Resumption of awaiting coroutines is not modelled. -/
structure manual_event (T : Type) where
  data : Option T

/-- The call `manual_event::is_set()`. -/
def manual_event.is_set {T : Type} (e : manual_event T) : Bool := e.data.isSome

/-- The call `manual_event::set(u)`. -/
def manual_event.set {T : Type} (_e : manual_event T) (u : T) : manual_event T := ⟨some u⟩

/-- The call `manual_event::get()`; only meaningful once the event is set. -/
def manual_event.get {T : Type} (e : manual_event T) : Option T := e.data

/-- Modelled from the spec: `unique_timer` (srsgnb/support/timers.h) is not part of the
sources.  The spec says the timeout variant "arms the shared timer", that on expiry the
source delivers its cancellation value, and that delivering a value "disarms the timer".
The only callback ever installed in this file is `set(cancel_value)`, so the callback is
recorded by the flag `has_callback`. -/
structure unique_timer where
  duration : Nat
  has_callback : Bool
  running : Bool
  deriving DecidableEq, Repr

/-- A timer as returned by `timer_manager::create_unique_timer()`. -/
def unique_timer.create : unique_timer := ⟨0, false, false⟩

/-- The call `unique_timer::set(duration, callback)`. -/
def unique_timer.set (t : unique_timer) (d : Nat) : unique_timer :=
  { t with duration := d, has_callback := true }

/-- The call `unique_timer::run()`. -/
def unique_timer.run (t : unique_timer) : unique_timer := { t with running := true }

/-- The call `unique_timer::stop()`. -/
def unique_timer.stop (t : unique_timer) : unique_timer := { t with running := false }

/-- Data members of `async_event_source<T>`. -/
structure async_event_source (T : Type) where
  cancel_value : T
  sub : Option observer_id
  running_timer : unique_timer

/-- Data members of `async_single_event_observer<T>`. -/
structure async_single_event_observer (T : Type) where
  parent : Option source_id
  event : manual_event T

/-- The live sources and observers of a program state. -/
structure heap (T : Type) where
  sources : source_id → Option (async_event_source T)
  observers : observer_id → Option (async_single_event_observer T)

/-- The state in which no object has been constructed. -/
def heap.empty {T : Type} : heap T := ⟨fun _ => none, fun _ => none⟩

/-- The method `bool has_subscriber() const` returning `sub != nullptr`. -/
def async_event_source.has_subscriber {T : Type} (src : async_event_source T) : Bool :=
  src.sub.isSome

/-- The method `bool connected() const` returning `parent != nullptr`. -/
def async_single_event_observer.connected {T : Type} (ob : async_single_event_observer T) :
    Bool :=
  ob.parent.isSome

/-- The method `bool complete() const` returning `event.is_set()`. -/
def async_single_event_observer.complete {T : Type} (ob : async_single_event_observer T) :
    Bool :=
  ob.event.is_set

/-- The method `const T& result() const&`: asserts `complete()` and returns `event.get()`. -/
def async_single_event_observer.result {T : Type} (ob : async_single_event_observer T) :
    Except fault T :=
  if ob.complete then
    match ob.event.get with
    | some v => .ok v
    | none => .error .invalid_access
  else
    .error (.assertion "Trying to fetch result of incomplete transaction")

/-- The private method `remove_observer()` of the source at address `self`:
asserts `has_subscriber()`, then `sub->parent = nullptr; sub = nullptr`. -/
def async_event_source.remove_observer {T : Type} (h : heap T) (self : source_id) :
    Except fault (heap T) :=
  match h.sources self with
  | none => .error .invalid_access
  | some src =>
    match src.sub with
    | none => .error (.assertion "Unsubscribe called but no subscriber is registered")
    | some o =>
      match h.observers o with
      | none => .error .invalid_access
      | some ob =>
        .ok { sources := upd h.sources self (some { src with sub := none }),
              observers := upd h.observers o (some { ob with parent := none }) }

/-- The method `bool set(U&& u)` of the source at address `self`.  With a subscriber it
stops the timer, unlinks the subscriber, sets the subscriber's event and returns `true`;
without one it returns `false` (the debug log line is not part of the modelled state). -/
def async_event_source.set {T : Type} (h : heap T) (self : source_id) (u : T) :
    Except fault (Bool × heap T) :=
  match h.sources self with
  | none => .error .invalid_access
  | some src =>
    if src.has_subscriber then
      let h1 : heap T :=
        { h with
          sources := upd h.sources self (some { src with running_timer := src.running_timer.stop }) }
      let old_sub := src.sub
      match async_event_source.remove_observer h1 self with
      | .error e => .error e
      | .ok h2 =>
        match old_sub with
        | none => .error .invalid_access
        | some o =>
          match h2.observers o with
          | none => .error .invalid_access
          | some ob =>
            .ok (true,
              { h2 with observers := upd h2.observers o (some { ob with event := ob.event.set u }) })
    else
      .ok (false, h)

/-- The private method `set_observer(sub_)` of the source at address `self`. -/
def async_event_source.set_observer {T : Type} (h : heap T) (self : source_id)
    (sub_ : observer_id) : Except fault (heap T) :=
  match h.sources self, h.observers sub_ with
  | some src, some ob =>
    if src.has_subscriber then
      .error (.assertion "This class only allows one subscriber/listener per transaction")
    else if ob.event.is_set then
      .error (.assertion "Cannot subscribe already set subscriber")
    else
      .ok { sources := upd h.sources self (some { src with sub := some sub_ }),
            observers := upd h.observers sub_ (some { ob with parent := some self }) }
  | _, _ => .error .invalid_access

/-- The private method `set_observer(sub_, time_to_cancel)`: `set_observer(sub_)` followed by
`running_timer.set(time_to_cancel, [this]{ set(cancel_value); })` and `running_timer.run()`. -/
def async_event_source.set_observer_timeout {T : Type} (h : heap T) (self : source_id)
    (sub_ : observer_id) (time_to_cancel : Nat) : Except fault (heap T) :=
  match async_event_source.set_observer h self sub_ with
  | .error e => .error e
  | .ok h1 =>
    match h1.sources self with
    | none => .error .invalid_access
    | some src =>
      let t := (src.running_timer.set time_to_cancel).run
      .ok { h1 with sources := upd h1.sources self (some { src with running_timer := t }) }

/-- Expiry of the timer owned by the source at address `self`.  A timer that is not running
cannot expire, so nothing happens then; a running timer stops and runs its callback, which
is `set(cancel_value)`. -/
def async_event_source.timer_expiry {T : Type} (h : heap T) (self : source_id) :
    Except fault (heap T) :=
  match h.sources self with
  | none => .ok h
  | some src =>
    if src.running_timer.running && src.running_timer.has_callback then
      let h1 : heap T :=
        { h with
          sources := upd h.sources self (some { src with running_timer := src.running_timer.stop }) }
      match async_event_source.set h1 self src.cancel_value with
      | .error e => .error e
      | .ok r => .ok r.2
    else
      .ok h

/-- The constructor `async_event_source(timer_db, cancel_value_)` placing the new object at
the free address `self`. -/
def async_event_source.create {T : Type} (h : heap T) (self : source_id) (cancel_value_ : T) :
    Except fault (heap T) :=
  match h.sources self with
  | some _ => .error .invalid_access
  | none =>
    .ok { h with sources := upd h.sources self (some ⟨cancel_value_, none, unique_timer.create⟩) }

/-- The destructor `~async_event_source()`: unlinks the subscriber if there is one; the
object, and with it its timer, then ceases to exist. -/
def async_event_source.destroy {T : Type} (h : heap T) (self : source_id) :
    Except fault (heap T) :=
  match h.sources self with
  | none => .error .invalid_access
  | some src =>
    if src.has_subscriber then
      match async_event_source.remove_observer h self with
      | .error e => .error e
      | .ok h1 => .ok { h1 with sources := upd h1.sources self none }
    else
      .ok { h with sources := upd h.sources self none }

/-- The default constructor `async_single_event_observer()` placing the new object at the
free address `self`. -/
def async_single_event_observer.create {T : Type} (h : heap T) (self : observer_id) :
    Except fault (heap T) :=
  match h.observers self with
  | some _ => .error .invalid_access
  | none => .ok { h with observers := upd h.observers self (some ⟨none, ⟨none⟩⟩) }

/-- The method `subscribe_to(publisher)`, which is `publisher.set_observer(*this)`. -/
def async_single_event_observer.subscribe_to {T : Type} (h : heap T) (self : observer_id)
    (publisher : source_id) : Except fault (heap T) :=
  async_event_source.set_observer h publisher self

/-- The method `subscribe_to(publisher, time_to_cancel)`. -/
def async_single_event_observer.subscribe_to_timeout {T : Type} (h : heap T)
    (self : observer_id) (publisher : source_id) (time_to_cancel : Nat) :
    Except fault (heap T) :=
  async_event_source.set_observer_timeout h publisher self time_to_cancel

/-- The destructor `~async_single_event_observer()`: `if (parent != nullptr)
parent->remove_observer();`, after which the object ceases to exist. -/
def async_single_event_observer.destroy {T : Type} (h : heap T) (self : observer_id) :
    Except fault (heap T) :=
  match h.observers self with
  | none => .error .invalid_access
  | some ob =>
    match ob.parent with
    | some p =>
      match async_event_source.remove_observer h p with
      | .error e => .error e
      | .ok h1 => .ok { h1 with observers := upd h1.observers self none }
    | none => .ok { h with observers := upd h.observers self none }

/-- The operations a program can apply to sources and observers. -/
inductive op (T : Type) where
  | new_source (s : source_id) (cancel_value : T)
  | new_observer (o : observer_id)
  | subscribe_to (o : observer_id) (s : source_id)
  | subscribe_to_timeout (o : observer_id) (s : source_id) (time_to_cancel : Nat)
  | set (s : source_id) (u : T)
  | timer_expiry (s : source_id)
  | destroy_source (s : source_id)
  | destroy_observer (o : observer_id)

/-- Effect of one operation. -/
def step {T : Type} (h : heap T) : op T → Except fault (heap T)
  | .new_source s c => async_event_source.create h s c
  | .new_observer o => async_single_event_observer.create h o
  | .subscribe_to o s => async_single_event_observer.subscribe_to h o s
  | .subscribe_to_timeout o s t => async_single_event_observer.subscribe_to_timeout h o s t
  | .set s u =>
    match async_event_source.set h s u with
    | .error e => .error e
    | .ok r => .ok r.2
  | .timer_expiry s => async_event_source.timer_expiry h s
  | .destroy_source s => async_event_source.destroy h s
  | .destroy_observer o => async_single_event_observer.destroy h o

/-- Effect of a sequence of operations, stopping at the first fault. -/
def run {T : Type} (h : heap T) : List (op T) → Except fault (heap T)
  | [] => .ok h
  | a :: rest =>
    match step h a with
    | .error e => .error e
    | .ok h1 => run h1 rest

/-- Whether operation `a`, applied in state `h`, subscribes an observer that is still
connected to a source (`connected()` is true). -/
def op.subscribes_connected {T : Type} (h : heap T) : op T → Bool
  | .subscribe_to o _ =>
    match h.observers o with
    | some ob => ob.connected
    | none => false
  | .subscribe_to_timeout o _ _ =>
    match h.observers o with
    | some ob => ob.connected
    | none => false
  | _ => false

/-- Along the sequence of operations started in `h`, every `subscribe_to` is applied to an
observer that is not connected at that moment. -/
def subscribes_only_unconnected {T : Type} (h : heap T) : List (op T) → Prop
  | [] => True
  | a :: rest =>
    op.subscribes_connected h a = false ∧
      match step h a with
      | .ok h1 => subscribes_only_unconnected h1 rest
      | .error _ => True

/-- The back-references of a state are mutually consistent: a source's subscriber pointer
designates a live observer whose parent is that source, and an observer's parent pointer
designates a live source whose subscriber is that observer. -/
def linked {T : Type} (h : heap T) : Prop :=
  (∀ s src o, h.sources s = some src → src.sub = some o →
    ∃ ob, h.observers o = some ob ∧ ob.parent = some s) ∧
  (∀ o ob s, h.observers o = some ob → ob.parent = some s →
    ∃ src, h.sources s = some src ∧ src.sub = some o)

end srsgnb

namespace srsran

/-- The constant `task_worker_queue_size` of gnb_worker_manager.cpp. -/
def task_worker_queue_size : Nat := 2048

/-- The bound of the 32-bit type `unsigned`. -/
def UINT_RANGE : Nat := 2 ^ 32

/-- The decimal text `std::to_string(i)` of an unsigned number. -/
def to_string (i : Nat) : String := Nat.repr i

/-- A thread priority: `os_thread_realtime_priority::no_realtime()` (the default argument of
the worker constructors) or `os_thread_realtime_priority::max() - k`. -/
inductive os_thread_realtime_priority where
  | no_realtime
  | max_minus (k : Nat)
  deriving DecidableEq, Repr

/-- A CPU affinity mask `os_sched_affinity_bitmask`, as the list of the CPU indices it
enables: empty for `os_sched_affinity_bitmask()`, one index for
`os_sched_affinity_bitmask(cpu_idx)`. -/
structure os_sched_affinity_bitmask where
  cpus : List Nat
  deriving DecidableEq, Repr

/-- Modelled from the spec: class `task_worker` is not part of the sources.  The spec
describes a Worker as one OS thread with a name, a bounded queue, a realtime priority and an
optional CPU affinity mask; `running` becomes false when `stop()` joins the thread. -/
structure task_worker where
  name : String
  queue_size : Nat
  prio : os_thread_realtime_priority
  mask : os_sched_affinity_bitmask
  running : Bool
  deriving DecidableEq, Repr

/-- Modelled from the spec: class `task_worker_pool` is not part of the sources.  The spec
describes a Worker Pool as N OS threads sharing a bounded queue, with the naming and priority
attributes of a Worker. -/
structure task_worker_pool where
  nof_workers : Nat
  queue_size : Nat
  name : String
  prio : os_thread_realtime_priority
  running : Bool
  deriving DecidableEq, Repr

/-- Modelled from the spec: `du_cell_worker_type` (a worker draining two priority-tagged
queues) is declared in gnb_worker_manager.h, which is not part of the sources.  The fields
are the constructor arguments used in gnb_worker_manager.cpp. -/
structure du_cell_worker_type where
  name : String
  queue_sizes : List Nat
  wait_for_task_sleep_us : Nat
  prio : os_thread_realtime_priority
  mask : os_sched_affinity_bitmask
  running : Bool
  deriving DecidableEq, Repr

/-- The enumeration `task_queue_priority` with the two lanes used by the worker manager. -/
inductive task_queue_priority where
  | min
  | max
  deriving DecidableEq, Repr

/-- The two workers the manager owns outside of its `workers` map. -/
inductive priority_worker where
  | gnb_ctrl_worker
  | du_cell_worker
  deriving DecidableEq, Repr

/-- The executors built by the worker manager, each recording the worker it submits to. -/
inductive task_executor where
  /-- An executor `task_worker_executor(worker, report_on_push_failure)` on an entry of
  `workers`. -/
  | task_worker_executor (worker : String) (report_on_push_failure : Bool)
  /-- An executor `task_worker_pool_executor(pool)` on an entry of `worker_pools`. -/
  | task_worker_pool_executor (pool : String)
  /-- The result of `make_priority_task_executor_ptr<prio>(worker)` and
  `make_priority_task_worker_executor<prio>(worker)`. -/
  | priority_task_worker_executor (prio : task_queue_priority) (worker : priority_worker)
  /-- The result of `make_sync_executor(inner)`, the synchronous (blocking-until-complete)
  adapter. -/
  | sync_executor (inner : task_executor)
  deriving DecidableEq, Repr

/-- The argument of `du_high_executor_mapper_impl`: cell, slot and UE executors and the
control and timer executors. -/
structure du_high_executor_mapper_impl where
  cell_execs : List task_executor
  slot_execs : List task_executor
  ue_execs : List task_executor
  ctrl_exec : task_executor
  timer_exec : task_executor
  deriving DecidableEq, Repr

/-- The enumeration `lower_phy_thread_profile`. -/
inductive lower_phy_thread_profile where
  | blocking
  | single
  | dual
  | quad
  deriving DecidableEq, Repr

/-- What the worker manager writes with `fmt::print`. -/
inductive print_event where
  /-- The line "Could not set the affinity for the NAME executor". -/
  | affinity_failed (name : String)
  /-- The line "Affinity CPU for the NAME executor". -/
  | affinity_set (cpu_idx : Nat) (name : String)
  /-- The advisory "Detected D threads for Open Fronthaul, but a minimum of M are needed to
  achieve a good performance". -/
  | ofh_threads_advisory (detected : Nat) (minimum : Nat)
  /-- The line "Lower PHY in PROFILE executor mode" (or "in executor blocking mode"). -/
  | lower_phy_mode (profile : lower_phy_thread_profile)
  deriving DecidableEq, Repr

/-- Modelled from the spec: class `affinity_mask_manager` is not part of the sources.  The
spec says it "allocates disjoint CPU core indices to real-time workers from a bounded host
core pool" and reports exhaustion; `cpu_bitset` marks the reserved cores of the pool. -/
structure affinity_mask_manager where
  cpu_bitset : List Bool
  deriving DecidableEq, Repr

/-- Index of the lowest core of the pool that is not reserved. -/
def find_lowest_free : List Bool → Option Nat
  | [] => none
  | false :: _ => some 0
  | true :: rest => (find_lowest_free rest).map (fun i => i + 1)

/-- Modelled from the spec: `affinity_mask_manager::reserve_cpu_index()` reserves a free core
of the pool and returns its index, or reports an error when every core is reserved.  The
spec fixes no order among the free cores; the model takes the lowest one. -/
def affinity_mask_manager.reserve_cpu_index (m : affinity_mask_manager) :
    Option Nat × affinity_mask_manager :=
  match find_lowest_free m.cpu_bitset with
  | some i => (some i, ⟨m.cpu_bitset.set i true⟩)
  | none => (none, m)

/-- The part of `ru_sdr_expert_appconfig` read by the worker manager. -/
structure ru_sdr_expert_appconfig where
  lphy_executor_profile : lower_phy_thread_profile
  deriving DecidableEq, Repr

/-- The part of `ru_sdr_appconfig` read by the worker manager. -/
structure ru_sdr_appconfig where
  device_driver : String
  expert_cfg : ru_sdr_expert_appconfig
  deriving DecidableEq, Repr

/-- The Open Fronthaul radio configuration; the worker manager reads none of its fields. -/
structure ru_ofh_appconfig where
  deriving DecidableEq, Repr

/-- The field `ru_cfg`, a `variant<ru_sdr_appconfig, ru_ofh_appconfig>`. -/
inductive ru_variant where
  | sdr (cfg : ru_sdr_appconfig)
  | ofh (cfg : ru_ofh_appconfig)
  deriving DecidableEq, Repr

/-- The part of `expert_upper_phy_appconfig` read by the worker manager. -/
structure expert_upper_phy_appconfig where
  nof_ul_threads : Nat
  nof_dl_threads : Nat
  nof_pdsch_threads : Nat
  deriving DecidableEq, Repr

/-- A cell configuration; the worker manager only counts the cells. -/
structure cell_appconfig where
  deriving DecidableEq, Repr

/-- The part of `gnb_appconfig` read by the worker manager. -/
structure gnb_appconfig where
  ru_cfg : ru_variant
  cells_cfg : List cell_appconfig
  expert_phy_cfg : expert_upper_phy_appconfig
  deriving DecidableEq, Repr

/-- What the worker manager reads from its surroundings: the value of
`std::thread::hardware_concurrency()`, the constant `MAX_CBS_PER_PDU` (declared in
slot_pdu_capacity_constants.h, not part of the sources) and the core pool of the affinity
manager at construction. -/
structure host where
  hardware_concurrency : Nat
  MAX_CBS_PER_PDU : Nat
  affinity_pool : List Bool
  deriving DecidableEq, Repr

/-- Data members of `worker_manager` that gnb_worker_manager.cpp reads and writes. -/
structure worker_manager where
  workers : String → Option task_worker
  worker_pools : String → Option task_worker_pool
  gnb_ctrl_worker : Option du_cell_worker_type
  du_cell_worker : Option du_cell_worker_type
  cu_cp_exec : Option task_executor
  cu_up_exec : Option task_executor
  gtpu_pdu_exec : Option task_executor
  du_ctrl_exec : Option task_executor
  du_timer_exec : Option task_executor
  du_ue_exec : Option task_executor
  du_cell_exec : Option task_executor
  du_slot_exec : Option task_executor
  upper_pusch_exec : Option task_executor
  upper_pucch_exec : Option task_executor
  upper_prach_exec : Option task_executor
  upper_pdsch_exec : Option task_executor
  du_low_dl_executors : List task_executor
  du_high_exec_mapper : Option du_high_executor_mapper_impl
  radio_exec : Option task_executor
  ru_printer_exec : Option task_executor
  lower_prach_exec : Option task_executor
  lower_phy_tx_exec : Option task_executor
  lower_phy_rx_exec : Option task_executor
  lower_phy_dl_exec : Option task_executor
  lower_phy_ul_exec : Option task_executor
  ru_timing_exec : Option task_executor
  ru_dl_exec : List task_executor
  ru_tx_exec : List task_executor
  ru_rx_exec : List task_executor
  affinity_manager : affinity_mask_manager
  printed : List print_event

/-- The members of a `worker_manager` before the body of its constructor runs: empty maps
and vectors, null executor pointers. -/
def worker_manager.init (env : host) : worker_manager :=
  { workers := fun _ => none, worker_pools := fun _ => none,
    gnb_ctrl_worker := none, du_cell_worker := none,
    cu_cp_exec := none, cu_up_exec := none, gtpu_pdu_exec := none, du_ctrl_exec := none,
    du_timer_exec := none, du_ue_exec := none, du_cell_exec := none, du_slot_exec := none,
    upper_pusch_exec := none, upper_pucch_exec := none, upper_prach_exec := none,
    upper_pdsch_exec := none, du_low_dl_executors := [], du_high_exec_mapper := none,
    radio_exec := none, ru_printer_exec := none, lower_prach_exec := none,
    lower_phy_tx_exec := none, lower_phy_rx_exec := none, lower_phy_dl_exec := none,
    lower_phy_ul_exec := none, ru_timing_exec := none, ru_dl_exec := [], ru_tx_exec := [],
    ru_rx_exec := [], affinity_manager := ⟨env.affinity_pool⟩, printed := [] }

/-- The method `create_worker(name, args...)`: `workers.insert` of a new `task_worker` under
`name`, then `srsran_assert(ret.second, ...)`; the insertion does nothing when the key is
already present. -/
def worker_manager.create_worker (wm : worker_manager) (name : String) (queue_size : Nat)
    (prio : os_thread_realtime_priority) (mask : os_sched_affinity_bitmask) :
    Except fault worker_manager :=
  match wm.workers name with
  | some _ => .error (.assertion ("Unable to create worker " ++ name ++ "."))
  | none =>
    .ok { wm with workers := upd wm.workers name (some ⟨name, queue_size, prio, mask, true⟩) }

/-- The method `create_worker_pool(name, nof_workers, queue_size, prio)`. -/
def worker_manager.create_worker_pool (wm : worker_manager) (name : String)
    (nof_workers : Nat) (queue_size : Nat) (prio : os_thread_realtime_priority) :
    Except fault worker_manager :=
  match wm.worker_pools name with
  | some _ => .error (.assertion ("Unable to create worker pool " ++ name ++ "."))
  | none =>
    .ok { wm with
          worker_pools :=
            upd wm.worker_pools name (some ⟨nof_workers, queue_size, name, prio, true⟩) }

/-- The lookup `*workers.at(name)`, which throws `std::out_of_range` for an absent key. -/
def worker_manager.workers_at (wm : worker_manager) (name : String) :
    Except fault task_worker :=
  match wm.workers name with
  | some w => .ok w
  | none => .error (.out_of_range name)

/-- The lookup `*worker_pools.at(name)`. -/
def worker_manager.worker_pools_at (wm : worker_manager) (name : String) :
    Except fault task_worker_pool :=
  match wm.worker_pools name with
  | some w => .ok w
  | none => .error (.out_of_range name)

/-- One iteration of the loop over `i_dl_worker` in `create_du_cu_executors`. -/
def worker_manager.create_upper_phy_dl_executor (wm : worker_manager) (i_dl_worker : Nat) :
    Except fault worker_manager := do
  let worker_name := "upper_phy_dl#" ++ to_string i_dl_worker
  let wm ← wm.create_worker worker_name task_worker_queue_size (.max_minus 10) ⟨[]⟩
  let w ← wm.workers_at worker_name
  pure { wm with
         du_low_dl_executors := wm.du_low_dl_executors ++ [.task_worker_executor w.name true] }

/-- The method `create_du_cu_executors(is_blocking_mode_active, nof_ul_workers,
nof_dl_workers, nof_pdsch_workers)`. -/
def worker_manager.create_du_cu_executors (wm : worker_manager) (env : host)
    (is_blocking_mode_active : Bool) (nof_ul_workers nof_dl_workers nof_pdsch_workers : Nat) :
    Except fault worker_manager := do
  -- Instantiate workers
  let wm ← wm.create_worker "gnb_ue" 512 .no_realtime ⟨[]⟩
  let wm := { wm with
              gnb_ctrl_worker :=
                some ⟨"gnb_ctrl", [64, task_worker_queue_size], 100, .max_minus 2, ⟨[]⟩, true⟩ }
  let wm := { wm with
              du_cell_worker :=
                some ⟨"du_cell", [8, task_worker_queue_size], 10, .max_minus 2, ⟨[]⟩, true⟩ }
  -- Instantiate task executors
  let cu_cp_exec := task_executor.priority_task_worker_executor .min .gnb_ctrl_worker
  let wm := { wm with cu_cp_exec := some cu_cp_exec }
  let gnb_ue ← wm.workers_at "gnb_ue"
  let wm := { wm with cu_up_exec := some (.task_worker_executor gnb_ue.name true) }
  let gnb_ue ← wm.workers_at "gnb_ue"
  let wm := { wm with gtpu_pdu_exec := some (.task_worker_executor gnb_ue.name false) }
  let du_ctrl_exec := task_executor.priority_task_worker_executor .min .gnb_ctrl_worker
  let wm := { wm with du_ctrl_exec := some du_ctrl_exec }
  let du_timer_exec := task_executor.priority_task_worker_executor .max .gnb_ctrl_worker
  let wm := { wm with du_timer_exec := some du_timer_exec }
  let gnb_ue ← wm.workers_at "gnb_ue"
  let du_ue_exec := task_executor.task_worker_executor gnb_ue.name true
  let wm := { wm with du_ue_exec := some du_ue_exec }
  let du_cell_exec := task_executor.priority_task_worker_executor .min .du_cell_worker
  let wm := { wm with du_cell_exec := some du_cell_exec }
  let (du_slot_exec, wm) ←
    if is_blocking_mode_active then do
      let du_slot_exec := task_executor.sync_executor
        (.priority_task_worker_executor .max .du_cell_worker)
      let wm := { wm with du_slot_exec := some du_slot_exec }
      let wm ← wm.create_worker "phy_worker" task_worker_queue_size (.max_minus 0) ⟨[]⟩
      let phy_worker ← wm.workers_at "phy_worker"
      let wm := { wm with upper_pusch_exec := some (.task_worker_executor phy_worker.name true) }
      let wm := { wm with upper_pucch_exec := some (.task_worker_executor phy_worker.name true) }
      let wm := { wm with upper_prach_exec := some (.task_worker_executor phy_worker.name true) }
      let wm := { wm with
                  du_low_dl_executors :=
                    wm.du_low_dl_executors ++ [.task_worker_executor phy_worker.name true] }
      pure (du_slot_exec, wm)
    else do
      let du_slot_exec := task_executor.priority_task_worker_executor .max .du_cell_worker
      let wm := { wm with du_slot_exec := some du_slot_exec }
      let wm ← wm.create_worker "upper_phy_dl" task_worker_queue_size (.max_minus 10) ⟨[]⟩
      let wm ← wm.create_worker_pool "upper_phy_ul" nof_ul_workers task_worker_queue_size
        (.max_minus 20)
      let upper_phy_ul ← wm.worker_pools_at "upper_phy_ul"
      let wm := { wm with upper_pusch_exec := some (.task_worker_pool_executor upper_phy_ul.name) }
      let upper_phy_ul ← wm.worker_pools_at "upper_phy_ul"
      let wm := { wm with upper_pucch_exec := some (.task_worker_pool_executor upper_phy_ul.name) }
      let wm ← wm.create_worker "phy_prach" task_worker_queue_size (.max_minus 2) ⟨[]⟩
      let phy_prach ← wm.workers_at "phy_prach"
      let wm := { wm with upper_prach_exec := some (.task_worker_executor phy_prach.name true) }
      let wm ← (List.range nof_dl_workers).foldlM
        worker_manager.create_upper_phy_dl_executor wm
      pure (du_slot_exec, wm)
  let wm ←
    if nof_pdsch_workers > 1 then do
      let wm ← wm.create_worker_pool "pdsch" nof_pdsch_workers (2 * env.MAX_CBS_PER_PDU)
        (.max_minus 10)
      let pdsch ← wm.worker_pools_at "pdsch"
      pure { wm with upper_pdsch_exec := some (.task_worker_pool_executor pdsch.name) }
    else
      pure wm
  -- Executor mappers.
  pure { wm with
         du_high_exec_mapper :=
           some ⟨[du_cell_exec], [du_slot_exec], [du_ue_exec], du_ctrl_exec, du_timer_exec⟩ }

/-- The method `create_ofh_executor(name, priority_from_max, queue_size)`, returning the new
executor together with the updated manager. -/
def worker_manager.create_ofh_executor (wm : worker_manager) (name : String)
    (priority_from_max : Nat) (queue_size : Nat) :
    Except fault (task_executor × worker_manager) := do
  let cpu_idx := wm.affinity_manager.reserve_cpu_index
  let wm := { wm with affinity_manager := cpu_idx.2 }
  let wm :=
    match cpu_idx.1 with
    | none => { wm with printed := wm.printed ++ [print_event.affinity_failed name] }
    | some idx => { wm with printed := wm.printed ++ [print_event.affinity_set idx name] }
  let mask : os_sched_affinity_bitmask :=
    match cpu_idx.1 with
    | some idx => ⟨[idx]⟩
    | none => ⟨[]⟩
  let wm ← wm.create_worker name queue_size (.max_minus priority_from_max) mask
  let w ← wm.workers_at name
  pure (.task_worker_executor w.name true, wm)

/-- One iteration of the loop over the cells in `create_ofh_executors`. -/
def worker_manager.create_ofh_cell_executors (wm : worker_manager) (i : Nat) :
    Except fault worker_manager := do
  -- Executor for the Open Fronthaul User and Control messages codification.
  let r ← wm.create_ofh_executor ("ru_dl_" ++ to_string i) 5 task_worker_queue_size
  let wm := { r.2 with ru_dl_exec := r.2.ru_dl_exec ++ [r.1] }
  -- Executor for Open Fronthaul messages transmission.
  let r ← wm.create_ofh_executor ("ru_tx_" ++ to_string i) 1 task_worker_queue_size
  let wm := { r.2 with ru_tx_exec := r.2.ru_tx_exec ++ [r.1] }
  -- Executor for Open Fronthaul messages reception and decodification.
  let r ← wm.create_ofh_executor ("ru_rx_" ++ to_string i) 1 1
  pure { r.2 with ru_rx_exec := r.2.ru_rx_exec ++ [r.1] }

/-- The constant `MAX_NUM_THREADS_PER_CELL` of `create_ofh_executors`. -/
def MAX_NUM_THREADS_PER_CELL : Nat := 3

/-- The value `std::max(4U, std::max(hardware_concurrency, 4U) - 3U)` of
`create_ofh_executors`, in `unsigned` arithmetic. -/
def nof_host_threads (hardware_concurrency : Nat) : Nat :=
  max 4 ((max hardware_concurrency 4 + UINT_RANGE - 3) % UINT_RANGE)

/-- The value `(nof_cells * MAX_NUM_THREADS_PER_CELL) + 1`, in `unsigned` arithmetic. -/
def min_ofh_threads (nof_cells : Nat) : Nat :=
  ((nof_cells * MAX_NUM_THREADS_PER_CELL) % UINT_RANGE + 1) % UINT_RANGE

/-- The method `create_ofh_executors(nof_cells)`. -/
def worker_manager.create_ofh_executors (wm : worker_manager) (env : host) (nof_cells : Nat) :
    Except fault worker_manager := do
  let detected := nof_host_threads env.hardware_concurrency
  let wm :=
    if detected < min_ofh_threads nof_cells then
      { wm with
        printed := wm.printed ++ [print_event.ofh_threads_advisory detected (min_ofh_threads nof_cells)] }
    else
      wm
  -- Timing executor.
  let r ← wm.create_ofh_executor "ru_timing" 0 1
  let wm := { r.2 with ru_timing_exec := some r.1 }
  (List.range nof_cells).foldlM worker_manager.create_ofh_cell_executors wm

/-- The method `create_lower_phy_executors(lower_phy_profile)`. -/
def worker_manager.create_lower_phy_executors (wm : worker_manager)
    (lower_phy_profile : lower_phy_thread_profile) : Except fault worker_manager := do
  -- Radio Unit worker and executor.
  let wm ← wm.create_worker "radio" task_worker_queue_size .no_realtime ⟨[]⟩
  let radio ← wm.workers_at "radio"
  let wm := { wm with radio_exec := some (.task_worker_executor radio.name true) }
  -- Radio Unit statistics worker and executor.
  let wm ← wm.create_worker "ru_stats_worker" 1 .no_realtime ⟨[]⟩
  let ru_stats_worker ← wm.workers_at "ru_stats_worker"
  let wm := { wm with ru_printer_exec := some (.task_worker_executor ru_stats_worker.name true) }
  let wm := { wm with printed := wm.printed ++ [print_event.lower_phy_mode lower_phy_profile] }
  match lower_phy_profile with
  | .blocking => do
    let phy_worker ← wm.workers_at "phy_worker"
    let e := task_executor.task_worker_executor phy_worker.name true
    pure { wm with
           lower_prach_exec := some e, lower_phy_tx_exec := some e, lower_phy_rx_exec := some e,
           lower_phy_dl_exec := some e, lower_phy_ul_exec := some e }
  | .single => do
    let wm ← wm.create_worker "lower_phy" 128 (.max_minus 0) ⟨[]⟩
    let lower_phy_worker ← wm.workers_at "lower_phy"
    let e := task_executor.task_worker_executor lower_phy_worker.name true
    let wm := { wm with
                lower_phy_tx_exec := some e, lower_phy_rx_exec := some e,
                lower_phy_dl_exec := some e, lower_phy_ul_exec := some e }
    let phy_prach ← wm.workers_at "phy_prach"
    pure { wm with lower_prach_exec := some (.task_worker_executor phy_prach.name true) }
  | .dual => do
    let wm ← wm.create_worker "lower_phy_dl" 128 (.max_minus 0) ⟨[]⟩
    let wm ← wm.create_worker "lower_phy_ul" 2 (.max_minus 1) ⟨[]⟩
    let w ← wm.workers_at "lower_phy_dl"
    let wm := { wm with lower_phy_tx_exec := some (.task_worker_executor w.name true) }
    let w ← wm.workers_at "lower_phy_ul"
    let wm := { wm with lower_phy_rx_exec := some (.task_worker_executor w.name true) }
    let w ← wm.workers_at "lower_phy_dl"
    let wm := { wm with lower_phy_dl_exec := some (.task_worker_executor w.name true) }
    let w ← wm.workers_at "lower_phy_ul"
    let wm := { wm with lower_phy_ul_exec := some (.task_worker_executor w.name true) }
    let w ← wm.workers_at "phy_prach"
    pure { wm with lower_prach_exec := some (.task_worker_executor w.name true) }
  | .quad => do
    let wm ← wm.create_worker "lower_phy_tx" 128 (.max_minus 0) ⟨[]⟩
    let wm ← wm.create_worker "lower_phy_rx" 1 (.max_minus 2) ⟨[]⟩
    let wm ← wm.create_worker "lower_phy_dl" 128 (.max_minus 1) ⟨[]⟩
    let wm ← wm.create_worker "lower_phy_ul" 128 (.max_minus 3) ⟨[]⟩
    let w ← wm.workers_at "lower_phy_tx"
    let wm := { wm with lower_phy_tx_exec := some (.task_worker_executor w.name true) }
    let w ← wm.workers_at "lower_phy_rx"
    let wm := { wm with lower_phy_rx_exec := some (.task_worker_executor w.name true) }
    let w ← wm.workers_at "lower_phy_dl"
    let wm := { wm with lower_phy_dl_exec := some (.task_worker_executor w.name true) }
    let w ← wm.workers_at "lower_phy_ul"
    let wm := { wm with lower_phy_ul_exec := some (.task_worker_executor w.name true) }
    let w ← wm.workers_at "phy_prach"
    pure { wm with lower_prach_exec := some (.task_worker_executor w.name true) }

/-- The method `create_ru_executors(appcfg)`; `cells_cfg.size()` is converted to
`unsigned`. -/
def worker_manager.create_ru_executors (wm : worker_manager) (env : host)
    (appcfg : gnb_appconfig) : Except fault worker_manager :=
  match appcfg.ru_cfg with
  | .ofh _ => wm.create_ofh_executors env (appcfg.cells_cfg.length % UINT_RANGE)
  | .sdr sdr_cfg =>
    let driver := sdr_cfg.device_driver
    wm.create_lower_phy_executors
      (if driver != "zmq" then sdr_cfg.expert_cfg.lphy_executor_profile else .blocking)

/-- The constructor `worker_manager(appcfg)`. -/
def worker_manager.create (env : host) (appcfg : gnb_appconfig) :
    Except fault worker_manager := do
  let is_blocking_mode_active :=
    match appcfg.ru_cfg with
    | .sdr sdr_cfg => sdr_cfg.device_driver == "zmq"
    | .ofh _ => false
  let wm ← (worker_manager.init env).create_du_cu_executors env is_blocking_mode_active
    appcfg.expert_phy_cfg.nof_ul_threads appcfg.expert_phy_cfg.nof_dl_threads
    appcfg.expert_phy_cfg.nof_pdsch_threads
  wm.create_ru_executors env appcfg

/-- The method `stop()`: stops `du_cell_worker`, `gnb_ctrl_worker`, every entry of `workers`
and every entry of `worker_pools`. -/
def worker_manager.stop (wm : worker_manager) : Except fault worker_manager :=
  match wm.du_cell_worker, wm.gnb_ctrl_worker with
  | some du_cell, some gnb_ctrl =>
    .ok { wm with
          du_cell_worker := some { du_cell with running := false },
          gnb_ctrl_worker := some { gnb_ctrl with running := false },
          workers := fun n => (wm.workers n).map (fun w => { w with running := false }),
          worker_pools := fun n => (wm.worker_pools n).map (fun w => { w with running := false }) }
  | _, _ => .error .invalid_access

/-- The method `get_du_low_dl_executors(executors)`: the output vector holds the executors
of `du_low_dl_executors` in order. -/
def worker_manager.get_du_low_dl_executors (wm : worker_manager) : List task_executor :=
  wm.du_low_dl_executors

/-- The `workers` map after `k` iterations of the loop over `i_dl_worker`, started with the
map `base`. -/
def upper_phy_dl_workers (base : String → Option task_worker) : Nat → String → Option task_worker
  | 0 => base
  | k + 1 =>
    upd (upper_phy_dl_workers base k) ("upper_phy_dl#" ++ to_string k)
      (some ⟨"upper_phy_dl#" ++ to_string k, task_worker_queue_size, .max_minus 10, ⟨[]⟩, true⟩)

/-- The `worker_pools` map after the optional creation of the "pdsch" pool. -/
def with_pdsch_pool (env : host) (nof_pdsch_workers : Nat)
    (base : String → Option task_worker_pool) : String → Option task_worker_pool :=
  if nof_pdsch_workers > 1 then
    upd base "pdsch" (some ⟨nof_pdsch_workers, 2 * env.MAX_CBS_PER_PDU, "pdsch", .max_minus 10, true⟩)
  else
    base

/-- The manager that `create_du_cu_executors` builds in blocking mode. -/
def du_cu_blocking_state (env : host) (nof_pdsch_workers : Nat) : worker_manager :=
  { worker_manager.init env with
    workers :=
      upd (upd (fun _ => none) "gnb_ue" (some ⟨"gnb_ue", 512, .no_realtime, ⟨[]⟩, true⟩))
        "phy_worker" (some ⟨"phy_worker", task_worker_queue_size, .max_minus 0, ⟨[]⟩, true⟩),
    worker_pools := with_pdsch_pool env nof_pdsch_workers (fun _ => none),
    gnb_ctrl_worker :=
      some ⟨"gnb_ctrl", [64, task_worker_queue_size], 100, .max_minus 2, ⟨[]⟩, true⟩,
    du_cell_worker :=
      some ⟨"du_cell", [8, task_worker_queue_size], 10, .max_minus 2, ⟨[]⟩, true⟩,
    cu_cp_exec := some (.priority_task_worker_executor .min .gnb_ctrl_worker),
    cu_up_exec := some (.task_worker_executor "gnb_ue" true),
    gtpu_pdu_exec := some (.task_worker_executor "gnb_ue" false),
    du_ctrl_exec := some (.priority_task_worker_executor .min .gnb_ctrl_worker),
    du_timer_exec := some (.priority_task_worker_executor .max .gnb_ctrl_worker),
    du_ue_exec := some (.task_worker_executor "gnb_ue" true),
    du_cell_exec := some (.priority_task_worker_executor .min .du_cell_worker),
    du_slot_exec := some (.sync_executor (.priority_task_worker_executor .max .du_cell_worker)),
    upper_pusch_exec := some (.task_worker_executor "phy_worker" true),
    upper_pucch_exec := some (.task_worker_executor "phy_worker" true),
    upper_prach_exec := some (.task_worker_executor "phy_worker" true),
    upper_pdsch_exec :=
      if nof_pdsch_workers > 1 then some (.task_worker_pool_executor "pdsch") else none,
    du_low_dl_executors := [.task_worker_executor "phy_worker" true],
    du_high_exec_mapper :=
      some ⟨[.priority_task_worker_executor .min .du_cell_worker],
        [.sync_executor (.priority_task_worker_executor .max .du_cell_worker)],
        [.task_worker_executor "gnb_ue" true],
        .priority_task_worker_executor .min .gnb_ctrl_worker,
        .priority_task_worker_executor .max .gnb_ctrl_worker⟩ }

/-- The manager that `create_du_cu_executors` builds in non-blocking mode. -/
def du_cu_nonblocking_state (env : host) (nof_ul_workers nof_dl_workers nof_pdsch_workers : Nat) :
    worker_manager :=
  { worker_manager.init env with
    workers :=
      upper_phy_dl_workers
        (upd (upd (upd (fun _ => none) "gnb_ue" (some ⟨"gnb_ue", 512, .no_realtime, ⟨[]⟩, true⟩))
          "upper_phy_dl"
          (some ⟨"upper_phy_dl", task_worker_queue_size, .max_minus 10, ⟨[]⟩, true⟩))
          "phy_prach" (some ⟨"phy_prach", task_worker_queue_size, .max_minus 2, ⟨[]⟩, true⟩))
        nof_dl_workers,
    worker_pools :=
      with_pdsch_pool env nof_pdsch_workers
        (upd (fun _ => none) "upper_phy_ul"
          (some ⟨nof_ul_workers, task_worker_queue_size, "upper_phy_ul", .max_minus 20, true⟩)),
    gnb_ctrl_worker :=
      some ⟨"gnb_ctrl", [64, task_worker_queue_size], 100, .max_minus 2, ⟨[]⟩, true⟩,
    du_cell_worker :=
      some ⟨"du_cell", [8, task_worker_queue_size], 10, .max_minus 2, ⟨[]⟩, true⟩,
    cu_cp_exec := some (.priority_task_worker_executor .min .gnb_ctrl_worker),
    cu_up_exec := some (.task_worker_executor "gnb_ue" true),
    gtpu_pdu_exec := some (.task_worker_executor "gnb_ue" false),
    du_ctrl_exec := some (.priority_task_worker_executor .min .gnb_ctrl_worker),
    du_timer_exec := some (.priority_task_worker_executor .max .gnb_ctrl_worker),
    du_ue_exec := some (.task_worker_executor "gnb_ue" true),
    du_cell_exec := some (.priority_task_worker_executor .min .du_cell_worker),
    du_slot_exec := some (.priority_task_worker_executor .max .du_cell_worker),
    upper_pusch_exec := some (.task_worker_pool_executor "upper_phy_ul"),
    upper_pucch_exec := some (.task_worker_pool_executor "upper_phy_ul"),
    upper_prach_exec := some (.task_worker_executor "phy_prach" true),
    upper_pdsch_exec :=
      if nof_pdsch_workers > 1 then some (.task_worker_pool_executor "pdsch") else none,
    du_low_dl_executors :=
      (List.range nof_dl_workers).map
        (fun i => task_executor.task_worker_executor ("upper_phy_dl#" ++ to_string i) true),
    du_high_exec_mapper :=
      some ⟨[.priority_task_worker_executor .min .du_cell_worker],
        [.priority_task_worker_executor .max .du_cell_worker],
        [.task_worker_executor "gnb_ue" true],
        .priority_task_worker_executor .min .gnb_ctrl_worker,
        .priority_task_worker_executor .max .gnb_ctrl_worker⟩ }

/-- The manager after a `create_ofh_executor(name, priority_from_max, queue_size)` call that
registers `name`. -/
def ofh_executor_state (wm : worker_manager) (name : String) (priority_from_max : Nat)
    (queue_size : Nat) : worker_manager :=
  let cpu_idx := wm.affinity_manager.reserve_cpu_index
  { wm with
    affinity_manager := cpu_idx.2,
    printed :=
      wm.printed ++
        [match cpu_idx.1 with
         | none => print_event.affinity_failed name
         | some idx => print_event.affinity_set idx name],
    workers :=
      upd wm.workers name
        (some ⟨name, queue_size, .max_minus priority_from_max,
          match cpu_idx.1 with
          | some idx => ⟨[idx]⟩
          | none => ⟨[]⟩,
          true⟩) }

/-- The manager after the iteration for cell `i` of the loop of `create_ofh_executors`. -/
def ofh_cell_state (wm : worker_manager) (i : Nat) : worker_manager :=
  let wm1 := ofh_executor_state wm ("ru_dl_" ++ to_string i) 5 task_worker_queue_size
  let wm2 : worker_manager :=
    { wm1 with
      ru_dl_exec := wm1.ru_dl_exec ++ [.task_worker_executor ("ru_dl_" ++ to_string i) true] }
  let wm3 := ofh_executor_state wm2 ("ru_tx_" ++ to_string i) 1 task_worker_queue_size
  let wm4 : worker_manager :=
    { wm3 with
      ru_tx_exec := wm3.ru_tx_exec ++ [.task_worker_executor ("ru_tx_" ++ to_string i) true] }
  let wm5 := ofh_executor_state wm4 ("ru_rx_" ++ to_string i) 1 1
  { wm5 with
    ru_rx_exec := wm5.ru_rx_exec ++ [.task_worker_executor ("ru_rx_" ++ to_string i) true] }

/-- The manager after the first `k` iterations of the loop of `create_ofh_executors`. -/
def ofh_cells_state (wm : worker_manager) : Nat → worker_manager
  | 0 => wm
  | k + 1 => ofh_cell_state (ofh_cells_state wm k) k

/-- The manager after `create_ofh_executors(nof_cells)` when every name is free. -/
def ofh_state (wm : worker_manager) (env : host) (nof_cells : Nat) : worker_manager :=
  let detected := nof_host_threads env.hardware_concurrency
  let wm1 : worker_manager :=
    if detected < min_ofh_threads nof_cells then
      { wm with
        printed :=
          wm.printed ++ [print_event.ofh_threads_advisory detected (min_ofh_threads nof_cells)] }
    else
      wm
  let wm2 := ofh_executor_state wm1 "ru_timing" 0 1
  ofh_cells_state { wm2 with ru_timing_exec := some (.task_worker_executor "ru_timing" true) }
    nof_cells

/-- The configuration selects an SDR radio whose driver is not "zmq" together with the
lower-PHY thread profile `blocking`. -/
def gnb_appconfig.blocking_without_zmq (appcfg : gnb_appconfig) : Bool :=
  match appcfg.ru_cfg with
  | .sdr sdr_cfg =>
    sdr_cfg.device_driver != "zmq" && sdr_cfg.expert_cfg.lphy_executor_profile == .blocking
  | .ofh _ => false

/-- A host with 8 hardware threads and an affinity pool of two free cores. -/
def sample_host : host := ⟨8, 4, [false, false]⟩

/-- An SDR configuration with a hardware driver and the lower-PHY profile `blocking`. -/
def uhd_blocking_config : gnb_appconfig :=
  ⟨.sdr ⟨"uhd", ⟨.blocking⟩⟩, [⟨⟩], ⟨1, 1, 1⟩⟩

/-- An SDR configuration with a hardware driver and the lower-PHY profile `quad`. -/
def uhd_quad_config : gnb_appconfig :=
  ⟨.sdr ⟨"uhd", ⟨.quad⟩⟩, [⟨⟩, ⟨⟩], ⟨1, 1, 1⟩⟩

end srsran

namespace srsgnb

/-- A heap with one idle source (address 0, cancel value 99) and one fresh observer
(address 0). -/
def idle_heap : heap Nat :=
  { sources := upd (fun _ => none) 0 (some ⟨99, none, unique_timer.create⟩),
    observers := upd (fun _ => none) 0 (some ⟨none, ⟨none⟩⟩) }

/-- A heap with one source (address 0, cancel value 99, timer armed) holding observer 0. -/
def armed_heap : heap Nat :=
  { sources := upd (fun _ => none) 0 (some ⟨99, some 0, ⟨5, true, true⟩⟩),
    observers := upd (fun _ => none) 0 (some ⟨some 0, ⟨none⟩⟩) }

/-- Two sources, one observer, and the observer subscribed to both sources in turn. -/
def double_subscription : List (op Nat) :=
  [.new_source 0 99, .new_source 1 99, .new_observer 0, .subscribe_to 0 0, .subscribe_to 0 1]

/-- Two sources, one observer, and the observer subscribed to the first source. -/
def single_subscription : List (op Nat) :=
  [.new_source 0 99, .new_source 1 99, .new_observer 0, .subscribe_to 0 0]

end srsgnb

namespace srsran

/-- The manager after `create_lower_phy_executors(profile)` when no name is inserted twice
and the workers "phy_worker" (profile blocking) or "phy_prach" (other profiles) exist under
their own names. -/
def lower_phy_state (wm : worker_manager) (profile : lower_phy_thread_profile) :
    worker_manager :=
  let base : String → Option task_worker :=
    upd (upd wm.workers "radio" (some ⟨"radio", task_worker_queue_size, .no_realtime, ⟨[]⟩, true⟩))
      "ru_stats_worker" (some ⟨"ru_stats_worker", 1, .no_realtime, ⟨[]⟩, true⟩)
  let wm1 : worker_manager :=
    { wm with
      radio_exec := some (.task_worker_executor "radio" true),
      ru_printer_exec := some (.task_worker_executor "ru_stats_worker" true),
      printed := wm.printed ++ [print_event.lower_phy_mode profile] }
  match profile with
  | .blocking =>
    { wm1 with
      workers := base,
      lower_prach_exec := some (.task_worker_executor "phy_worker" true),
      lower_phy_tx_exec := some (.task_worker_executor "phy_worker" true),
      lower_phy_rx_exec := some (.task_worker_executor "phy_worker" true),
      lower_phy_dl_exec := some (.task_worker_executor "phy_worker" true),
      lower_phy_ul_exec := some (.task_worker_executor "phy_worker" true) }
  | .single =>
    { wm1 with
      workers := upd base "lower_phy" (some ⟨"lower_phy", 128, .max_minus 0, ⟨[]⟩, true⟩),
      lower_prach_exec := some (.task_worker_executor "phy_prach" true),
      lower_phy_tx_exec := some (.task_worker_executor "lower_phy" true),
      lower_phy_rx_exec := some (.task_worker_executor "lower_phy" true),
      lower_phy_dl_exec := some (.task_worker_executor "lower_phy" true),
      lower_phy_ul_exec := some (.task_worker_executor "lower_phy" true) }
  | .dual =>
    { wm1 with
      workers :=
        upd (upd base "lower_phy_dl" (some ⟨"lower_phy_dl", 128, .max_minus 0, ⟨[]⟩, true⟩))
          "lower_phy_ul" (some ⟨"lower_phy_ul", 2, .max_minus 1, ⟨[]⟩, true⟩),
      lower_prach_exec := some (.task_worker_executor "phy_prach" true),
      lower_phy_tx_exec := some (.task_worker_executor "lower_phy_dl" true),
      lower_phy_rx_exec := some (.task_worker_executor "lower_phy_ul" true),
      lower_phy_dl_exec := some (.task_worker_executor "lower_phy_dl" true),
      lower_phy_ul_exec := some (.task_worker_executor "lower_phy_ul" true) }
  | .quad =>
    { wm1 with
      workers :=
        upd (upd (upd (upd base
          "lower_phy_tx" (some ⟨"lower_phy_tx", 128, .max_minus 0, ⟨[]⟩, true⟩))
          "lower_phy_rx" (some ⟨"lower_phy_rx", 1, .max_minus 2, ⟨[]⟩, true⟩))
          "lower_phy_dl" (some ⟨"lower_phy_dl", 128, .max_minus 1, ⟨[]⟩, true⟩))
          "lower_phy_ul" (some ⟨"lower_phy_ul", 128, .max_minus 3, ⟨[]⟩, true⟩),
      lower_prach_exec := some (.task_worker_executor "phy_prach" true),
      lower_phy_tx_exec := some (.task_worker_executor "lower_phy_tx" true),
      lower_phy_rx_exec := some (.task_worker_executor "lower_phy_rx" true),
      lower_phy_dl_exec := some (.task_worker_executor "lower_phy_dl" true),
      lower_phy_ul_exec := some (.task_worker_executor "lower_phy_ul" true) }

/-- Whether an executor is a synchronous (blocking-until-complete) adapter, that is, was
built by `make_sync_executor`. -/
def task_executor.is_sync : task_executor → Bool
  | .sync_executor _ => true
  | _ => false

/-- Whether a printed line reports the outcome of a CPU-affinity reservation; each call of
`create_ofh_executor` reserves once and prints exactly one such line. -/
def print_event.is_affinity : print_event → Bool
  | .affinity_failed _ => true
  | .affinity_set _ _ => true
  | _ => false

/-- An Open Fronthaul configuration with the given cells and thread counts. -/
def ofh_config (cells_cfg : List cell_appconfig) (ul dl pdsch : Nat) : gnb_appconfig :=
  ⟨.ofh ⟨⟩, cells_cfg, ⟨ul, dl, pdsch⟩⟩

/-- An SDR configuration with the given driver, profile, cells and thread counts. -/
def sdr_config (driver : String) (profile : lower_phy_thread_profile)
    (cells_cfg : List cell_appconfig) (ul dl pdsch : Nat) : gnb_appconfig :=
  ⟨.sdr ⟨driver, ⟨profile⟩⟩, cells_cfg, ⟨ul, dl, pdsch⟩⟩

/-- The number of CPU-affinity reservation requests that the manager has made, read off the
lines it printed. -/
def worker_manager.nof_affinity_requests (wm : worker_manager) : Nat :=
  (wm.printed.filter print_event.is_affinity).length

/-- An Open Fronthaul configuration with three cells. -/
def ofh_three_cells : gnb_appconfig := ofh_config [⟨⟩, ⟨⟩, ⟨⟩] 1 1 1

/-- The affinity mask that `create_ofh_executor` builds from the outcome of the reservation:
the single reserved index, or the empty mask when the reservation failed. -/
def mask_of_reservation : Option Nat → os_sched_affinity_bitmask
  | some idx => ⟨[idx]⟩
  | none => ⟨[]⟩

/-- The affinity manager after `j` calls of `reserve_cpu_index`. -/
def affinity_mask_manager.after (m : affinity_mask_manager) : Nat → affinity_mask_manager
  | 0 => m
  | j + 1 => (m.after j).reserve_cpu_index.2

/-- The outcome of the call of `reserve_cpu_index` that follows `j` earlier calls. -/
def affinity_mask_manager.nth_reservation (m : affinity_mask_manager) (j : Nat) : Option Nat :=
  (m.after j).reserve_cpu_index.1

end srsran

namespace srsran.srs_cu_cp

/-- A DU index, the underlying integer of the enumeration `du_index_t`; functions that
compute an index return it as a plain number. -/
abbrev du_index_t := Nat

/-- The constants about DU indices that du_processor_repository.cpp uses.  They are declared
in cu_cp_types.h, which is not part of the sources, and are therefore parameters of the
model: `min` stands for `du_index_to_uint(du_index_t::min)` and `invalid` for
`du_index_to_uint(du_index_t::invalid)`. -/
structure du_index_limits where
  min : Nat
  MAX_NOF_DUS : Nat
  invalid : Nat
  deriving DecidableEq, Repr

/-- The fields of `du_processor_config_t` that `add_du` fills in; the RRC configuration is
an uninterpreted value. -/
structure du_processor_config_t where
  du_index : du_index_t
  rrc_cfg : Nat
  deriving DecidableEq, Repr

/-- Modelled from the spec: the class behind `du_processor_interface` is not part of the
sources.  The spec calls it the per-connection state object kept in the repository; the
model keeps its context index, its configuration and whether `handle_amf_connection()` was
called on it. -/
structure du_processor_interface where
  context_du_index : du_index_t
  cfg : du_processor_config_t
  amf_connection_handled : Bool
  deriving DecidableEq, Repr

/-- An entry `du_context` of `du_db`: the two notifiers, each with the flag "connected", and
the owning pointer to the DU processor (`none` is the null pointer). -/
structure du_context where
  du_to_cu_cp_notifier : Bool
  du_processor : Option du_processor_interface
  ngap_du_processor_notifier : Bool
  deriving DecidableEq, Repr

/-- The tasks that du_processor_repository.cpp launches with `launch_async`: the removal
task of `remove_du(du_index)`. -/
inductive async_task where
  | remove_du (du_index : du_index_t)
  deriving DecidableEq, Repr

/-- Modelled from the spec: the class of `du_task_sched` is not part of the sources.  The
spec describes "a per-entity-key ordered task queue maintained by a task scheduler external
collaborator": one FIFO queue of pending tasks per DU index. -/
structure du_task_scheduler where
  queues : du_index_t → List async_task

/-- Modelled from the spec: `handle_du_async_task(du_index, task)` schedules the task "onto a
per-entity-key ordered task queue", that is, appends it to the queue of `du_index`; it does
not run it. -/
def du_task_scheduler.handle_du_async_task (s : du_task_scheduler) (du_index : du_index_t)
    (task : async_task) : du_task_scheduler :=
  ⟨upd s.queues du_index (s.queues du_index ++ [task])⟩

/-- The fields of `du_repository_config` that decide the control flow of the repository. -/
structure du_repository_config where
  amf_connected : Bool
  rrc_config : Nat
  deriving DecidableEq, Repr

/-- Data members of `du_processor_repository` (logger output is not part of the modelled
state). -/
structure du_processor_repository where
  cfg : du_repository_config
  du_db : du_index_t → Option du_context
  du_task_sched : du_task_scheduler

/-- The loop of `get_next_du_index()` with `fuel` iterations left, at `du_idx_int`: the first
index without entry, or `invalid` when the loop ends. -/
def get_next_du_index_loop (lim : du_index_limits) (du_db : du_index_t → Option du_context) :
    Nat → Nat → Nat
  | 0, _ => lim.invalid
  | fuel + 1, du_idx_int =>
    if (du_db du_idx_int).isNone then du_idx_int
    else get_next_du_index_loop lim du_db fuel (du_idx_int + 1)

/-- The method `get_next_du_index()`: the loop runs from `du_index_t::min` while
`du_idx_int < MAX_NOF_DUS`. -/
def du_processor_repository.get_next_du_index (repo : du_processor_repository)
    (lim : du_index_limits) : Nat :=
  get_next_du_index_loop lim repo.du_db (lim.MAX_NOF_DUS - lim.min) lim.min

/-- The method `add_du()`, returning the index together with the updated repository.  The
factory `create_du_processor` is not part of the sources and is a parameter; `none` is the
null pointer. -/
def du_processor_repository.add_du (repo : du_processor_repository) (lim : du_index_limits)
    (create_du_processor : du_processor_config_t → Option du_processor_interface) :
    Except fault (du_index_t × du_processor_repository) :=
  let du_index := repo.get_next_du_index lim
  if du_index = lim.invalid then
    .ok (lim.invalid, repo)
  else
    -- Create DU object
    match repo.du_db du_index with
    | some _ => .error (.assertion "Unable to insert DU in map")
    | none =>
      let du_cfg : du_processor_config_t := ⟨du_index, repo.cfg.rrc_config⟩
      match create_du_processor du_cfg with
      | none => .error (.assertion "Failed to create DU processor")
      | some du =>
        let du1 : du_processor_interface := { du with context_du_index := du_index }
        .ok (du_index,
          { repo with du_db := upd repo.du_db du_index (some ⟨true, some du1, true⟩) })

/-- The method `handle_new_du_connection()`. -/
def du_processor_repository.handle_new_du_connection (repo : du_processor_repository)
    (lim : du_index_limits)
    (create_du_processor : du_processor_config_t → Option du_processor_interface) :
    Except fault du_processor_repository :=
  match repo.add_du lim create_du_processor with
  | .error e => .error e
  | .ok (du_index, repo1) =>
    if du_index = lim.invalid then
      .ok repo1
    else if repo1.cfg.amf_connected then
      match repo1.du_db du_index with
      | none => .error (.out_of_range "du_db")
      | some ctx =>
        match ctx.du_processor with
        | none => .error .invalid_access
        | some du =>
          .ok { repo1 with
                du_db :=
                  upd repo1.du_db du_index
                    (some { ctx with
                            du_processor := some { du with amf_connection_handled := true } }) }
    else
      .ok repo1

/-- The method `remove_du(du_index)`: asserts that the index is not `invalid` and schedules
the removal task on the queue of `du_index`. -/
def du_processor_repository.remove_du (repo : du_processor_repository) (lim : du_index_limits)
    (du_index : du_index_t) : Except fault du_processor_repository :=
  if du_index = lim.invalid then
    .error (.assertion "Invalid du_index")
  else
    .ok { repo with
          du_task_sched :=
            repo.du_task_sched.handle_du_async_task du_index (.remove_du du_index) }

/-- The method `handle_du_remove_request(du_index)`. -/
def du_processor_repository.handle_du_remove_request (repo : du_processor_repository)
    (lim : du_index_limits) (du_index : du_index_t) : Except fault du_processor_repository :=
  repo.remove_du lim du_index

/-- The body of a launched task.  The removal task asserts that `du_index` has an entry and
erases it. -/
def async_task.run (repo : du_processor_repository) : async_task →
    Except fault du_processor_repository
  | .remove_du du_index =>
    match repo.du_db du_index with
    | none => .error (.assertion "Remove DU called for inexistent du_index")
    | some _ => .ok { repo with du_db := upd repo.du_db du_index none }

/-- Modelled from the spec: the scheduler takes the oldest task of the queue of `du_index`
and executes it; with an empty queue nothing happens. -/
def du_processor_repository.run_next_du_task (repo : du_processor_repository)
    (du_index : du_index_t) : Except fault du_processor_repository :=
  match repo.du_task_sched.queues du_index with
  | [] => .ok repo
  | task :: rest =>
    task.run { repo with du_task_sched := ⟨upd repo.du_task_sched.queues du_index rest⟩ }

/-- The method `find_du(du_index)`: two assertions, then `*du_db.at(du_index).du_processor`. -/
def du_processor_repository.find_du (repo : du_processor_repository) (lim : du_index_limits)
    (du_index : du_index_t) : Except fault du_processor_interface :=
  if du_index = lim.invalid then
    .error (.assertion "Invalid du_index")
  else
    match repo.du_db du_index with
    | none => .error (.assertion "DU not found")
    | some ctx =>
      match ctx.du_processor with
      | none => .error .invalid_access
      | some du => .ok du

/-- Index limits with six DUs, indices 0 to 5 and `invalid` equal to 6. -/
def sample_limits : du_index_limits := ⟨0, 6, 6⟩

/-- A DU processor with context index `i`. -/
def sample_processor (i : du_index_t) : du_processor_interface := ⟨i, ⟨i, 0⟩, false⟩

/-- A repository that holds DU 0 and DU 1 and has no pending task. -/
def sample_repository : du_processor_repository :=
  { cfg := ⟨false, 0⟩,
    du_db := upd (upd (fun _ => none) 0 (some ⟨true, some (sample_processor 0), true⟩))
      1 (some ⟨true, some (sample_processor 1), true⟩),
    du_task_sched := ⟨fun _ => []⟩ }

end srsran.srs_cu_cp

namespace srsran

/-- The priority lane and the priority worker that an executor submits to, read through the
synchronous adapter; `none` for an executor on an entry of `workers` or `worker_pools`. -/
def task_executor.lane : task_executor → Option (task_queue_priority × priority_worker)
  | .task_worker_executor _ _ => none
  | .task_worker_pool_executor _ => none
  | .priority_task_worker_executor prio worker => some (prio, worker)
  | .sync_executor inner => inner.lane

/-- The key of the entry of `workers` that an executor is bound to, read through the
synchronous adapter; `none` for a pool executor and for a priority executor. -/
def task_executor.worker_name : task_executor → Option String
  | .task_worker_executor worker _ => some worker
  | .task_worker_pool_executor _ => none
  | .priority_task_worker_executor _ _ => none
  | .sync_executor inner => inner.worker_name

/-- The profile that `create_ru_executors` hands to `create_lower_phy_executors` for an SDR
radio: the expression `(driver != "zmq") ? lphy_executor_profile : blocking`. -/
def effective_profile (driver : String) (profile : lower_phy_thread_profile) :
    lower_phy_thread_profile :=
  if driver != "zmq" then profile else .blocking

/-- The keys of the distinct entries of `workers` behind the lower-PHY tx, rx, dl and ul
executors. -/
def worker_manager.lower_phy_workers (wm : worker_manager) : List String :=
  ([wm.lower_phy_tx_exec, wm.lower_phy_rx_exec, wm.lower_phy_dl_exec,
    wm.lower_phy_ul_exec].filterMap (fun e => e.bind task_executor.worker_name)).dedup

/-- Every executor handle held by the manager: the executor pointers, the executor vectors
and the members of the DU-high executor mapper. -/
def worker_manager.executors (wm : worker_manager) : List task_executor :=
  [wm.cu_cp_exec, wm.cu_up_exec, wm.gtpu_pdu_exec, wm.du_ctrl_exec, wm.du_timer_exec,
    wm.du_ue_exec, wm.du_cell_exec, wm.du_slot_exec, wm.upper_pusch_exec, wm.upper_pucch_exec,
    wm.upper_prach_exec, wm.upper_pdsch_exec, wm.radio_exec, wm.ru_printer_exec,
    wm.lower_prach_exec, wm.lower_phy_tx_exec, wm.lower_phy_rx_exec, wm.lower_phy_dl_exec,
    wm.lower_phy_ul_exec, wm.ru_timing_exec].filterMap id ++
  wm.du_low_dl_executors ++ wm.ru_dl_exec ++ wm.ru_tx_exec ++ wm.ru_rx_exec ++
  (match wm.du_high_exec_mapper with
   | some m => m.cell_execs ++ m.slot_execs ++ m.ue_execs ++ [m.ctrl_exec, m.timer_exec]
   | none => [])

/-- Whether a printed line is the Open Fronthaul thread-count advisory. -/
def print_event.is_advisory : print_event → Bool
  | .ofh_threads_advisory _ _ => true
  | _ => false

/-- The thread-count advisories that the manager has printed, in order. -/
def worker_manager.advisories (wm : worker_manager) : List print_event :=
  wm.printed.filter print_event.is_advisory

/-- The manager with its printed lines left out: the workers, pools, executors and the
affinity manager. -/
def worker_manager.without_printed (wm : worker_manager) : worker_manager :=
  { wm with printed := [] }

/-- A cell count for which `nof_cells * 3 + 1` leaves the range of `unsigned`. -/
def wrapping_cell_count : Nat := 1431655765

end srsran

namespace srsgnb

/-- The sequence `double_subscription` followed by the destruction of the observer. -/
def dangling_subscription : List (op Nat) :=
  double_subscription ++ [.destroy_observer 0]

/-- One source with cancel value 99; observer 0 subscribes with a timeout and is destroyed
before the timer expires. -/
def abandoned_timeout : List (op Nat) :=
  [.new_source 0 99, .new_observer 0, .subscribe_to_timeout 0 0 5, .destroy_observer 0]

/-- The sequence `abandoned_timeout`, after which observer 1 subscribes without a timeout
and the timer of the source expires. -/
def stale_timer_run : List (op Nat) :=
  abandoned_timeout ++ [.new_observer 1, .subscribe_to 1 0, .timer_expiry 0]

end srsgnb

namespace srsran.srs_cu_cp

/-- The constructor `du_processor_repository(cfg_)`: the configuration is stored, `du_db` is
empty and the task scheduler holds no task. -/
def du_processor_repository.create (cfg : du_repository_config) : du_processor_repository :=
  ⟨cfg, fun _ => none, ⟨fun _ => []⟩⟩

/-- The calls that reach the repository: `add_du()` and `handle_new_du_connection()` (each
with the DU processor that the factory hands out at that call), `remove_du(du_index)`, and
the execution by the scheduler of the oldest pending task of a DU index. -/
inductive repo_op where
  | add_du (create_du_processor : du_processor_config_t → Option du_processor_interface)
  | handle_new_du_connection
      (create_du_processor : du_processor_config_t → Option du_processor_interface)
  | remove_du (du_index : du_index_t)
  | run_next_du_task (du_index : du_index_t)

/-- Effect of one call on the repository. -/
def repo_step (lim : du_index_limits) (repo : du_processor_repository) :
    repo_op → Except fault du_processor_repository
  | .add_du create_du_processor =>
    match repo.add_du lim create_du_processor with
    | .error e => .error e
    | .ok r => .ok r.2
  | .handle_new_du_connection create_du_processor =>
    repo.handle_new_du_connection lim create_du_processor
  | .remove_du du_index => repo.remove_du lim du_index
  | .run_next_du_task du_index => repo.run_next_du_task du_index

/-- Effect of a sequence of calls, stopping at the first fault. -/
def repo_run (lim : du_index_limits) (repo : du_processor_repository) :
    List repo_op → Except fault du_processor_repository
  | [] => .ok repo
  | a :: rest =>
    match repo_step lim repo a with
    | .error e => .error e
    | .ok repo1 => repo_run lim repo1 rest

/-- Whether the call `a`, made in state `repo`, is a `remove_du(i)` for an index that has no
entry or that already has a pending task. -/
def repo_op.removes_absent_or_pending (repo : du_processor_repository) : repo_op → Bool
  | .remove_du du_index =>
    (repo.du_db du_index).isNone || !(repo.du_task_sched.queues du_index).isEmpty
  | _ => false

/-- Along the sequence of calls started in `repo`, every `remove_du(i)` is made while index
`i` has an entry and no pending task. -/
def removes_only_present (lim : du_index_limits) (repo : du_processor_repository) :
    List repo_op → Prop
  | [] => True
  | a :: rest =>
    a.removes_absent_or_pending repo = false ∧
      match repo_step lim repo a with
      | .ok repo1 => removes_only_present lim repo1 rest
      | .error _ => True

/-- Whether a call is the execution of a pending task of `du_index`. -/
def repo_op.runs_task_of (du_index : du_index_t) : repo_op → Bool
  | .run_next_du_task j => j == du_index
  | _ => false

/-- A factory that hands out a DU processor for the requested index. -/
def sample_factory (cfg : du_processor_config_t) : Option du_processor_interface :=
  some (sample_processor cfg.du_index)

/-- The removal of DU 0 is requested before any DU exists; a DU is then added and the
pending task executes. -/
def early_removal : List repo_op :=
  [.remove_du 0, .add_du sample_factory, .run_next_du_task 0]

/-- A DU is added and its removal is requested twice; both pending tasks execute. -/
def double_removal : List repo_op :=
  [.add_du sample_factory, .remove_du 0, .remove_du 0, .run_next_du_task 0,
    .run_next_du_task 0]

/-- A DU is added, its removal is requested, a second DU is added, and the pending task
executes. -/
def orderly_removal : List repo_op :=
  [.add_du sample_factory, .remove_du 0, .add_du sample_factory, .run_next_du_task 0]

/-- Every entry of `du_db` sits at an index from `du_index_t::min` up to, not including,
`MAX_NOF_DUS`. -/
def entries_in_range (lim : du_index_limits) (repo : du_processor_repository) : Prop :=
  ∀ j, repo.du_db j ≠ none → lim.min ≤ j ∧ j < lim.MAX_NOF_DUS

/-- Every index has either no pending task, or exactly one pending removal and an entry. -/
def pending_removals_present (repo : du_processor_repository) : Prop :=
  ∀ j, repo.du_task_sched.queues j = [] ∨
    (repo.du_task_sched.queues j = [async_task.remove_du j] ∧ repo.du_db j ≠ none)

end srsran.srs_cu_cp

namespace srsran

/-- The DL DCI formats named in search_space_helper.h; the enumeration `dci_dl_format` is
declared in a header that is not part of the sources. -/
inductive dci_dl_format where
  | f1_0
  | f1_1
  | f2_0
  deriving DecidableEq, Repr

/-- The UL DCI formats named in search_space_helper.h; the enumeration `dci_ul_format` is
declared in a header that is not part of the sources. -/
inductive dci_ul_format where
  | f0_0
  | f0_1
  deriving DecidableEq, Repr

/-- The enumeration `search_space_configuration::type_t`. -/
inductive search_space_configuration.type_t where
  | common
  | ue_dedicated
  deriving DecidableEq, Repr

/-- The enumeration `search_space_configuration::ue_specific_dci_format`. -/
inductive search_space_configuration.ue_specific_dci_format where
  | f0_0_and_f1_0
  | f0_1_and_1_1
  deriving DecidableEq, Repr

/-- The flags of the member `common` of `search_space_configuration` that
search_space_helper.h reads. -/
structure search_space_configuration.common_dci_format where
  f0_0_and_f1_0 : Bool
  f2_0 : Bool
  deriving DecidableEq, Repr

/-- The members of `search_space_configuration` that search_space_helper.h reads; the type
is declared in search_space.h, which is not part of the sources. -/
structure search_space_configuration where
  type : search_space_configuration.type_t
  common : search_space_configuration.common_dci_format
  ue_specific : search_space_configuration.ue_specific_dci_format
  deriving DecidableEq, Repr

namespace search_space_helper

/-- The function `search_space_supports_dl_dci_format(ss_cfg, dci_fmt)`; the `default` branch
of each `switch` is `srsran_assertion_failure`. -/
def search_space_supports_dl_dci_format (ss_cfg : search_space_configuration)
    (dci_fmt : dci_dl_format) : Except fault Bool :=
  if ss_cfg.type = .common then
    match dci_fmt with
    | .f1_0 => .ok ss_cfg.common.f0_0_and_f1_0
    | .f2_0 => .ok ss_cfg.common.f2_0
    -- default:
    | .f1_1 => .error (.assertion "DCI format not supported for common SearchSpace")
  else
    match dci_fmt with
    | .f1_0 => .ok (ss_cfg.ue_specific == .f0_0_and_f1_0)
    | .f1_1 => .ok (ss_cfg.ue_specific == .f0_1_and_1_1)
    -- default:
    | .f2_0 => .error (.assertion "DCI format not supported for UE-dedicated SearchSpace")

/-- The function `get_dl_dci_format(ss_cfg)`. -/
def get_dl_dci_format (ss_cfg : search_space_configuration) : Except fault dci_dl_format :=
  if ss_cfg.type = .common then
    if ss_cfg.common.f0_0_and_f1_0 then
      .ok .f1_0
    else
      .error (.fatal_error "Unsupported DL DCI format")
  else
    match ss_cfg.ue_specific with
    | .f0_0_and_f1_0 => .ok .f1_0
    | .f0_1_and_1_1 => .ok .f1_1

/-- The function `get_ul_dci_format(ss_cfg)`. -/
def get_ul_dci_format (ss_cfg : search_space_configuration) : Except fault dci_ul_format :=
  if ss_cfg.type = .common then
    if ss_cfg.common.f0_0_and_f1_0 then
      .ok .f0_0
    else
      .error (.fatal_error "Unsupported UL DCI format")
  else
    match ss_cfg.ue_specific with
    | .f0_0_and_f1_0 => .ok .f0_0
    | .f0_1_and_1_1 => .ok .f0_1

end search_space_helper

end srsran

/-! ## Theorems -/

/-- Reading a map at the key that was just written gives the written value. -/
@[simp]
theorem upd_same {κ α : Type} [DecidableEq κ] (f : κ → α) (k : κ) (v : α) :
    upd f k v k = v := by
  simp [upd]

/-- Writing a map at one key leaves every other key unchanged. -/
theorem upd_other {κ α : Type} [DecidableEq κ] (f : κ → α) (k i : κ) (v : α) (hne : i ≠ k) :
    upd f k v i = f i := by
  simp [upd, hne]

/-- Writing a map twice at the same key keeps the second value. -/
theorem upd_upd {κ α : Type} [DecidableEq κ] (f : κ → α) (k : κ) (v w : α) :
    upd (upd f k v) k w = upd f k w := by
  funext i
  by_cases hi : i = k <;> simp [upd, hi]

namespace srsgnb

/-- What `set` computes on a source whose subscriber pointer designates a live observer. -/
theorem set_with_subscriber {T : Type} (h : heap T) (s : source_id)
    (src : async_event_source T) (o : observer_id) (ob : async_single_event_observer T) (u : T)
    (hs : h.sources s = some src) (hsub : src.sub = some o) (ho : h.observers o = some ob) :
    async_event_source.set h s u =
      .ok (true,
        { sources := upd h.sources s
            (some { src with sub := none, running_timer := src.running_timer.stop }),
          observers := upd h.observers o (some { parent := none, event := ⟨some u⟩ }) }) := by
  simp [async_event_source.set, async_event_source.remove_observer, hs, hsub, ho,
    async_event_source.has_subscriber, manual_event.set, upd_upd]

/-- What `set` computes on a source without subscriber. -/
theorem set_without_subscriber {T : Type} (h : heap T) (s : source_id)
    (src : async_event_source T) (u : T)
    (hs : h.sources s = some src) (hsub : src.sub = none) :
    async_event_source.set h s u = .ok (false, h) := by
  simp [async_event_source.set, hs, hsub, async_event_source.has_subscriber]

/-- What `set_observer` computes on an idle source and an incomplete observer. -/
theorem set_observer_ok {T : Type} (h : heap T) (s : source_id)
    (src : async_event_source T) (o : observer_id) (ob : async_single_event_observer T)
    (hs : h.sources s = some src) (ho : h.observers o = some ob)
    (hidle : src.sub = none) (hpending : ob.event.data = none) :
    async_event_source.set_observer h s o =
      .ok { sources := upd h.sources s (some { src with sub := some o }),
            observers := upd h.observers o (some { ob with parent := some s }) } := by
  simp [async_event_source.set_observer, hs, ho, hidle, hpending,
    async_event_source.has_subscriber, manual_event.is_set]

/-- C2: after a fresh observer is subscribed to an idle source, `set(v1)` returns true and
completes the observer with `v1`; an immediately following `set(v2)` returns false and the
observer's result is still `v1`. -/
theorem set_delivers_once {T : Type} (h : heap T) (s : source_id) (o : observer_id)
    (src : async_event_source T) (ob : async_single_event_observer T) (v1 v2 : T)
    (hs : h.sources s = some src) (hidle : src.has_subscriber = false)
    (ho : h.observers o = some ob) (hpending : ob.complete = false) :
    ∃ h1 h2 h3 ob2 ob3,
      async_single_event_observer.subscribe_to h o s = .ok h1 ∧
      async_event_source.set h1 s v1 = .ok (true, h2) ∧
      h2.observers o = some ob2 ∧ ob2.complete = true ∧ ob2.result = .ok v1 ∧
      async_event_source.set h2 s v2 = .ok (false, h3) ∧
      h3.observers o = some ob3 ∧ ob3.result = .ok v1 := by
  have hidle' : src.sub = none := by
    simpa [async_event_source.has_subscriber] using hidle
  have hpending' : ob.event.data = none := by
    simpa [async_single_event_observer.complete, manual_event.is_set] using hpending
  have h1eq := set_observer_ok h s src o ob hs ho hidle' hpending'
  have h2eq := set_with_subscriber
    { sources := upd h.sources s (some { src with sub := some o }),
      observers := upd h.observers o (some { ob with parent := some s }) }
    s { src with sub := some o } o { ob with parent := some s }
    v1 (upd_same _ _ _) rfl (upd_same _ _ _)
  have h3eq := set_without_subscriber
    { sources := upd (upd h.sources s (some { src with sub := some o })) s
        (some { src with sub := none, running_timer := src.running_timer.stop }),
      observers := upd (upd h.observers o (some { ob with parent := some s })) o
        (some { parent := none, event := ⟨some v1⟩ }) }
    s { src with sub := none, running_timer := src.running_timer.stop } v2
    (upd_same _ _ _) rfl
  have hres : (⟨none, ⟨some v1⟩⟩ : async_single_event_observer T).result = .ok v1 := by
    simp [async_single_event_observer.result, async_single_event_observer.complete,
      manual_event.is_set, manual_event.get]
  have hcomp : (⟨none, ⟨some v1⟩⟩ : async_single_event_observer T).complete = true := by
    simp [async_single_event_observer.complete, manual_event.is_set]
  exact ⟨_, _, _, ⟨none, ⟨some v1⟩⟩, ⟨none, ⟨some v1⟩⟩, h1eq, h2eq, upd_same _ _ _, hcomp, hres,
    h3eq, upd_same _ _ _, hres⟩

/-- Witness for C2 on `idle_heap` with the values 7 and 8. -/
theorem set_delivers_once_witness :
    ∃ h1 h2 h3 ob2 ob3,
      async_single_event_observer.subscribe_to idle_heap 0 0 = .ok h1 ∧
      async_event_source.set h1 0 7 = .ok (true, h2) ∧
      h2.observers 0 = some ob2 ∧ ob2.complete = true ∧ ob2.result = .ok 7 ∧
      async_event_source.set h2 0 8 = .ok (false, h3) ∧
      h3.observers 0 = some ob3 ∧ ob3.result = .ok 7 :=
  set_delivers_once idle_heap 0 0 ⟨99, none, unique_timer.create⟩ ⟨none, ⟨none⟩⟩ 7 8
    (by rfl) (by rfl) (by rfl) (by rfl)

/-- C3: on a live source and a live observer, `subscribe_to` succeeds exactly when the source
has no subscriber and the observer's event is not set; in every other case it raises an
assertion fault; on success the source's subscriber is the observer and the observer's
parent is the source. -/
theorem subscribe_to_succeeds_iff {T : Type} (h : heap T) (s : source_id) (o : observer_id)
    (src : async_event_source T) (ob : async_single_event_observer T)
    (hs : h.sources s = some src) (ho : h.observers o = some ob) :
    ((∃ h1, async_single_event_observer.subscribe_to h o s = .ok h1) ↔
      (src.has_subscriber = false ∧ ob.event.is_set = false)) ∧
    (¬ (src.has_subscriber = false ∧ ob.event.is_set = false) →
      ∃ msg, async_single_event_observer.subscribe_to h o s = .error (.assertion msg)) ∧
    (∀ h1, async_single_event_observer.subscribe_to h o s = .ok h1 →
      (∃ src1, h1.sources s = some src1 ∧ src1.sub = some o) ∧
      (∃ ob1, h1.observers o = some ob1 ∧ ob1.parent = some s)) := by
  unfold async_single_event_observer.subscribe_to async_event_source.set_observer
  simp only [hs, ho]
  by_cases h1 : src.has_subscriber = true
  · simp [h1]
  · by_cases h2 : ob.event.is_set = true
    · simp [h1, h2]
    · simp only [h1, h2]
      simp

/-- Witness for C3 on `idle_heap`. -/
theorem subscribe_to_succeeds_iff_witness :
    ((∃ h1, async_single_event_observer.subscribe_to idle_heap 0 0 = .ok h1) ↔
      ((⟨99, none, unique_timer.create⟩ : async_event_source Nat).has_subscriber = false ∧
        (⟨none⟩ : manual_event Nat).is_set = false)) ∧
    (¬ ((⟨99, none, unique_timer.create⟩ : async_event_source Nat).has_subscriber = false ∧
        (⟨none⟩ : manual_event Nat).is_set = false) →
      ∃ msg, async_single_event_observer.subscribe_to idle_heap 0 0 = .error (.assertion msg)) ∧
    (∀ h1, async_single_event_observer.subscribe_to idle_heap 0 0 = .ok h1 →
      (∃ src1, h1.sources 0 = some src1 ∧ src1.sub = some 0) ∧
      (∃ ob1, h1.observers 0 = some ob1 ∧ ob1.parent = some 0)) :=
  subscribe_to_succeeds_iff idle_heap 0 0 ⟨99, none, unique_timer.create⟩ ⟨none, ⟨none⟩⟩
    (by rfl) (by rfl)

/-- What `set_observer_timeout` computes on an idle source and an incomplete observer. -/
theorem set_observer_timeout_ok {T : Type} (h : heap T) (s : source_id)
    (src : async_event_source T) (o : observer_id) (ob : async_single_event_observer T)
    (t : Nat) (hs : h.sources s = some src) (ho : h.observers o = some ob)
    (hidle : src.sub = none) (hpending : ob.event.data = none) :
    async_event_source.set_observer_timeout h s o t =
      .ok { sources := upd h.sources s
              (some { src with sub := some o, running_timer := ⟨t, true, true⟩ }),
            observers := upd h.observers o (some { ob with parent := some s }) } := by
  simp [async_event_source.set_observer_timeout, set_observer_ok h s src o ob hs ho hidle hpending,
    unique_timer.set, unique_timer.run, upd_upd]

/-- What `timer_expiry` computes when the timer is armed and the subscriber is live. -/
theorem timer_expiry_armed {T : Type} (h : heap T) (s : source_id)
    (src : async_event_source T) (o : observer_id) (ob : async_single_event_observer T)
    (hs : h.sources s = some src) (hsub : src.sub = some o) (ho : h.observers o = some ob)
    (hrun : src.running_timer.running = true) (hcb : src.running_timer.has_callback = true) :
    async_event_source.timer_expiry h s =
      .ok { sources := upd h.sources s
              (some { src with sub := none, running_timer := src.running_timer.stop }),
            observers := upd h.observers o (some { parent := none, event := ⟨some src.cancel_value⟩ }) } := by
  have hset := set_with_subscriber
    { h with sources := upd h.sources s (some { src with running_timer := src.running_timer.stop }) }
    s { src with running_timer := src.running_timer.stop } o ob src.cancel_value
    (upd_same _ _ _) hsub ho
  simp only [async_event_source.timer_expiry, hs, hrun, hcb, Bool.and_self, if_true, hset]
  simp [upd_upd, unique_timer.stop]

/-- What `timer_expiry` computes when the timer is not running. -/
theorem timer_expiry_stopped {T : Type} (h : heap T) (s : source_id)
    (src : async_event_source T) (hs : h.sources s = some src)
    (hrun : src.running_timer.running = false) :
    async_event_source.timer_expiry h s = .ok h := by
  simp [async_event_source.timer_expiry, hs, hrun]

/-- The result of an observer whose event holds `v`. -/
theorem result_of_set_event {T : Type} (p : Option source_id) (v : T) :
    (⟨p, ⟨some v⟩⟩ : async_single_event_observer T).complete = true ∧
    (⟨p, ⟨some v⟩⟩ : async_single_event_observer T).result = .ok v := by
  simp [async_single_event_observer.result, async_single_event_observer.complete,
    manual_event.is_set, manual_event.get]

/-- C4: if an observer is subscribed with `subscribe_to(source, t)` and `set` is not called,
then the expiry of the armed timer completes the observer with the source's cancel value and
leaves the source without subscriber, with the same resulting state as `set(cancel_value)`. -/
theorem timeout_delivers_cancel_value {T : Type} (h : heap T) (s : source_id) (o : observer_id)
    (src : async_event_source T) (ob : async_single_event_observer T) (t : Nat)
    (hs : h.sources s = some src) (hidle : src.has_subscriber = false)
    (ho : h.observers o = some ob) (hpending : ob.complete = false) :
    ∃ h1 h2 ob2 src2,
      async_single_event_observer.subscribe_to_timeout h o s t = .ok h1 ∧
      async_event_source.timer_expiry h1 s = .ok h2 ∧
      h2.observers o = some ob2 ∧ ob2.complete = true ∧ ob2.result = .ok src.cancel_value ∧
      h2.sources s = some src2 ∧ src2.has_subscriber = false ∧
      async_event_source.set h1 s src.cancel_value = .ok (true, h2) := by
  have hidle' : src.sub = none := by
    simpa [async_event_source.has_subscriber] using hidle
  have hpending' : ob.event.data = none := by
    simpa [async_single_event_observer.complete, manual_event.is_set] using hpending
  have h1eq := set_observer_timeout_ok h s src o ob t hs ho hidle' hpending'
  have h2eq := timer_expiry_armed
    { sources := upd h.sources s
        (some { src with sub := some o, running_timer := ⟨t, true, true⟩ }),
      observers := upd h.observers o (some { ob with parent := some s }) }
    s { src with sub := some o, running_timer := ⟨t, true, true⟩ } o { ob with parent := some s }
    (upd_same _ _ _) rfl (upd_same _ _ _) rfl rfl
  have h3eq := set_with_subscriber
    { sources := upd h.sources s
        (some { src with sub := some o, running_timer := ⟨t, true, true⟩ }),
      observers := upd h.observers o (some { ob with parent := some s }) }
    s { src with sub := some o, running_timer := ⟨t, true, true⟩ } o { ob with parent := some s }
    src.cancel_value (upd_same _ _ _) rfl (upd_same _ _ _)
  exact ⟨_, _, ⟨none, ⟨some src.cancel_value⟩⟩, _, h1eq, h2eq, upd_same _ _ _,
    (result_of_set_event none src.cancel_value).1, (result_of_set_event none src.cancel_value).2,
    upd_same _ _ _, rfl, h3eq⟩

/-- Witness for C4 on `idle_heap` (cancel value 99) with timeout 5. -/
theorem timeout_delivers_cancel_value_witness :
    ∃ h1 h2 ob2 src2,
      async_single_event_observer.subscribe_to_timeout idle_heap 0 0 5 = .ok h1 ∧
      async_event_source.timer_expiry h1 0 = .ok h2 ∧
      h2.observers 0 = some ob2 ∧ ob2.complete = true ∧ ob2.result = .ok 99 ∧
      h2.sources 0 = some src2 ∧ src2.has_subscriber = false ∧
      async_event_source.set h1 0 99 = .ok (true, h2) :=
  timeout_delivers_cancel_value idle_heap 0 0 ⟨99, none, unique_timer.create⟩ ⟨none, ⟨none⟩⟩ 5
    (by rfl) (by rfl) (by rfl) (by rfl)

/-- C5: if an observer is subscribed with a timeout and `set(v)` is called before the timer
expires, that call stops the timer; a later expiry event changes nothing (the observer's
result stays `v` and nobody receives the cancel value). -/
theorem set_before_expiry_stops_timer {T : Type} (h : heap T) (s : source_id)
    (o : observer_id) (src : async_event_source T) (ob : async_single_event_observer T)
    (t : Nat) (v : T)
    (hs : h.sources s = some src) (hidle : src.has_subscriber = false)
    (ho : h.observers o = some ob) (hpending : ob.complete = false) :
    ∃ h1 h2 ob2 src2,
      async_single_event_observer.subscribe_to_timeout h o s t = .ok h1 ∧
      async_event_source.set h1 s v = .ok (true, h2) ∧
      h2.sources s = some src2 ∧ src2.running_timer.running = false ∧
      async_event_source.timer_expiry h2 s = .ok h2 ∧
      h2.observers o = some ob2 ∧ ob2.result = .ok v := by
  have hidle' : src.sub = none := by
    simpa [async_event_source.has_subscriber] using hidle
  have hpending' : ob.event.data = none := by
    simpa [async_single_event_observer.complete, manual_event.is_set] using hpending
  have h1eq := set_observer_timeout_ok h s src o ob t hs ho hidle' hpending'
  have h2eq := set_with_subscriber
    { sources := upd h.sources s
        (some { src with sub := some o, running_timer := ⟨t, true, true⟩ }),
      observers := upd h.observers o (some { ob with parent := some s }) }
    s { src with sub := some o, running_timer := ⟨t, true, true⟩ } o { ob with parent := some s }
    v (upd_same _ _ _) rfl (upd_same _ _ _)
  refine ⟨_, _, ⟨none, ⟨some v⟩⟩, _, h1eq, h2eq, upd_same _ _ _, rfl, ?_, upd_same _ _ _,
    (result_of_set_event none v).2⟩
  exact timer_expiry_stopped _ s _ (upd_same _ _ _) rfl

/-- Witness for C5 on `idle_heap` with timeout 5 and value 7. -/
theorem set_before_expiry_stops_timer_witness :
    ∃ h1 h2 ob2 src2,
      async_single_event_observer.subscribe_to_timeout idle_heap 0 0 5 = .ok h1 ∧
      async_event_source.set h1 0 7 = .ok (true, h2) ∧
      h2.sources 0 = some src2 ∧ src2.running_timer.running = false ∧
      async_event_source.timer_expiry h2 0 = .ok h2 ∧
      h2.observers 0 = some ob2 ∧ ob2.result = .ok 7 :=
  set_before_expiry_stops_timer idle_heap 0 0 ⟨99, none, unique_timer.create⟩ ⟨none, ⟨none⟩⟩ 5 7
    (by rfl) (by rfl) (by rfl) (by rfl)

/-- What the observer destructor computes on an observer linked with its source. -/
theorem destroy_linked_observer {T : Type} (h : heap T) (s : source_id) (o : observer_id)
    (src : async_event_source T) (ob : async_single_event_observer T)
    (hs : h.sources s = some src) (ho : h.observers o = some ob)
    (hsub : src.sub = some o) (hparent : ob.parent = some s) :
    async_single_event_observer.destroy h o =
      .ok { sources := upd h.sources s (some { src with sub := none }),
            observers := upd h.observers o none } := by
  simp [async_single_event_observer.destroy, async_event_source.remove_observer, hs, ho, hsub,
    hparent, upd_upd]

/-- C8: `result()` raises an assertion fault exactly when `complete()` is false and returns
a value when it is true; after `set(v)` delivered to a subscribed observer its result is `v`,
and after the expiry of the armed timeout timer its result is the source's cancel value. -/
theorem result_faults_iff_incomplete {T : Type} (h : heap T) (s : source_id) (o : observer_id)
    (src : async_event_source T) (ob : async_single_event_observer T)
    (hs : h.sources s = some src) (ho : h.observers o = some ob) (hsub : src.sub = some o) :
    (∀ ob1 : async_single_event_observer T,
      ((∃ msg, ob1.result = .error (.assertion msg)) ↔ ob1.complete = false) ∧
      (ob1.complete = true → ∃ v, ob1.event.get = some v ∧ ob1.result = .ok v)) ∧
    (∀ v, ∃ h1 ob1, async_event_source.set h s v = .ok (true, h1) ∧
      h1.observers o = some ob1 ∧ ob1.complete = true ∧ ob1.result = .ok v) ∧
    (src.running_timer.running = true → src.running_timer.has_callback = true →
      ∃ h1 ob1, async_event_source.timer_expiry h s = .ok h1 ∧
        h1.observers o = some ob1 ∧ ob1.complete = true ∧ ob1.result = .ok src.cancel_value) := by
  refine ⟨?_, ?_, ?_⟩
  · intro ob1
    cases hd : ob1.event.data with
    | none =>
      simp [async_single_event_observer.result, async_single_event_observer.complete,
        manual_event.is_set, manual_event.get, hd]
    | some v =>
      simp [async_single_event_observer.result, async_single_event_observer.complete,
        manual_event.is_set, manual_event.get, hd]
  · intro v
    exact ⟨_, ⟨none, ⟨some v⟩⟩, set_with_subscriber h s src o ob v hs hsub ho, upd_same _ _ _,
      (result_of_set_event none v).1, (result_of_set_event none v).2⟩
  · intro hrun hcb
    exact ⟨_, ⟨none, ⟨some src.cancel_value⟩⟩,
      timer_expiry_armed h s src o ob hs hsub ho hrun hcb, upd_same _ _ _,
      (result_of_set_event none src.cancel_value).1,
      (result_of_set_event none src.cancel_value).2⟩

/-- Witness for C8 on `armed_heap`. -/
theorem result_faults_iff_incomplete_witness :
    (∀ ob1 : async_single_event_observer Nat,
      ((∃ msg, ob1.result = .error (.assertion msg)) ↔ ob1.complete = false) ∧
      (ob1.complete = true → ∃ v, ob1.event.get = some v ∧ ob1.result = .ok v)) ∧
    (∀ v, ∃ h1 ob1, async_event_source.set armed_heap 0 v = .ok (true, h1) ∧
      h1.observers 0 = some ob1 ∧ ob1.complete = true ∧ ob1.result = .ok v) ∧
    ((⟨5, true, true⟩ : unique_timer).running = true →
      (⟨5, true, true⟩ : unique_timer).has_callback = true →
      ∃ h1 ob1, async_event_source.timer_expiry armed_heap 0 = .ok h1 ∧
        h1.observers 0 = some ob1 ∧ ob1.complete = true ∧ ob1.result = .ok 99) :=
  result_faults_iff_incomplete armed_heap 0 0 ⟨99, some 0, ⟨5, true, true⟩⟩ ⟨some 0, ⟨none⟩⟩
    (by rfl) (by rfl) (by rfl)

/-- Replacing a source by one with the same subscriber pointer keeps the links consistent. -/
theorem linked_update_source {T : Type} (h : heap T) (s : source_id)
    (src src1 : async_event_source T) (hinv : linked h) (hs : h.sources s = some src)
    (hsame : src1.sub = src.sub) :
    linked { h with sources := upd h.sources s (some src1) } := by
  obtain ⟨h1, h2⟩ := hinv
  constructor
  · intro s2 src2 o2 hs2 hsub2
    by_cases hss : s2 = s
    · subst hss
      simp only [upd_same, Option.some.injEq] at hs2
      subst hs2
      exact h1 s2 src o2 hs (hsame ▸ hsub2)
    · simp only [upd_other _ _ _ _ hss] at hs2
      exact h1 s2 src2 o2 hs2 hsub2
  · intro o2 ob2 s2 ho2 hp2
    obtain ⟨src3, hs3, hsub3⟩ := h2 o2 ob2 s2 ho2 hp2
    by_cases hss : s2 = s
    · subst hss
      refine ⟨src1, upd_same _ _ _, ?_⟩
      rw [hs] at hs3
      cases hs3
      rw [hsame]; exact hsub3
    · exact ⟨src3, by simp only [upd_other _ _ _ _ hss]; exact hs3, hsub3⟩

/-- Replacing an observer by one with the same parent pointer keeps the links consistent. -/
theorem linked_update_observer {T : Type} (h : heap T) (o : observer_id)
    (ob ob1 : async_single_event_observer T) (hinv : linked h) (ho : h.observers o = some ob)
    (hsame : ob1.parent = ob.parent) :
    linked { h with observers := upd h.observers o (some ob1) } := by
  obtain ⟨h1, h2⟩ := hinv
  constructor
  · intro s2 src2 o2 hs2 hsub2
    obtain ⟨ob3, ho3, hp3⟩ := h1 s2 src2 o2 hs2 hsub2
    by_cases hoo : o2 = o
    · subst hoo
      refine ⟨ob1, upd_same _ _ _, ?_⟩
      rw [ho] at ho3
      cases ho3
      rw [hsame]; exact hp3
    · exact ⟨ob3, by simp only [upd_other _ _ _ _ hoo]; exact ho3, hp3⟩
  · intro o2 ob2 s2 ho2 hp2
    by_cases hoo : o2 = o
    · subst hoo
      simp only [upd_same, Option.some.injEq] at ho2
      subst ho2
      exact h2 o2 ob s2 ho (hsame ▸ hp2)
    · simp only [upd_other _ _ _ _ hoo] at ho2
      exact h2 o2 ob2 s2 ho2 hp2

/-- Placing or removing an unlinked source keeps the links consistent. -/
theorem linked_put_source {T : Type} (h : heap T) (s : source_id)
    (new : Option (async_event_source T)) (hinv : linked h)
    (hold : ∀ src, h.sources s = some src → src.sub = none)
    (hnew : ∀ src, new = some src → src.sub = none) :
    linked { h with sources := upd h.sources s new } := by
  obtain ⟨h1, h2⟩ := hinv
  constructor
  · intro s2 src2 o2 hs2 hsub2
    by_cases hss : s2 = s
    · subst hss
      simp only [upd_same] at hs2
      rw [hnew src2 hs2] at hsub2
      cases hsub2
    · simp only [upd_other _ _ _ _ hss] at hs2
      exact h1 s2 src2 o2 hs2 hsub2
  · intro o2 ob2 s2 ho2 hp2
    obtain ⟨src3, hs3, hsub3⟩ := h2 o2 ob2 s2 ho2 hp2
    by_cases hss : s2 = s
    · subst hss
      rw [hold src3 hs3] at hsub3
      cases hsub3
    · exact ⟨src3, by simp only [upd_other _ _ _ _ hss]; exact hs3, hsub3⟩

/-- Placing or removing an unlinked observer keeps the links consistent. -/
theorem linked_put_observer {T : Type} (h : heap T) (o : observer_id)
    (new : Option (async_single_event_observer T)) (hinv : linked h)
    (hold : ∀ ob, h.observers o = some ob → ob.parent = none)
    (hnew : ∀ ob, new = some ob → ob.parent = none) :
    linked { h with observers := upd h.observers o new } := by
  obtain ⟨h1, h2⟩ := hinv
  constructor
  · intro s2 src2 o2 hs2 hsub2
    obtain ⟨ob3, ho3, hp3⟩ := h1 s2 src2 o2 hs2 hsub2
    by_cases hoo : o2 = o
    · subst hoo
      rw [hold ob3 ho3] at hp3
      cases hp3
    · exact ⟨ob3, by simp only [upd_other _ _ _ _ hoo]; exact ho3, hp3⟩
  · intro o2 ob2 s2 ho2 hp2
    by_cases hoo : o2 = o
    · subst hoo
      simp only [upd_same] at ho2
      rw [hnew ob2 ho2] at hp2
      cases hp2
    · simp only [upd_other _ _ _ _ hoo] at ho2
      exact h2 o2 ob2 s2 ho2 hp2

/-- Linking an idle source with an unconnected observer keeps the links consistent. -/
theorem linked_link {T : Type} (h : heap T) (s : source_id) (o : observer_id)
    (src src1 : async_event_source T) (ob ob1 : async_single_event_observer T)
    (hinv : linked h) (hs : h.sources s = some src) (ho : h.observers o = some ob)
    (hidle : src.sub = none) (hunconnected : ob.parent = none)
    (hsub1 : src1.sub = some o) (hparent1 : ob1.parent = some s) :
    linked { sources := upd h.sources s (some src1),
             observers := upd h.observers o (some ob1) } := by
  obtain ⟨h1, h2⟩ := hinv
  constructor
  · intro s2 src2 o2 hs2 hsub2
    by_cases hss : s2 = s
    · subst hss
      simp only [upd_same, Option.some.injEq] at hs2
      subst hs2
      rw [hsub1] at hsub2
      cases hsub2
      exact ⟨ob1, upd_same _ _ _, hparent1⟩
    · simp only [upd_other _ _ _ _ hss] at hs2
      obtain ⟨ob3, ho3, hp3⟩ := h1 s2 src2 o2 hs2 hsub2
      by_cases hoo : o2 = o
      · subst hoo
        rw [ho] at ho3
        cases ho3
        rw [hunconnected] at hp3
        cases hp3
      · exact ⟨ob3, by simp only [upd_other _ _ _ _ hoo]; exact ho3, hp3⟩
  · intro o2 ob2 s2 ho2 hp2
    by_cases hoo : o2 = o
    · subst hoo
      simp only [upd_same, Option.some.injEq] at ho2
      subst ho2
      rw [hparent1] at hp2
      cases hp2
      exact ⟨src1, upd_same _ _ _, hsub1⟩
    · simp only [upd_other _ _ _ _ hoo] at ho2
      obtain ⟨src3, hs3, hsub3⟩ := h2 o2 ob2 s2 ho2 hp2
      by_cases hss : s2 = s
      · subst hss
        rw [hs] at hs3
        cases hs3
        rw [hidle] at hsub3
        cases hsub3
      · exact ⟨src3, by simp only [upd_other _ _ _ _ hss]; exact hs3, hsub3⟩

/-- Unlinking a source from its subscriber keeps the links consistent. -/
theorem linked_unlink {T : Type} (h : heap T) (s : source_id) (o : observer_id)
    (src src1 : async_event_source T) (ob ob1 : async_single_event_observer T)
    (hinv : linked h) (hs : h.sources s = some src) (ho : h.observers o = some ob)
    (hsub : src.sub = some o) (hparent : ob.parent = some s)
    (hsub1 : src1.sub = none) (hparent1 : ob1.parent = none) :
    linked { sources := upd h.sources s (some src1),
             observers := upd h.observers o (some ob1) } := by
  obtain ⟨h1, h2⟩ := hinv
  constructor
  · intro s2 src2 o2 hs2 hsub2
    by_cases hss : s2 = s
    · subst hss
      simp only [upd_same, Option.some.injEq] at hs2
      subst hs2
      rw [hsub1] at hsub2
      cases hsub2
    · simp only [upd_other _ _ _ _ hss] at hs2
      obtain ⟨ob3, ho3, hp3⟩ := h1 s2 src2 o2 hs2 hsub2
      by_cases hoo : o2 = o
      · subst hoo
        rw [ho] at ho3
        cases ho3
        rw [hparent] at hp3
        cases hp3
        exact absurd rfl hss
      · exact ⟨ob3, by simp only [upd_other _ _ _ _ hoo]; exact ho3, hp3⟩
  · intro o2 ob2 s2 ho2 hp2
    by_cases hoo : o2 = o
    · subst hoo
      simp only [upd_same, Option.some.injEq] at ho2
      subst ho2
      rw [hparent1] at hp2
      cases hp2
    · simp only [upd_other _ _ _ _ hoo] at ho2
      obtain ⟨src3, hs3, hsub3⟩ := h2 o2 ob2 s2 ho2 hp2
      by_cases hss : s2 = s
      · subst hss
        rw [hs] at hs3
        cases hs3
        rw [hsub] at hsub3
        cases hsub3
        exact absurd rfl hoo
      · exact ⟨src3, by simp only [upd_other _ _ _ _ hss]; exact hs3, hsub3⟩

/-- What `remove_observer` computes on a source whose subscriber is live. -/
theorem remove_observer_ok {T : Type} (h : heap T) (s : source_id) (o : observer_id)
    (src : async_event_source T) (ob : async_single_event_observer T)
    (hs : h.sources s = some src) (hsub : src.sub = some o) (ho : h.observers o = some ob) :
    async_event_source.remove_observer h s =
      .ok { sources := upd h.sources s (some { src with sub := none }),
            observers := upd h.observers o (some { ob with parent := none }) } := by
  simp [async_event_source.remove_observer, hs, hsub, ho]

/-- The method `set` keeps the links consistent. -/
theorem set_preserves_linked {T : Type} (h : heap T) (s : source_id) (u : T) (r : Bool)
    (h1 : heap T) (hinv : linked h) (hset : async_event_source.set h s u = .ok (r, h1)) :
    linked h1 := by
  cases hs : h.sources s with
  | none => simp [async_event_source.set, hs] at hset
  | some src =>
    cases hsub : src.sub with
    | none =>
      rw [set_without_subscriber h s src u hs hsub] at hset
      cases hset
      exact hinv
    | some o =>
      obtain ⟨ob, ho, hp⟩ := hinv.1 s src o hs hsub
      rw [set_with_subscriber h s src o ob u hs hsub ho] at hset
      cases hset
      exact linked_unlink h s o src _ ob _ hinv hs ho hsub hp rfl rfl

/-- The method `set_observer` keeps the links consistent when the observer is unconnected. -/
theorem set_observer_preserves_linked {T : Type} (h : heap T) (s : source_id)
    (o : observer_id) (h1 : heap T) (hinv : linked h)
    (hunconnected : ∀ ob, h.observers o = some ob → ob.parent = none)
    (hset : async_event_source.set_observer h s o = .ok h1) :
    linked h1 ∧ ∃ src, h.sources s = some src ∧
      h1.sources s = some { src with sub := some o } := by
  cases hs : h.sources s with
  | none => simp [async_event_source.set_observer, hs] at hset
  | some src =>
    cases ho : h.observers o with
    | none => simp [async_event_source.set_observer, hs, ho] at hset
    | some ob =>
      cases hsub : src.sub with
      | some o2 =>
        simp [async_event_source.set_observer, hs, ho, hsub,
          async_event_source.has_subscriber] at hset
      | none =>
        cases hd : ob.event.data with
        | some v =>
          simp [async_event_source.set_observer, hs, ho, hsub, hd,
            async_event_source.has_subscriber, manual_event.is_set] at hset
        | none =>
          rw [set_observer_ok h s src o ob hs ho hsub hd] at hset
          cases hset
          exact ⟨linked_link h s o src _ ob _ hinv hs ho hsub (hunconnected ob ho) rfl rfl,
            src, rfl, upd_same _ _ _⟩

/-- The method `set_observer` with timeout keeps the links consistent when the observer is
unconnected. -/
theorem set_observer_timeout_preserves_linked {T : Type} (h : heap T) (s : source_id)
    (o : observer_id) (t : Nat) (h1 : heap T) (hinv : linked h)
    (hunconnected : ∀ ob, h.observers o = some ob → ob.parent = none)
    (hset : async_event_source.set_observer_timeout h s o t = .ok h1) :
    linked h1 := by
  unfold async_event_source.set_observer_timeout at hset
  cases hso : async_event_source.set_observer h s o with
  | error e => simp [hso] at hset
  | ok h2 =>
    obtain ⟨hl2, src, _, hs2⟩ := set_observer_preserves_linked h s o h2 hinv hunconnected hso
    simp only [hso, hs2] at hset
    cases hset
    exact linked_update_source h2 s _ _ hl2 hs2 rfl

/-- Expiry of a timer keeps the links consistent. -/
theorem timer_expiry_preserves_linked {T : Type} (h : heap T) (s : source_id)
    (h1 : heap T) (hinv : linked h)
    (hexp : async_event_source.timer_expiry h s = .ok h1) : linked h1 := by
  unfold async_event_source.timer_expiry at hexp
  cases hs : h.sources s with
  | none =>
    simp only [hs] at hexp
    cases hexp
    exact hinv
  | some src =>
    simp only [hs] at hexp
    split at hexp
    · have hl := linked_update_source h s src
        { src with running_timer := src.running_timer.stop } hinv hs rfl
      split at hexp
      · cases hexp
      · rename_i r hr
        cases hexp
        exact set_preserves_linked _ s src.cancel_value r.1 r.2 hl hr
    · cases hexp
      exact hinv

/-- Construction of a source keeps the links consistent. -/
theorem create_source_preserves_linked {T : Type} (h : heap T) (s : source_id) (c : T)
    (h1 : heap T) (hinv : linked h) (hc : async_event_source.create h s c = .ok h1) :
    linked h1 := by
  unfold async_event_source.create at hc
  cases hs : h.sources s with
  | some src => simp [hs] at hc
  | none =>
    simp only [hs] at hc
    cases hc
    refine linked_put_source h s _ hinv ?_ ?_
    · intro src hsrc
      rw [hs] at hsrc
      cases hsrc
    · intro src hsrc
      cases hsrc
      rfl

/-- Construction of an observer keeps the links consistent. -/
theorem create_observer_preserves_linked {T : Type} (h : heap T) (o : observer_id)
    (h1 : heap T) (hinv : linked h)
    (hc : async_single_event_observer.create h o = .ok h1) : linked h1 := by
  unfold async_single_event_observer.create at hc
  cases ho : h.observers o with
  | some ob => simp [ho] at hc
  | none =>
    simp only [ho] at hc
    cases hc
    refine linked_put_observer h o _ hinv ?_ ?_
    · intro ob hob
      rw [ho] at hob
      cases hob
    · intro ob hob
      cases hob
      rfl

/-- Destruction of a source keeps the links consistent. -/
theorem destroy_source_preserves_linked {T : Type} (h : heap T) (s : source_id)
    (h1 : heap T) (hinv : linked h) (hd : async_event_source.destroy h s = .ok h1) :
    linked h1 := by
  unfold async_event_source.destroy at hd
  cases hs : h.sources s with
  | none => simp [hs] at hd
  | some src =>
    simp only [hs] at hd
    cases hsub : src.sub with
    | none =>
      simp only [async_event_source.has_subscriber, hsub, Option.isSome_none, Bool.false_eq_true,
        if_false] at hd
      cases hd
      refine linked_put_source h s none hinv ?_ ?_
      · intro src2 hsrc2
        rw [hs] at hsrc2
        cases hsrc2
        exact hsub
      · intro src2 hsrc2
        cases hsrc2
    | some o =>
      obtain ⟨ob, ho, hp⟩ := hinv.1 s src o hs hsub
      simp only [async_event_source.has_subscriber, hsub, Option.isSome_some, if_true,
        remove_observer_ok h s o src ob hs hsub ho] at hd
      cases hd
      have hl := linked_unlink h s o src { src with sub := none } ob { ob with parent := none }
        hinv hs ho hsub hp rfl rfl
      refine linked_put_source _ s none hl ?_ ?_
      · intro src2 hsrc2
        simp only [upd_same, Option.some.injEq] at hsrc2
        subst hsrc2
        rfl
      · intro src2 hsrc2
        cases hsrc2

/-- Destruction of an observer keeps the links consistent. -/
theorem destroy_observer_preserves_linked {T : Type} (h : heap T) (o : observer_id)
    (h1 : heap T) (hinv : linked h)
    (hd : async_single_event_observer.destroy h o = .ok h1) : linked h1 := by
  unfold async_single_event_observer.destroy at hd
  cases ho : h.observers o with
  | none => simp [ho] at hd
  | some ob =>
    simp only [ho] at hd
    cases hp : ob.parent with
    | none =>
      simp only [hp] at hd
      cases hd
      refine linked_put_observer h o none hinv ?_ ?_
      · intro ob2 hob2
        rw [ho] at hob2
        cases hob2
        exact hp
      · intro ob2 hob2
        cases hob2
    | some p =>
      obtain ⟨src, hs, hsub⟩ := hinv.2 o ob p ho hp
      simp only [hp, remove_observer_ok h p o src ob hs hsub ho] at hd
      cases hd
      have hl := linked_unlink h p o src { src with sub := none } ob { ob with parent := none }
        hinv hs ho hsub hp rfl rfl
      refine linked_put_observer _ o none hl ?_ ?_
      · intro ob2 hob2
        simp only [upd_same, Option.some.injEq] at hob2
        subst hob2
        rfl
      · intro ob2 hob2
        cases hob2

/-- Every operation that does not subscribe a connected observer keeps the links
consistent. -/
theorem step_preserves_linked {T : Type} (h : heap T) (a : op T) (h1 : heap T)
    (hinv : linked h) (hdisc : op.subscribes_connected h a = false)
    (hstep : step h a = .ok h1) : linked h1 := by
  cases a with
  | new_source s c => exact create_source_preserves_linked h s c h1 hinv hstep
  | new_observer o => exact create_observer_preserves_linked h o h1 hinv hstep
  | subscribe_to o s =>
    refine (set_observer_preserves_linked h s o h1 hinv ?_ hstep).1
    intro ob hob
    simpa [op.subscribes_connected, hob, async_single_event_observer.connected] using hdisc
  | subscribe_to_timeout o s t =>
    refine set_observer_timeout_preserves_linked h s o t h1 hinv ?_ hstep
    intro ob hob
    simpa [op.subscribes_connected, hob, async_single_event_observer.connected] using hdisc
  | set s u =>
    simp only [step] at hstep
    split at hstep
    · cases hstep
    · rename_i r hr
      cases hstep
      exact set_preserves_linked h s u r.1 r.2 hinv hr
  | timer_expiry s => exact timer_expiry_preserves_linked h s h1 hinv hstep
  | destroy_source s => exact destroy_source_preserves_linked h s h1 hinv hstep
  | destroy_observer o => exact destroy_observer_preserves_linked h o h1 hinv hstep

/-- The links stay consistent along every fault-free run in which `subscribe_to` is only
applied to unconnected observers. -/
theorem run_preserves_linked {T : Type} (ops : List (op T)) (h h1 : heap T)
    (hinv : linked h) (hdisc : subscribes_only_unconnected h ops)
    (hrun : run h ops = .ok h1) : linked h1 := by
  induction ops generalizing h with
  | nil =>
    simp only [run] at hrun
    cases hrun
    exact hinv
  | cons a rest ih =>
    simp only [run] at hrun
    obtain ⟨hd1, hd2⟩ := hdisc
    cases hstep : step h a with
    | error e => simp [hstep] at hrun
    | ok h2 =>
      simp only [hstep] at hrun hd2
      exact ih h2 (step_preserves_linked h a h2 hinv hd1 hstep) hd2 hrun

/-- The empty state has consistent links. -/
theorem linked_empty {T : Type} : linked (heap.empty : heap T) := by
  constructor
  · intro s src o hs
    cases hs
  · intro o ob s ho
    cases ho

/-- C7, counterexample: subscribing one pending observer to two sources in turn raises no
fault, and afterwards both sources hold that observer as their subscriber. -/
theorem observer_held_by_two_sources :
    ∃ h src0 src1, run heap.empty double_subscription = .ok h ∧
      h.sources 0 = some src0 ∧ h.sources 1 = some src1 ∧
      src0.sub = some 0 ∧ src1.sub = some 0 ∧ (0 : source_id) ≠ 1 :=
  ⟨_, _, _, rfl, rfl, rfl, rfl, rfl, by decide⟩

/-- C7, amended: over every fault-free sequence of constructions, `subscribe_to` (with or
without timeout), `set`, timer expiries and destructions in which `subscribe_to` is only
applied to observers that are not connected, no two distinct sources hold the same observer
as their subscriber. -/
theorem one_source_per_observer {T : Type} (ops : List (op T)) (h : heap T)
    (hrun : run heap.empty ops = .ok h)
    (hdisc : subscribes_only_unconnected heap.empty ops)
    (s1 s2 : source_id) (o : observer_id) (src1 src2 : async_event_source T)
    (hs1 : h.sources s1 = some src1) (hs2 : h.sources s2 = some src2)
    (hsub1 : src1.sub = some o) (hsub2 : src2.sub = some o) : s1 = s2 := by
  have hl := run_preserves_linked ops heap.empty h linked_empty hdisc hrun
  obtain ⟨ob1, ho1, hp1⟩ := hl.1 s1 src1 o hs1 hsub1
  obtain ⟨ob2, ho2, hp2⟩ := hl.1 s2 src2 o hs2 hsub2
  rw [ho1] at ho2
  cases ho2
  rw [hp1] at hp2
  exact Option.some.inj hp2

/-- The sequence `single_subscription` never subscribes a connected observer. -/
theorem single_subscription_unconnected :
    subscribes_only_unconnected heap.empty single_subscription :=
  ⟨rfl, rfl, rfl, rfl, trivial⟩

/-- Witness for C7 (amended) on `single_subscription`. -/
theorem one_source_per_observer_witness :
    ∃ h src, run heap.empty single_subscription = .ok h ∧
      subscribes_only_unconnected heap.empty single_subscription ∧
      h.sources 0 = some src ∧ src.sub = some 0 ∧ (0 : source_id) = 0 :=
  ⟨_, _, rfl, single_subscription_unconnected, rfl, rfl,
    one_source_per_observer single_subscription _ rfl single_subscription_unconnected
      0 0 0 _ _ rfl rfl rfl rfl⟩

end srsgnb
namespace srsran

/-- The digit characters of the digits 0 to 9 are pairwise distinct. -/
theorem digitChar_inj (a b : Nat) (ha : a < 10) (hb : b < 10)
    (h : Nat.digitChar a = Nat.digitChar b) : a = b := by
  interval_cases a <;> interval_cases b <;> first | rfl | exact absurd h (by decide)

/-- Two digit lists with the same characters are equal. -/
theorem map_digitChar_inj (l1 l2 : List Nat) (h1 : ∀ d ∈ l1, d < 10) (h2 : ∀ d ∈ l2, d < 10)
    (h : l1.map Nat.digitChar = l2.map Nat.digitChar) : l1 = l2 := by
  induction l1 generalizing l2 with
  | nil =>
    cases l2 with
    | nil => rfl
    | cons b t => simp at h
  | cons a t ih =>
    cases l2 with
    | nil => simp at h
    | cons b t2 =>
      simp only [List.map_cons, List.cons.injEq] at h
      have hab := digitChar_inj a b (h1 a (by simp)) (h2 b (by simp)) h.1
      have ht := ih t2 (fun d hd => h1 d (by simp [hd])) (fun d hd => h2 d (by simp [hd])) h.2
      rw [hab, ht]

/-- The digit loop behind `Nat.repr` writes the decimal digits, most significant first. -/
theorem toDigitsCore_eq (fuel n : Nat) (ds : List Char) (h : n < fuel) :
    Nat.toDigitsCore 10 fuel n ds =
      ((if n = 0 then [0] else Nat.digits 10 n).map Nat.digitChar).reverse ++ ds := by
  induction fuel generalizing n ds with
  | zero => omega
  | succ fuel ih =>
    simp only [Nat.toDigitsCore]
    by_cases hn : n = 0
    · subst hn
      simp
    · by_cases hq : n / 10 = 0
      · have hlt : n < 10 := by omega
        have hmod : n % 10 = n := Nat.mod_eq_of_lt hlt
        simp [hq, hn, Nat.digits_of_lt 10 n hn hlt, hmod]
      · have hdig : Nat.digits 10 n = n % 10 :: Nat.digits 10 (n / 10) :=
          Nat.digits_def' (by norm_num) (Nat.pos_of_ne_zero hn)
        have hlt : n / 10 < fuel := by omega
        simp [hq, hn, ih (n / 10) _ hlt, hdig]

/-- Different numbers have different decimal texts. -/
theorem to_string_injective (a b : Nat) (h : to_string a = to_string b) : a = b := by
  have hd := congrArg String.data h
  simp only [to_string, Nat.repr, Nat.toDigits, List.asString,
    toDigitsCore_eq _ _ _ (Nat.lt_succ_self _), List.append_nil, List.reverse_inj] at hd
  have hlt : ∀ n, ∀ d ∈ (if n = 0 then [0] else Nat.digits 10 n), d < 10 := by
    intro n d hd
    by_cases hn : n = 0
    · simp [hn] at hd
      omega
    · simp only [hn, if_false] at hd
      exact Nat.digits_lt_base (by norm_num) hd
  have hl := map_digitChar_inj _ _ (hlt a) (hlt b) hd
  by_cases ha : a = 0 <;> by_cases hb : b = 0
  · rw [ha, hb]
  · simp only [ha, hb, if_true, if_false] at hl
    have := congrArg (Nat.ofDigits 10) hl
    simp [Nat.ofDigits_digits] at this
    omega
  · simp only [ha, hb, if_true, if_false] at hl
    have := congrArg (Nat.ofDigits 10) hl
    simp [Nat.ofDigits_digits] at this
    omega
  · simp only [ha, hb, if_false] at hl
    exact Nat.digits_inj_iff.mp hl

/-- What `create_worker` computes for a name that is not registered. -/
theorem create_worker_ok (wm : worker_manager) (name : String) (q : Nat)
    (prio : os_thread_realtime_priority) (mask : os_sched_affinity_bitmask)
    (hfree : wm.workers name = none) :
    wm.create_worker name q prio mask =
      .ok { wm with workers := upd wm.workers name (some ⟨name, q, prio, mask, true⟩) } := by
  simp [worker_manager.create_worker, hfree]

/-- What `create_worker_pool` computes for a name that is not registered. -/
theorem create_worker_pool_ok (wm : worker_manager) (name : String) (n q : Nat)
    (prio : os_thread_realtime_priority) (hfree : wm.worker_pools name = none) :
    wm.create_worker_pool name n q prio =
      .ok { wm with worker_pools := upd wm.worker_pools name (some ⟨n, q, name, prio, true⟩) } := by
  simp [worker_manager.create_worker_pool, hfree]

/-- What `workers.at` computes for a registered name. -/
theorem workers_at_ok (wm : worker_manager) (name : String) (w : task_worker)
    (h : wm.workers name = some w) : wm.workers_at name = .ok w := by
  simp [worker_manager.workers_at, h]

/-- C10: `create_worker(name, ...)` raises an assertion fault exactly when `name` is already
registered in `workers`; otherwise it adds one entry under `name` and leaves every other
entry, and every other member, unchanged.  `create_worker_pool` does the same on
`worker_pools`. -/
theorem create_worker_asserts_iff_registered (wm : worker_manager) (name : String)
    (q n : Nat) (prio : os_thread_realtime_priority) (mask : os_sched_affinity_bitmask) :
    (((∃ msg, wm.create_worker name q prio mask = .error (.assertion msg)) ↔
        (wm.workers name).isSome = true) ∧
      ((wm.workers name).isSome = false →
        ∃ wm1 w, wm.create_worker name q prio mask = .ok wm1 ∧
          wm1 = { wm with workers := upd wm.workers name (some w) } ∧
          w.name = name ∧ wm1.workers name = some w ∧
          ∀ other, other ≠ name → wm1.workers other = wm.workers other)) ∧
    (((∃ msg, wm.create_worker_pool name n q prio = .error (.assertion msg)) ↔
        (wm.worker_pools name).isSome = true) ∧
      ((wm.worker_pools name).isSome = false →
        ∃ wm1 w, wm.create_worker_pool name n q prio = .ok wm1 ∧
          wm1 = { wm with worker_pools := upd wm.worker_pools name (some w) } ∧
          w.name = name ∧ wm1.worker_pools name = some w ∧
          ∀ other, other ≠ name → wm1.worker_pools other = wm.worker_pools other)) := by
  refine ⟨⟨?_, ?_⟩, ⟨?_, ?_⟩⟩
  · cases hw : wm.workers name <;> simp [worker_manager.create_worker, hw]
  · intro hfree
    have hfree1 : wm.workers name = none := by
      simpa using hfree
    exact ⟨_, _, create_worker_ok wm name q prio mask hfree1, rfl, rfl, upd_same _ _ _,
      fun other hne => upd_other _ _ _ _ hne⟩
  · cases hw : wm.worker_pools name <;> simp [worker_manager.create_worker_pool, hw]
  · intro hfree
    have hfree1 : wm.worker_pools name = none := by
      simpa using hfree
    exact ⟨_, _, create_worker_pool_ok wm name n q prio hfree1, rfl, rfl, upd_same _ _ _,
      fun other hne => upd_other _ _ _ _ hne⟩

/-- A name made of a literal and a number differs from another such name when the literals
differ in a character, and determines its number. -/
theorem upper_phy_dl_name_inj (i j : Nat)
    (h : "upper_phy_dl#" ++ to_string i = "upper_phy_dl#" ++ to_string j) : i = j := by
  have hd := congrArg String.data h
  simp at hd
  exact to_string_injective i j (String.ext hd)

/-- The loop over `i_dl_worker` leaves every name that it does not create untouched. -/
theorem upper_phy_dl_workers_other (base : String → Option task_worker) (k : Nat) (n : String)
    (h : ∀ i, i < k → n ≠ "upper_phy_dl#" ++ to_string i) :
    upper_phy_dl_workers base k n = base n := by
  induction k with
  | zero => rfl
  | succ k ih =>
    simp only [upper_phy_dl_workers]
    rw [upd_other _ _ _ _ (h k (Nat.lt_succ_self k))]
    exact ih (fun i hi => h i (Nat.lt_succ_of_lt hi))

/-- The loop over `i_dl_worker` registers every name it creates. -/
theorem upper_phy_dl_workers_created (base : String → Option task_worker) (k i : Nat)
    (hi : i < k) :
    upper_phy_dl_workers base k ("upper_phy_dl#" ++ to_string i) =
      some ⟨"upper_phy_dl#" ++ to_string i, task_worker_queue_size, .max_minus 10, ⟨[]⟩, true⟩ := by
  induction k with
  | zero => omega
  | succ k ih =>
    simp only [upper_phy_dl_workers]
    by_cases hik : i = k
    · subst hik
      exact upd_same _ _ _
    · rw [upd_other _ _ _ _ (fun h => hik (upper_phy_dl_name_inj i k h))]
      exact ih (by omega)

/-- Closed form of the loop over `i_dl_worker` of `create_du_cu_executors`. -/
theorem upper_phy_dl_loop (wm : worker_manager) (k : Nat)
    (hfresh : ∀ i, i < k → wm.workers ("upper_phy_dl#" ++ to_string i) = none) :
    (List.range k).foldlM worker_manager.create_upper_phy_dl_executor wm =
      .ok { wm with
            workers := upper_phy_dl_workers wm.workers k,
            du_low_dl_executors :=
              wm.du_low_dl_executors ++ (List.range k).map
                (fun i => task_executor.task_worker_executor ("upper_phy_dl#" ++ to_string i) true) } := by
  induction k with
  | zero => simp [upper_phy_dl_workers, pure, Except.pure]
  | succ k ih =>
    have hk : upper_phy_dl_workers wm.workers k ("upper_phy_dl#" ++ to_string k) = none := by
      rw [upper_phy_dl_workers_other]
      · exact hfresh k (Nat.lt_succ_self k)
      · intro i hi h
        have := upper_phy_dl_name_inj k i h
        omega
    rw [List.range_succ, List.foldlM_append, ih (fun i hi => hfresh i (Nat.lt_succ_of_lt hi))]
    simp [bind, Except.bind, pure, Except.pure, worker_manager.create_upper_phy_dl_executor,
      worker_manager.create_worker, worker_manager.workers_at, hk, upper_phy_dl_workers]

/-- What `create_du_cu_executors` builds in blocking mode. -/
theorem create_du_cu_executors_blocking (env : host) (ul dl pdsch : Nat) :
    (worker_manager.init env).create_du_cu_executors env true ul dl pdsch =
      .ok (du_cu_blocking_state env pdsch) := by
  simp only [worker_manager.create_du_cu_executors, worker_manager.init, bind, Except.bind,
    pure, Except.pure, worker_manager.create_worker, worker_manager.workers_at,
    worker_manager.create_worker_pool, worker_manager.worker_pools_at, upd_same, if_true]
  by_cases hp : pdsch > 1 <;>
    simp [upd, hp, du_cu_blocking_state, with_pdsch_pool, worker_manager.init]

/-- What `create_du_cu_executors` builds in non-blocking mode. -/
theorem create_du_cu_executors_nonblocking (env : host) (ul dl pdsch : Nat) :
    (worker_manager.init env).create_du_cu_executors env false ul dl pdsch =
      .ok (du_cu_nonblocking_state env ul dl pdsch) := by
  simp only [worker_manager.create_du_cu_executors, worker_manager.init, bind, Except.bind,
    pure, Except.pure, worker_manager.create_worker, worker_manager.workers_at,
    worker_manager.create_worker_pool, worker_manager.worker_pools_at, upd_same, if_true]
  simp [upd]
  rw [upper_phy_dl_loop]
  · by_cases hp : pdsch > 1 <;>
      simp [upd, hp, du_cu_nonblocking_state, with_pdsch_pool, worker_manager.init]
  · intro i _
    simp [upd, String.ext_iff]

/-- In non-blocking mode the `workers` map holds, besides the "upper_phy_dl#" workers, the
three workers "gnb_ue", "upper_phy_dl" and "phy_prach". -/
theorem du_cu_nonblocking_workers_other (env : host) (ul dl pdsch : Nat) (n : String)
    (h : ∀ i, n ≠ "upper_phy_dl#" ++ to_string i) :
    (du_cu_nonblocking_state env ul dl pdsch).workers n =
      upd (upd (upd (fun _ => none) "gnb_ue" (some ⟨"gnb_ue", 512, .no_realtime, ⟨[]⟩, true⟩))
          "upper_phy_dl"
          (some ⟨"upper_phy_dl", task_worker_queue_size, .max_minus 10, ⟨[]⟩, true⟩))
          "phy_prach" (some ⟨"phy_prach", task_worker_queue_size, .max_minus 2, ⟨[]⟩, true⟩) n := by
  simp only [du_cu_nonblocking_state]
  exact upper_phy_dl_workers_other _ _ _ (fun i _ => h i)

/-- With profile blocking, `create_lower_phy_executors` throws when "phy_worker" is absent. -/
theorem create_lower_phy_executors_blocking_absent (wm : worker_manager)
    (hradio : wm.workers "radio" = none) (hstats : wm.workers "ru_stats_worker" = none)
    (hphy : wm.workers "phy_worker" = none) :
    wm.create_lower_phy_executors .blocking = .error (.out_of_range "phy_worker") := by
  simp [worker_manager.create_lower_phy_executors, worker_manager.create_worker,
    worker_manager.workers_at, bind, Except.bind, pure, Except.pure, upd, hradio, hstats, hphy]

/-- With profile blocking, `create_lower_phy_executors` binds the five lower-PHY executors
to "phy_worker" when that worker exists. -/
theorem create_lower_phy_executors_blocking (wm : worker_manager) (w : task_worker)
    (hradio : wm.workers "radio" = none) (hstats : wm.workers "ru_stats_worker" = none)
    (hphy : wm.workers "phy_worker" = some w) :
    wm.create_lower_phy_executors .blocking =
      .ok { wm with
            workers :=
              upd (upd wm.workers "radio"
                (some ⟨"radio", task_worker_queue_size, .no_realtime, ⟨[]⟩, true⟩))
                "ru_stats_worker" (some ⟨"ru_stats_worker", 1, .no_realtime, ⟨[]⟩, true⟩),
            radio_exec := some (.task_worker_executor "radio" true),
            ru_printer_exec := some (.task_worker_executor "ru_stats_worker" true),
            printed := wm.printed ++ [print_event.lower_phy_mode .blocking],
            lower_prach_exec := some (.task_worker_executor w.name true),
            lower_phy_tx_exec := some (.task_worker_executor w.name true),
            lower_phy_rx_exec := some (.task_worker_executor w.name true),
            lower_phy_dl_exec := some (.task_worker_executor w.name true),
            lower_phy_ul_exec := some (.task_worker_executor w.name true) } := by
  simp [worker_manager.create_lower_phy_executors, worker_manager.create_worker,
    worker_manager.workers_at, bind, Except.bind, pure, Except.pure, upd, hradio, hstats, hphy]

/-- With profile single, `create_lower_phy_executors` creates "lower_phy" for the four
lower-PHY stages and binds the PRACH executor to "phy_prach". -/
theorem create_lower_phy_executors_single (wm : worker_manager) (w : task_worker)
    (hradio : wm.workers "radio" = none) (hstats : wm.workers "ru_stats_worker" = none)
    (hlower : wm.workers "lower_phy" = none) (hprach : wm.workers "phy_prach" = some w) :
    wm.create_lower_phy_executors .single =
      .ok { wm with
            workers :=
              upd (upd (upd wm.workers "radio"
                (some ⟨"radio", task_worker_queue_size, .no_realtime, ⟨[]⟩, true⟩))
                "ru_stats_worker" (some ⟨"ru_stats_worker", 1, .no_realtime, ⟨[]⟩, true⟩))
                "lower_phy" (some ⟨"lower_phy", 128, .max_minus 0, ⟨[]⟩, true⟩),
            radio_exec := some (.task_worker_executor "radio" true),
            ru_printer_exec := some (.task_worker_executor "ru_stats_worker" true),
            printed := wm.printed ++ [print_event.lower_phy_mode .single],
            lower_prach_exec := some (.task_worker_executor w.name true),
            lower_phy_tx_exec := some (.task_worker_executor "lower_phy" true),
            lower_phy_rx_exec := some (.task_worker_executor "lower_phy" true),
            lower_phy_dl_exec := some (.task_worker_executor "lower_phy" true),
            lower_phy_ul_exec := some (.task_worker_executor "lower_phy" true) } := by
  simp [worker_manager.create_lower_phy_executors, worker_manager.create_worker,
    worker_manager.workers_at, bind, Except.bind, pure, Except.pure, upd, hradio, hstats,
    hlower, hprach]

/-- With profile dual, `create_lower_phy_executors` creates "lower_phy_dl" (tx and dl) and
"lower_phy_ul" (rx and ul) and binds the PRACH executor to "phy_prach". -/
theorem create_lower_phy_executors_dual (wm : worker_manager) (w : task_worker)
    (hradio : wm.workers "radio" = none) (hstats : wm.workers "ru_stats_worker" = none)
    (hdl : wm.workers "lower_phy_dl" = none) (hul : wm.workers "lower_phy_ul" = none)
    (hprach : wm.workers "phy_prach" = some w) :
    wm.create_lower_phy_executors .dual =
      .ok { wm with
            workers :=
              upd (upd (upd (upd wm.workers "radio"
                (some ⟨"radio", task_worker_queue_size, .no_realtime, ⟨[]⟩, true⟩))
                "ru_stats_worker" (some ⟨"ru_stats_worker", 1, .no_realtime, ⟨[]⟩, true⟩))
                "lower_phy_dl" (some ⟨"lower_phy_dl", 128, .max_minus 0, ⟨[]⟩, true⟩))
                "lower_phy_ul" (some ⟨"lower_phy_ul", 2, .max_minus 1, ⟨[]⟩, true⟩),
            radio_exec := some (.task_worker_executor "radio" true),
            ru_printer_exec := some (.task_worker_executor "ru_stats_worker" true),
            printed := wm.printed ++ [print_event.lower_phy_mode .dual],
            lower_prach_exec := some (.task_worker_executor w.name true),
            lower_phy_tx_exec := some (.task_worker_executor "lower_phy_dl" true),
            lower_phy_rx_exec := some (.task_worker_executor "lower_phy_ul" true),
            lower_phy_dl_exec := some (.task_worker_executor "lower_phy_dl" true),
            lower_phy_ul_exec := some (.task_worker_executor "lower_phy_ul" true) } := by
  simp [worker_manager.create_lower_phy_executors, worker_manager.create_worker,
    worker_manager.workers_at, bind, Except.bind, pure, Except.pure, upd, hradio, hstats,
    hdl, hul, hprach]

/-- With profile quad, `create_lower_phy_executors` creates one worker per lower-PHY stage
and binds the PRACH executor to "phy_prach". -/
theorem create_lower_phy_executors_quad (wm : worker_manager) (w : task_worker)
    (hradio : wm.workers "radio" = none) (hstats : wm.workers "ru_stats_worker" = none)
    (htx : wm.workers "lower_phy_tx" = none) (hrx : wm.workers "lower_phy_rx" = none)
    (hdl : wm.workers "lower_phy_dl" = none) (hul : wm.workers "lower_phy_ul" = none)
    (hprach : wm.workers "phy_prach" = some w) :
    wm.create_lower_phy_executors .quad =
      .ok { wm with
            workers :=
              upd (upd (upd (upd (upd (upd wm.workers "radio"
                (some ⟨"radio", task_worker_queue_size, .no_realtime, ⟨[]⟩, true⟩))
                "ru_stats_worker" (some ⟨"ru_stats_worker", 1, .no_realtime, ⟨[]⟩, true⟩))
                "lower_phy_tx" (some ⟨"lower_phy_tx", 128, .max_minus 0, ⟨[]⟩, true⟩))
                "lower_phy_rx" (some ⟨"lower_phy_rx", 1, .max_minus 2, ⟨[]⟩, true⟩))
                "lower_phy_dl" (some ⟨"lower_phy_dl", 128, .max_minus 1, ⟨[]⟩, true⟩))
                "lower_phy_ul" (some ⟨"lower_phy_ul", 128, .max_minus 3, ⟨[]⟩, true⟩),
            radio_exec := some (.task_worker_executor "radio" true),
            ru_printer_exec := some (.task_worker_executor "ru_stats_worker" true),
            printed := wm.printed ++ [print_event.lower_phy_mode .quad],
            lower_prach_exec := some (.task_worker_executor w.name true),
            lower_phy_tx_exec := some (.task_worker_executor "lower_phy_tx" true),
            lower_phy_rx_exec := some (.task_worker_executor "lower_phy_rx" true),
            lower_phy_dl_exec := some (.task_worker_executor "lower_phy_dl" true),
            lower_phy_ul_exec := some (.task_worker_executor "lower_phy_ul" true) } := by
  simp [worker_manager.create_lower_phy_executors, worker_manager.create_worker,
    worker_manager.workers_at, bind, Except.bind, pure, Except.pure, upd, hradio, hstats,
    htx, hrx, hdl, hul, hprach]

/-- What `create_ofh_executor` computes for a name that is not registered. -/
theorem create_ofh_executor_ok (wm : worker_manager) (name : String) (p q : Nat)
    (hfree : wm.workers name = none) :
    wm.create_ofh_executor name p q =
      .ok (.task_worker_executor name true, ofh_executor_state wm name p q) := by
  cases hr : wm.affinity_manager.reserve_cpu_index.1 <;>
    simp [worker_manager.create_ofh_executor, worker_manager.create_worker,
      worker_manager.workers_at, bind, Except.bind, pure, Except.pure, hfree,
      ofh_executor_state, hr]

/-- The worker entries that `create_ofh_executor` leaves untouched. -/
theorem ofh_executor_state_workers_other (wm : worker_manager) (name n : String) (p q : Nat)
    (hne : n ≠ name) : (ofh_executor_state wm name p q).workers n = wm.workers n := by
  simp [ofh_executor_state, upd, hne]

/-- The names of the three workers of a cell are pairwise distinct and determine the cell. -/
theorem ofh_names_distinct (i j : Nat) :
    ("ru_dl_" ++ to_string i ≠ "ru_tx_" ++ to_string j) ∧
    ("ru_dl_" ++ to_string i ≠ "ru_rx_" ++ to_string j) ∧
    ("ru_tx_" ++ to_string i ≠ "ru_rx_" ++ to_string j) ∧
    ("ru_dl_" ++ to_string i = "ru_dl_" ++ to_string j → i = j) ∧
    ("ru_tx_" ++ to_string i = "ru_tx_" ++ to_string j → i = j) ∧
    ("ru_rx_" ++ to_string i = "ru_rx_" ++ to_string j → i = j) := by
  refine ⟨?_, ?_, ?_, ?_, ?_, ?_⟩
  · simp [String.ext_iff]
  · simp [String.ext_iff]
  · simp [String.ext_iff]
  · intro h
    have hd := congrArg String.data h
    simp at hd
    exact to_string_injective i j (String.ext hd)
  · intro h
    have hd := congrArg String.data h
    simp at hd
    exact to_string_injective i j (String.ext hd)
  · intro h
    have hd := congrArg String.data h
    simp at hd
    exact to_string_injective i j (String.ext hd)

/-- The worker entries that the iteration for cell `i` leaves untouched. -/
theorem ofh_cell_state_workers_other (wm : worker_manager) (i : Nat) (n : String)
    (hdl : n ≠ "ru_dl_" ++ to_string i) (htx : n ≠ "ru_tx_" ++ to_string i)
    (hrx : n ≠ "ru_rx_" ++ to_string i) :
    (ofh_cell_state wm i).workers n = wm.workers n := by
  simp [ofh_cell_state, ofh_executor_state, upd, hdl, htx, hrx]

/-- The worker entries that the first `k` iterations leave untouched. -/
theorem ofh_cells_state_workers_other (wm : worker_manager) (k : Nat) (n : String)
    (h : ∀ i, i < k → n ≠ "ru_dl_" ++ to_string i ∧ n ≠ "ru_tx_" ++ to_string i ∧
      n ≠ "ru_rx_" ++ to_string i) :
    (ofh_cells_state wm k).workers n = wm.workers n := by
  induction k with
  | zero => rfl
  | succ k ih =>
    simp only [ofh_cells_state]
    obtain ⟨h1, h2, h3⟩ := h k (Nat.lt_succ_self k)
    rw [ofh_cell_state_workers_other _ _ _ h1 h2 h3]
    exact ih (fun i hi => h i (Nat.lt_succ_of_lt hi))

/-- What the iteration for cell `i` computes when its three names are not registered. -/
theorem create_ofh_cell_executors_ok (wm : worker_manager) (i : Nat)
    (hdl : wm.workers ("ru_dl_" ++ to_string i) = none)
    (htx : wm.workers ("ru_tx_" ++ to_string i) = none)
    (hrx : wm.workers ("ru_rx_" ++ to_string i) = none) :
    wm.create_ofh_cell_executors i = .ok (ofh_cell_state wm i) := by
  obtain ⟨h1, h2, h3, _, _, _⟩ := ofh_names_distinct i i
  have htx1 : (ofh_executor_state wm ("ru_dl_" ++ to_string i) 5 task_worker_queue_size).workers
      ("ru_tx_" ++ to_string i) = none := by
    rw [ofh_executor_state_workers_other _ _ _ _ _ (Ne.symm h1)]
    exact htx
  have hrx1 : (ofh_executor_state wm ("ru_dl_" ++ to_string i) 5 task_worker_queue_size).workers
      ("ru_rx_" ++ to_string i) = none := by
    rw [ofh_executor_state_workers_other _ _ _ _ _ (Ne.symm h2)]
    exact hrx
  unfold worker_manager.create_ofh_cell_executors
  simp only [bind, Except.bind, pure, Except.pure]
  rw [create_ofh_executor_ok wm _ 5 _ hdl]
  simp only []
  rw [create_ofh_executor_ok _ _ 1 _ (by simpa using htx1)]
  simp only []
  rw [create_ofh_executor_ok _ _ 1 1 (by
    rw [ofh_executor_state_workers_other _ _ _ _ _ (Ne.symm h3)]
    simpa using hrx1)]
  rfl

/-- Closed form of the loop over the cells of `create_ofh_executors`. -/
theorem ofh_cells_loop (wm : worker_manager) (k : Nat)
    (hfresh : ∀ i, i < k → wm.workers ("ru_dl_" ++ to_string i) = none ∧
      wm.workers ("ru_tx_" ++ to_string i) = none ∧
      wm.workers ("ru_rx_" ++ to_string i) = none) :
    (List.range k).foldlM worker_manager.create_ofh_cell_executors wm =
      .ok (ofh_cells_state wm k) := by
  induction k with
  | zero => simp [ofh_cells_state, pure, Except.pure]
  | succ k ih =>
    rw [List.range_succ, List.foldlM_append, ih (fun i hi => hfresh i (Nat.lt_succ_of_lt hi))]
    have hother : ∀ n : String,
        (∀ i, i < k → n ≠ "ru_dl_" ++ to_string i ∧ n ≠ "ru_tx_" ++ to_string i ∧
          n ≠ "ru_rx_" ++ to_string i) →
        wm.workers n = none → (ofh_cells_state wm k).workers n = none := by
      intro n hn hnone
      rw [ofh_cells_state_workers_other wm k n hn]
      exact hnone
    obtain ⟨hdl, htx, hrx⟩ := hfresh k (Nat.lt_succ_self k)
    have hstep := create_ofh_cell_executors_ok (ofh_cells_state wm k) k
      (hother _ (fun i hi => by
        obtain ⟨h1, h2, _, h4, _, _⟩ := ofh_names_distinct k i
        exact ⟨fun h => by have := h4 h; omega, h1, h2⟩) hdl)
      (hother _ (fun i hi => by
        obtain ⟨h1, _, _, _, _, _⟩ := ofh_names_distinct i k
        obtain ⟨_, _, h3, _, h5, _⟩ := ofh_names_distinct k i
        exact ⟨Ne.symm h1, fun h => by have := h5 h; omega, h3⟩) htx)
      (hother _ (fun i hi => by
        obtain ⟨_, h2, h3, _, _, _⟩ := ofh_names_distinct i k
        obtain ⟨_, _, _, _, _, h6⟩ := ofh_names_distinct k i
        exact ⟨Ne.symm h2, Ne.symm h3, fun h => by have := h6 h; omega⟩) hrx)
    simp [bind, Except.bind, pure, Except.pure, hstep, ofh_cells_state]

/-- What `create_ofh_executors` computes when none of its names is registered. -/
theorem create_ofh_executors_ok (wm : worker_manager) (env : host) (nof_cells : Nat)
    (htiming : wm.workers "ru_timing" = none)
    (hfresh : ∀ i, wm.workers ("ru_dl_" ++ to_string i) = none ∧
      wm.workers ("ru_tx_" ++ to_string i) = none ∧
      wm.workers ("ru_rx_" ++ to_string i) = none) :
    wm.create_ofh_executors env nof_cells = .ok (ofh_state wm env nof_cells) := by
  have key : ∀ wm1 : worker_manager, wm1.workers = wm.workers →
      (wm1.create_ofh_executor "ru_timing" 0 1 >>= fun r =>
        (List.range nof_cells).foldlM worker_manager.create_ofh_cell_executors
          { r.2 with ru_timing_exec := some r.1 }) =
      .ok (ofh_cells_state
        { ofh_executor_state wm1 "ru_timing" 0 1 with
          ru_timing_exec := some (.task_worker_executor "ru_timing" true) } nof_cells) := by
    intro wm1 hw
    rw [create_ofh_executor_ok wm1 _ 0 1 (by rw [hw]; exact htiming)]
    simp only [bind, Except.bind]
    apply ofh_cells_loop
    intro i _
    obtain ⟨h1, h2, h3⟩ := hfresh i
    simp [ofh_executor_state, upd, String.ext_iff, hw]
    exact ⟨h1, h2, h3⟩
  unfold worker_manager.create_ofh_executors ofh_state
  by_cases hadv : nof_host_threads env.hardware_concurrency < min_ofh_threads nof_cells
  · simp only [hadv, if_true]
    exact key _ rfl
  · simp only [hadv, if_false]
    exact key _ rfl

/-- The entries of the `workers` map after `create_du_cu_executors` in non-blocking mode at
the names used by `create_ru_executors`. -/
theorem du_cu_nonblocking_workers_at (env : host) (ul dl pdsch : Nat) :
    (du_cu_nonblocking_state env ul dl pdsch).workers "radio" = none ∧
    (du_cu_nonblocking_state env ul dl pdsch).workers "ru_stats_worker" = none ∧
    (du_cu_nonblocking_state env ul dl pdsch).workers "phy_worker" = none ∧
    (du_cu_nonblocking_state env ul dl pdsch).workers "lower_phy" = none ∧
    (du_cu_nonblocking_state env ul dl pdsch).workers "lower_phy_tx" = none ∧
    (du_cu_nonblocking_state env ul dl pdsch).workers "lower_phy_rx" = none ∧
    (du_cu_nonblocking_state env ul dl pdsch).workers "lower_phy_dl" = none ∧
    (du_cu_nonblocking_state env ul dl pdsch).workers "lower_phy_ul" = none ∧
    (du_cu_nonblocking_state env ul dl pdsch).workers "ru_timing" = none ∧
    (du_cu_nonblocking_state env ul dl pdsch).workers "phy_prach" =
      some ⟨"phy_prach", task_worker_queue_size, .max_minus 2, ⟨[]⟩, true⟩ := by
  refine ⟨?_, ?_, ?_, ?_, ?_, ?_, ?_, ?_, ?_, ?_⟩ <;>
    (rw [du_cu_nonblocking_workers_other _ _ _ _ _ (by intro i; simp [String.ext_iff])]
     simp [upd])

/-- After `create_du_cu_executors` in non-blocking mode no Open Fronthaul worker name is
registered. -/
theorem du_cu_nonblocking_workers_ofh (env : host) (ul dl pdsch : Nat) (i : Nat) :
    (du_cu_nonblocking_state env ul dl pdsch).workers ("ru_dl_" ++ to_string i) = none ∧
    (du_cu_nonblocking_state env ul dl pdsch).workers ("ru_tx_" ++ to_string i) = none ∧
    (du_cu_nonblocking_state env ul dl pdsch).workers ("ru_rx_" ++ to_string i) = none := by
  refine ⟨?_, ?_, ?_⟩ <;>
    (rw [du_cu_nonblocking_workers_other _ _ _ _ _ (by intro j; simp [String.ext_iff])]
     simp [upd, String.ext_iff])

/-- A computation that equals `ok a` succeeds. -/
theorem ok_exists {α : Type} {x : Except fault α} {a : α} (h : x = .ok a) :
    ∃ r, x = .ok r :=
  ⟨a, h⟩

/-- C9, counterexample: for an SDR radio with driver "uhd" and the profile `blocking`, the
constructor stops at `workers.at("phy_worker")` with `std::out_of_range`. -/
theorem worker_manager_create_uhd_blocking_faults :
    worker_manager.create sample_host uhd_blocking_config = .error (.out_of_range "phy_worker") :=
  rfl

/-- C9, amended: `worker_manager` construction completes without a fault for every host and
every configuration (Open Fronthaul with any cell count, SDR with any driver, profile and
thread counts) except an SDR radio whose driver is not "zmq" combined with the profile
`blocking`; for those configurations the lookup of "phy_worker" fails. -/
theorem worker_manager_create_ok (env : host) (appcfg : gnb_appconfig) :
    (appcfg.blocking_without_zmq = false → ∃ wm, worker_manager.create env appcfg = .ok wm) ∧
    (appcfg.blocking_without_zmq = true →
      worker_manager.create env appcfg = .error (.out_of_range "phy_worker")) := by
  obtain ⟨ru_cfg, cells_cfg, ⟨ul, dl, pdsch⟩⟩ := appcfg
  obtain ⟨hradio, hstats, hphy, hlower, htx, hrx, hdl, hul, htiming, hprach⟩ :=
    du_cu_nonblocking_workers_at env ul dl pdsch
  cases ru_cfg with
  | ofh cfg =>
    refine ⟨fun _ => ?_, fun hbad => by simp [gnb_appconfig.blocking_without_zmq] at hbad⟩
    apply ok_exists
    simp only [worker_manager.create, bind, Except.bind, create_du_cu_executors_nonblocking,
      worker_manager.create_ru_executors]
    exact create_ofh_executors_ok _ env _ htiming (du_cu_nonblocking_workers_ofh env ul dl pdsch)
  | sdr cfg =>
    obtain ⟨driver, ⟨profile⟩⟩ := cfg
    by_cases hz : driver = "zmq"
    · subst hz
      refine ⟨fun _ => ?_, fun hbad => by simp [gnb_appconfig.blocking_without_zmq] at hbad⟩
      apply ok_exists
      simp only [worker_manager.create, bind, Except.bind, create_du_cu_executors_blocking,
        worker_manager.create_ru_executors, beq_self_eq_true, bne_self_eq_false,
        Bool.false_eq_true, if_false]
      exact create_lower_phy_executors_blocking _
        ⟨"phy_worker", task_worker_queue_size, .max_minus 0, ⟨[]⟩, true⟩
        (by simp [du_cu_blocking_state, upd]) (by simp [du_cu_blocking_state, upd])
        (by simp [du_cu_blocking_state, upd])
    · have hbeq : (driver == "zmq") = false := by simpa using hz
      have hbne : (driver != "zmq") = true := by simpa using hz
      cases profile with
      | blocking =>
        refine ⟨fun hok => by simp [gnb_appconfig.blocking_without_zmq, hbne] at hok, fun _ => ?_⟩
        simp only [worker_manager.create, bind, Except.bind, hbeq, hbne,
          create_du_cu_executors_nonblocking, worker_manager.create_ru_executors, if_true]
        exact create_lower_phy_executors_blocking_absent _ hradio hstats hphy
      | single =>
        refine ⟨fun _ => ?_, fun hbad => by simp [gnb_appconfig.blocking_without_zmq] at hbad⟩
        apply ok_exists
        simp only [worker_manager.create, bind, Except.bind, hbeq, hbne,
          create_du_cu_executors_nonblocking, worker_manager.create_ru_executors, if_true]
        exact create_lower_phy_executors_single _ _ hradio hstats hlower hprach
      | dual =>
        refine ⟨fun _ => ?_, fun hbad => by simp [gnb_appconfig.blocking_without_zmq] at hbad⟩
        apply ok_exists
        simp only [worker_manager.create, bind, Except.bind, hbeq, hbne,
          create_du_cu_executors_nonblocking, worker_manager.create_ru_executors, if_true]
        exact create_lower_phy_executors_dual _ _ hradio hstats hdl hul hprach
      | quad =>
        refine ⟨fun _ => ?_, fun hbad => by simp [gnb_appconfig.blocking_without_zmq] at hbad⟩
        apply ok_exists
        simp only [worker_manager.create, bind, Except.bind, hbeq, hbne,
          create_du_cu_executors_nonblocking, worker_manager.create_ru_executors, if_true]
        exact create_lower_phy_executors_quad _ _ hradio hstats htx hrx hdl hul hprach

/-- Witness for C9 (amended): construction succeeds for an SDR radio with driver "uhd" and
the profile `quad`. -/
theorem worker_manager_create_ok_witness :
    uhd_quad_config.blocking_without_zmq = false ∧
      ∃ wm, worker_manager.create sample_host uhd_quad_config = .ok wm :=
  ⟨rfl, (worker_manager_create_ok sample_host uhd_quad_config).1 rfl⟩

/-- What the constructor builds for an SDR radio with driver "zmq", whatever the configured
profile. -/
theorem create_zmq_eq (env : host) (profile : lower_phy_thread_profile)
    (cells_cfg : List cell_appconfig) (ul dl pdsch : Nat) :
    worker_manager.create env (sdr_config "zmq" profile cells_cfg ul dl pdsch) =
      .ok (lower_phy_state (du_cu_blocking_state env pdsch) .blocking) := by
  simp only [sdr_config, worker_manager.create, bind, Except.bind,
    create_du_cu_executors_blocking, worker_manager.create_ru_executors, beq_self_eq_true,
    bne_self_eq_false, Bool.false_eq_true, if_false]
  rw [create_lower_phy_executors_blocking _
    ⟨"phy_worker", task_worker_queue_size, .max_minus 0, ⟨[]⟩, true⟩
    (by simp [du_cu_blocking_state, upd]) (by simp [du_cu_blocking_state, upd])
    (by simp [du_cu_blocking_state, upd])]
  rfl

/-- What the constructor builds for an SDR radio with another driver than "zmq" and a
profile other than blocking. -/
theorem create_sdr_eq (env : host) (driver : String) (profile : lower_phy_thread_profile)
    (cells_cfg : List cell_appconfig) (ul dl pdsch : Nat)
    (hz : driver ≠ "zmq") (hp : profile ≠ .blocking) :
    worker_manager.create env (sdr_config driver profile cells_cfg ul dl pdsch) =
      .ok (lower_phy_state (du_cu_nonblocking_state env ul dl pdsch) profile) := by
  obtain ⟨hradio, hstats, hphy, hlower, htx, hrx, hdl, hul, htiming, hprach⟩ :=
    du_cu_nonblocking_workers_at env ul dl pdsch
  have hbeq : (driver == "zmq") = false := by simpa using hz
  have hbne : (driver != "zmq") = true := by simpa using hz
  simp only [sdr_config, worker_manager.create, bind, Except.bind, hbeq, hbne,
    create_du_cu_executors_nonblocking, worker_manager.create_ru_executors, if_true]
  cases profile with
  | blocking => exact absurd rfl hp
  | single =>
    rw [create_lower_phy_executors_single _ _ hradio hstats hlower hprach]
    rfl
  | dual =>
    rw [create_lower_phy_executors_dual _ _ hradio hstats hdl hul hprach]
    rfl
  | quad =>
    rw [create_lower_phy_executors_quad _ _ hradio hstats htx hrx hdl hul hprach]
    rfl

/-- What the constructor builds for an Open Fronthaul radio. -/
theorem create_ofh_eq (env : host) (cells_cfg : List cell_appconfig) (ul dl pdsch : Nat) :
    worker_manager.create env (ofh_config cells_cfg ul dl pdsch) =
      .ok (ofh_state (du_cu_nonblocking_state env ul dl pdsch) env
        (cells_cfg.length % UINT_RANGE)) := by
  obtain ⟨hradio, hstats, hphy, hlower, htx, hrx, hdl, hul, htiming, hprach⟩ :=
    du_cu_nonblocking_workers_at env ul dl pdsch
  simp only [ofh_config, worker_manager.create, bind, Except.bind,
    create_du_cu_executors_nonblocking, worker_manager.create_ru_executors]
  exact create_ofh_executors_ok _ env _ htiming (du_cu_nonblocking_workers_ofh env ul dl pdsch)

/-- C11: with the SDR driver "zmq", for every configured lower-PHY profile and all thread
counts, the upper PUSCH, PUCCH and PRACH executors, the single executor of
`du_low_dl_executors` and the five lower-PHY executors are bound to the one worker
"phy_worker"; no "upper_phy_ul" pool and no "phy_prach" or "upper_phy_dl" worker exists; and
the DU slot executor is a synchronous adapter over the max lane of the du_cell worker. -/
theorem zmq_shares_phy_worker (env : host) (profile : lower_phy_thread_profile)
    (cells_cfg : List cell_appconfig) (ul dl pdsch : Nat) :
    ∃ wm, worker_manager.create env (sdr_config "zmq" profile cells_cfg ul dl pdsch) = .ok wm ∧
      wm.upper_pusch_exec = some (.task_worker_executor "phy_worker" true) ∧
      wm.upper_pucch_exec = some (.task_worker_executor "phy_worker" true) ∧
      wm.upper_prach_exec = some (.task_worker_executor "phy_worker" true) ∧
      wm.du_low_dl_executors = [.task_worker_executor "phy_worker" true] ∧
      wm.lower_prach_exec = some (.task_worker_executor "phy_worker" true) ∧
      wm.lower_phy_tx_exec = some (.task_worker_executor "phy_worker" true) ∧
      wm.lower_phy_rx_exec = some (.task_worker_executor "phy_worker" true) ∧
      wm.lower_phy_dl_exec = some (.task_worker_executor "phy_worker" true) ∧
      wm.lower_phy_ul_exec = some (.task_worker_executor "phy_worker" true) ∧
      (∃ w, wm.workers "phy_worker" = some w ∧ w.name = "phy_worker") ∧
      wm.worker_pools "upper_phy_ul" = none ∧
      wm.workers "phy_prach" = none ∧
      wm.workers "upper_phy_dl" = none ∧
      wm.du_slot_exec =
        some (.sync_executor (.priority_task_worker_executor .max .du_cell_worker)) ∧
      (∃ w, wm.du_cell_worker = some w ∧ w.name = "du_cell") := by
  refine ⟨_, create_zmq_eq env profile cells_cfg ul dl pdsch, rfl, rfl, rfl, rfl, rfl, rfl, rfl,
    rfl, rfl, ?_, ?_, ?_, ?_, rfl, ⟨_, rfl, rfl⟩⟩
  · exact ⟨⟨"phy_worker", task_worker_queue_size, .max_minus 0, ⟨[]⟩, true⟩,
      by simp [lower_phy_state, du_cu_blocking_state, upd], rfl⟩
  · by_cases hp : pdsch > 1 <;>
      simp [lower_phy_state, du_cu_blocking_state, with_pdsch_pool, upd, hp]
  · simp [lower_phy_state, du_cu_blocking_state, upd]
  · simp [lower_phy_state, du_cu_blocking_state, upd]

/-- C12: for an SDR radio with a driver other than "zmq" and the profile quad, for every cell
count, the lower-PHY tx, rx, dl and ul executors are bound to the four workers
"lower_phy_tx", "lower_phy_rx", "lower_phy_dl" and "lower_phy_ul", which are pairwise
distinct entries of `workers`, the lower PRACH executor is bound to the worker "phy_prach",
and every other cell count yields the same manager. -/
theorem quad_uses_four_workers (env : host) (driver : String)
    (cells_cfg : List cell_appconfig) (ul dl pdsch : Nat) (hz : driver ≠ "zmq") :
    ∃ wm, worker_manager.create env (sdr_config driver .quad cells_cfg ul dl pdsch) = .ok wm ∧
      wm.lower_phy_tx_exec = some (.task_worker_executor "lower_phy_tx" true) ∧
      wm.lower_phy_rx_exec = some (.task_worker_executor "lower_phy_rx" true) ∧
      wm.lower_phy_dl_exec = some (.task_worker_executor "lower_phy_dl" true) ∧
      wm.lower_phy_ul_exec = some (.task_worker_executor "lower_phy_ul" true) ∧
      wm.lower_prach_exec = some (.task_worker_executor "phy_prach" true) ∧
      (∀ n ∈ ["lower_phy_tx", "lower_phy_rx", "lower_phy_dl", "lower_phy_ul", "phy_prach"],
        ∃ w, wm.workers n = some w ∧ w.name = n) ∧
      ["lower_phy_tx", "lower_phy_rx", "lower_phy_dl", "lower_phy_ul"].Nodup ∧
      ∀ cells_cfg2,
        worker_manager.create env (sdr_config driver .quad cells_cfg2 ul dl pdsch) = .ok wm := by
  refine ⟨_, create_sdr_eq env driver .quad cells_cfg ul dl pdsch hz (by decide), rfl, rfl, rfl,
    rfl, rfl, ?_, by decide, fun cells_cfg2 =>
      create_sdr_eq env driver .quad cells_cfg2 ul dl pdsch hz (by decide)⟩
  have hprach := (du_cu_nonblocking_workers_at env ul dl pdsch).2.2.2.2.2.2.2.2.2
  intro n hn
  simp only [List.mem_cons, List.mem_singleton, List.not_mem_nil, or_false] at hn
  rcases hn with h | h | h | h | h <;> subst h <;>
    simp [lower_phy_state, upd, hprach]

/-- Witness for C12 with driver "uhd" and two cells. -/
theorem quad_uses_four_workers_witness :
    "uhd" ≠ "zmq" ∧
    ∃ wm, worker_manager.create sample_host (sdr_config "uhd" .quad [⟨⟩, ⟨⟩] 1 1 1) = .ok wm ∧
      wm.lower_phy_tx_exec = some (.task_worker_executor "lower_phy_tx" true) ∧
      wm.lower_phy_rx_exec = some (.task_worker_executor "lower_phy_rx" true) ∧
      wm.lower_phy_dl_exec = some (.task_worker_executor "lower_phy_dl" true) ∧
      wm.lower_phy_ul_exec = some (.task_worker_executor "lower_phy_ul" true) ∧
      wm.lower_prach_exec = some (.task_worker_executor "phy_prach" true) ∧
      (∀ n ∈ ["lower_phy_tx", "lower_phy_rx", "lower_phy_dl", "lower_phy_ul", "phy_prach"],
        ∃ w, wm.workers n = some w ∧ w.name = n) ∧
      ["lower_phy_tx", "lower_phy_rx", "lower_phy_dl", "lower_phy_ul"].Nodup ∧
      ∀ cells_cfg2,
        worker_manager.create sample_host (sdr_config "uhd" .quad cells_cfg2 1 1 1) = .ok wm :=
  ⟨by decide, quad_uses_four_workers sample_host "uhd" [⟨⟩, ⟨⟩] 1 1 1 (by decide)⟩

/-- C13, counterexample: in blocking mode (driver "zmq") `create_du_cu_executors` binds the
upper PUSCH executor to a plain `task_worker_executor`, not to a synchronous adapter. -/
theorem zmq_pusch_executor_not_sync :
    ∃ wm e, (worker_manager.init sample_host).create_du_cu_executors sample_host
        (("zmq" : String) == "zmq") 1 1 1 = .ok wm ∧
      wm.upper_pusch_exec = some e ∧ e.is_sync = false :=
  ⟨_, _, create_du_cu_executors_blocking sample_host 1 1 1, rfl, rfl⟩

/-- C13, amended: with the driver "zmq" `create_du_cu_executors` makes the slot executor a
synchronous adapter over the max lane of the du_cell worker, while the uplink (PUSCH, PUCCH,
PRACH) executors and the single downlink executor are plain executors on the one worker
"phy_worker", an entry of `workers`; and for every driver, with `is_blocking_mode_active`
equal to "the driver is zmq", the slot executor is a synchronous adapter exactly when the
driver is "zmq", and the uplink executors and every downlink executor are never synchronous
adapters. -/
theorem only_slot_executor_is_sync (env : host) (driver : String) (ul dl pdsch : Nat) :
    (∃ wm,
      (worker_manager.init env).create_du_cu_executors env (("zmq" : String) == "zmq")
        ul dl pdsch = .ok wm ∧
      wm.du_slot_exec =
        some (.sync_executor (.priority_task_worker_executor .max .du_cell_worker)) ∧
      wm.upper_pusch_exec = some (.task_worker_executor "phy_worker" true) ∧
      wm.upper_pucch_exec = some (.task_worker_executor "phy_worker" true) ∧
      wm.upper_prach_exec = some (.task_worker_executor "phy_worker" true) ∧
      wm.du_low_dl_executors = [.task_worker_executor "phy_worker" true] ∧
      ∃ w, wm.workers "phy_worker" = some w ∧ w.name = "phy_worker") ∧
    ∃ wm slot pusch pucch prach,
      (worker_manager.init env).create_du_cu_executors env (driver == "zmq") ul dl pdsch =
        .ok wm ∧
      wm.du_slot_exec = some slot ∧ slot.is_sync = (driver == "zmq") ∧
      slot.lane = some (.max, .du_cell_worker) ∧
      wm.upper_pusch_exec = some pusch ∧ pusch.is_sync = false ∧
      wm.upper_pucch_exec = some pucch ∧ pucch.is_sync = false ∧
      wm.upper_prach_exec = some prach ∧ prach.is_sync = false ∧
      ∀ e ∈ wm.du_low_dl_executors, e.is_sync = false := by
  refine ⟨⟨_, create_du_cu_executors_blocking env ul dl pdsch, rfl, rfl, rfl, rfl, rfl,
    ⟨"phy_worker", task_worker_queue_size, .max_minus 0, ⟨[]⟩, true⟩,
    by simp [du_cu_blocking_state, upd], rfl⟩, ?_⟩
  by_cases hz : driver = "zmq"
  · subst hz
    refine ⟨_, _, _, _, _, create_du_cu_executors_blocking env ul dl pdsch, rfl, rfl, rfl, rfl,
      rfl, rfl, rfl, rfl, rfl, ?_⟩
    intro e he
    simp only [du_cu_blocking_state, List.mem_singleton] at he
    subst he
    rfl
  · have hbeq : (driver == "zmq") = false := by simpa using hz
    rw [hbeq]
    refine ⟨_, _, _, _, _, create_du_cu_executors_nonblocking env ul dl pdsch, rfl, rfl, rfl,
      rfl, rfl, rfl, rfl, rfl, rfl, ?_⟩
    intro e he
    simp only [du_cu_nonblocking_state, List.mem_map] at he
    obtain ⟨i, _, hi⟩ := he
    subst hi
    rfl

/-- A `create_ofh_executor` call makes exactly one reservation request. -/
theorem ofh_executor_state_requests (wm : worker_manager) (name : String) (p q : Nat) :
    (ofh_executor_state wm name p q).nof_affinity_requests = wm.nof_affinity_requests + 1 := by
  cases hr : wm.affinity_manager.reserve_cpu_index.1 <;>
    simp [ofh_executor_state, worker_manager.nof_affinity_requests, hr, List.filter_append,
      print_event.is_affinity]

/-- The iteration for one cell makes exactly three reservation requests. -/
theorem ofh_cell_state_requests (wm : worker_manager) (i : Nat) :
    (ofh_cell_state wm i).nof_affinity_requests = wm.nof_affinity_requests + 3 := by
  have h1 := ofh_executor_state_requests wm ("ru_dl_" ++ to_string i) 5 task_worker_queue_size
  have h2 := fun wm2 => ofh_executor_state_requests wm2 ("ru_tx_" ++ to_string i) 1
    task_worker_queue_size
  have h3 := fun wm2 => ofh_executor_state_requests wm2 ("ru_rx_" ++ to_string i) 1 1
  simp only [worker_manager.nof_affinity_requests] at h1 h2 h3 ⊢
  simp only [ofh_cell_state]
  rw [h3, h2]
  simp only []
  rw [h1]

/-- The first `k` iterations make exactly `3 * k` reservation requests. -/
theorem ofh_cells_state_requests (wm : worker_manager) (k : Nat) :
    (ofh_cells_state wm k).nof_affinity_requests = wm.nof_affinity_requests + 3 * k := by
  induction k with
  | zero => rfl
  | succ k ih =>
    simp only [ofh_cells_state]
    rw [ofh_cell_state_requests, ih]
    omega

/-- The executor vectors after the first `k` iterations hold one executor per cell, in cell
order. -/
theorem ofh_cells_state_execs (wm : worker_manager) (k : Nat) :
    (ofh_cells_state wm k).ru_dl_exec = wm.ru_dl_exec ++ (List.range k).map
      (fun i => task_executor.task_worker_executor ("ru_dl_" ++ to_string i) true) ∧
    (ofh_cells_state wm k).ru_tx_exec = wm.ru_tx_exec ++ (List.range k).map
      (fun i => task_executor.task_worker_executor ("ru_tx_" ++ to_string i) true) ∧
    (ofh_cells_state wm k).ru_rx_exec = wm.ru_rx_exec ++ (List.range k).map
      (fun i => task_executor.task_worker_executor ("ru_rx_" ++ to_string i) true) ∧
    (ofh_cells_state wm k).ru_timing_exec = wm.ru_timing_exec := by
  induction k with
  | zero => simp [ofh_cells_state]
  | succ k ih =>
    obtain ⟨h1, h2, h3, h4⟩ := ih
    simp only [ofh_cells_state, List.range_succ, List.map_append, List.map_cons, List.map_nil]
    refine ⟨?_, ?_, ?_, ?_⟩
    · simp [ofh_cell_state, ofh_executor_state, h1]
    · simp [ofh_cell_state, ofh_executor_state, h2]
    · simp [ofh_cell_state, ofh_executor_state, h3]
    · simp [ofh_cell_state, ofh_executor_state, h4]

/-- `create_ofh_executors` makes one reservation request for the timing executor and three
per cell. -/
theorem ofh_state_requests (wm : worker_manager) (env : host) (n : Nat) :
    (ofh_state wm env n).nof_affinity_requests = wm.nof_affinity_requests + (3 * n + 1) := by
  have e : ∀ (wm2 : worker_manager) (x : Option task_executor),
      ({ wm2 with ru_timing_exec := x } : worker_manager).nof_affinity_requests =
        wm2.nof_affinity_requests := fun _ _ => rfl
  simp only [ofh_state]
  rw [ofh_cells_state_requests, e, ofh_executor_state_requests]
  split <;>
    simp [worker_manager.nof_affinity_requests, List.filter_append, print_event.is_affinity] <;>
    omega

/-- Reservations made one after the other add up. -/
theorem after_add (m : affinity_mask_manager) (a b : Nat) :
    (m.after a).after b = m.after (a + b) := by
  induction b with
  | zero => rfl
  | succ b ih =>
    show ((m.after a).after b).reserve_cpu_index.2 = (m.after (a + b)).reserve_cpu_index.2
    rw [ih]

/-- The outcome of a reservation after `a` and then `j` earlier calls. -/
theorem nth_reservation_after (m : affinity_mask_manager) (a j : Nat) :
    (m.after a).nth_reservation j = m.nth_reservation (a + j) := by
  simp only [affinity_mask_manager.nth_reservation, after_add]

/-- The affinity manager and the new worker after one `create_ofh_executor` call. -/
theorem ofh_executor_state_fields (wm : worker_manager) (name : String) (p q : Nat) :
    (ofh_executor_state wm name p q).affinity_manager = wm.affinity_manager.after 1 ∧
    (ofh_executor_state wm name p q).workers name =
      some ⟨name, q, .max_minus p,
        mask_of_reservation (wm.affinity_manager.nth_reservation 0), true⟩ := by
  refine ⟨rfl, ?_⟩
  simp only [ofh_executor_state, upd_same, affinity_mask_manager.nth_reservation,
    affinity_mask_manager.after]
  cases wm.affinity_manager.reserve_cpu_index.1 <;> rfl

/-- The affinity manager and the three new workers after the iteration for cell `i`. -/
theorem ofh_cell_state_fields (wm : worker_manager) (i : Nat) :
    (ofh_cell_state wm i).affinity_manager = wm.affinity_manager.after 3 ∧
    (ofh_cell_state wm i).workers ("ru_dl_" ++ to_string i) =
      some ⟨"ru_dl_" ++ to_string i, task_worker_queue_size, .max_minus 5,
        mask_of_reservation (wm.affinity_manager.nth_reservation 0), true⟩ ∧
    (ofh_cell_state wm i).workers ("ru_tx_" ++ to_string i) =
      some ⟨"ru_tx_" ++ to_string i, task_worker_queue_size, .max_minus 1,
        mask_of_reservation (wm.affinity_manager.nth_reservation 1), true⟩ ∧
    (ofh_cell_state wm i).workers ("ru_rx_" ++ to_string i) =
      some ⟨"ru_rx_" ++ to_string i, 1, .max_minus 1,
        mask_of_reservation (wm.affinity_manager.nth_reservation 2), true⟩ := by
  obtain ⟨h1, h2, h3, _, _, _⟩ := ofh_names_distinct i i
  have e1 := ofh_executor_state_fields wm ("ru_dl_" ++ to_string i) 5 task_worker_queue_size
  refine ⟨rfl, ?_, ?_, ?_⟩
  · simp only [ofh_cell_state]
    rw [ofh_executor_state_workers_other _ _ _ _ _ h2]
    simp only []
    rw [ofh_executor_state_workers_other _ _ _ _ _ h1]
    exact e1.2
  · simp only [ofh_cell_state]
    rw [ofh_executor_state_workers_other _ _ _ _ _ h3]
    exact (ofh_executor_state_fields _ ("ru_tx_" ++ to_string i) 1 task_worker_queue_size).2
  · simp only [ofh_cell_state]
    exact (ofh_executor_state_fields _ ("ru_rx_" ++ to_string i) 1 1).2

/-- The affinity manager after the first `k` iterations has served `3 * k` requests. -/
theorem ofh_cells_state_affinity (wm : worker_manager) (k : Nat) :
    (ofh_cells_state wm k).affinity_manager = wm.affinity_manager.after (3 * k) := by
  induction k with
  | zero => rfl
  | succ k ih =>
    simp only [ofh_cells_state]
    rw [(ofh_cell_state_fields _ k).1, ih, after_add, show 3 * (k + 1) = 3 * k + 3 by omega]

/-- After the first `k` iterations the three workers of every cell `i` below `k` are
registered, each with the mask of its own reservation. -/
theorem ofh_cells_state_workers_created (wm : worker_manager) (k i : Nat) (hi : i < k) :
    (ofh_cells_state wm k).workers ("ru_dl_" ++ to_string i) =
      some ⟨"ru_dl_" ++ to_string i, task_worker_queue_size, .max_minus 5,
        mask_of_reservation (wm.affinity_manager.nth_reservation (3 * i)), true⟩ ∧
    (ofh_cells_state wm k).workers ("ru_tx_" ++ to_string i) =
      some ⟨"ru_tx_" ++ to_string i, task_worker_queue_size, .max_minus 1,
        mask_of_reservation (wm.affinity_manager.nth_reservation (3 * i + 1)), true⟩ ∧
    (ofh_cells_state wm k).workers ("ru_rx_" ++ to_string i) =
      some ⟨"ru_rx_" ++ to_string i, 1, .max_minus 1,
        mask_of_reservation (wm.affinity_manager.nth_reservation (3 * i + 2)), true⟩ := by
  induction k with
  | zero => omega
  | succ k ih =>
    simp only [ofh_cells_state]
    by_cases hik : i = k
    · subst hik
      have h := ofh_cell_state_fields (ofh_cells_state wm i) i
      rw [ofh_cells_state_affinity, nth_reservation_after, nth_reservation_after,
        nth_reservation_after] at h
      exact h.2
    · have hlt : i < k := by omega
      obtain ⟨hdl, htx, hrx⟩ := ih hlt
      obtain ⟨a1, a2, a3, a4, a5, a6⟩ := ofh_names_distinct i k
      obtain ⟨b1, b2, b3, _, _, _⟩ := ofh_names_distinct k i
      refine ⟨?_, ?_, ?_⟩
      · rw [ofh_cell_state_workers_other _ _ _ (fun h => hik (a4 h)) a1 a2]
        exact hdl
      · rw [ofh_cell_state_workers_other _ _ _ (Ne.symm b1) (fun h => hik (a5 h)) a3]
        exact htx
      · rw [ofh_cell_state_workers_other _ _ _ (Ne.symm b2) (Ne.symm b3) (fun h => hik (a6 h))]
        exact hrx

/-- With a pool of two free cores the first two reservations succeed, with cores 0 and 1,
and every later reservation fails. -/
theorem two_core_pool_reservations :
    (⟨[false, false]⟩ : affinity_mask_manager).nth_reservation 0 = some 0 ∧
    (⟨[false, false]⟩ : affinity_mask_manager).nth_reservation 1 = some 1 ∧
    ∀ j, 2 ≤ j → (⟨[false, false]⟩ : affinity_mask_manager).nth_reservation j = none := by
  refine ⟨rfl, rfl, ?_⟩
  have hfull : ∀ j, (⟨[false, false]⟩ : affinity_mask_manager).after (j + 2) = ⟨[true, true]⟩ := by
    intro j
    induction j with
    | zero => rfl
    | succ j ih =>
      simp only [affinity_mask_manager.after] at ih ⊢
      rw [ih]
      rfl
  intro j hj
  obtain ⟨d, rfl⟩ : ∃ d, j = d + 2 := ⟨j - 2, by omega⟩
  simp only [affinity_mask_manager.nth_reservation, hfull]
  rfl

/-- The manager on which `create_ofh_executors` runs its loop: the timing worker is
registered with the mask of the first reservation, one reservation has been served, and the
executor vectors are still those of the start. -/
theorem ofh_state_eq (wm : worker_manager) (env : host) (n : Nat) :
    ∃ wm2 : worker_manager, ofh_state wm env n = ofh_cells_state wm2 n ∧
      wm2.affinity_manager = wm.affinity_manager.after 1 ∧
      wm2.workers "ru_timing" =
        some ⟨"ru_timing", 1, .max_minus 0,
          mask_of_reservation (wm.affinity_manager.nth_reservation 0), true⟩ ∧
      wm2.ru_timing_exec = some (.task_worker_executor "ru_timing" true) ∧
      wm2.ru_dl_exec = wm.ru_dl_exec ∧ wm2.ru_tx_exec = wm.ru_tx_exec ∧
      wm2.ru_rx_exec = wm.ru_rx_exec ∧
      wm2.du_cell_worker = wm.du_cell_worker ∧ wm2.gnb_ctrl_worker = wm.gnb_ctrl_worker ∧
      wm2.worker_pools = wm.worker_pools ∧
      ∀ name, name ≠ "ru_timing" → wm2.workers name = wm.workers name := by
  simp only [ofh_state]
  split
  · exact ⟨_, rfl, rfl, (ofh_executor_state_fields _ "ru_timing" 0 1).2, rfl, rfl, rfl, rfl, rfl,
      rfl, rfl, fun name hne => ofh_executor_state_workers_other _ _ _ _ _ hne⟩
  · exact ⟨_, rfl, rfl, (ofh_executor_state_fields _ "ru_timing" 0 1).2, rfl, rfl, rfl, rfl, rfl,
      rfl, rfl, fun name hne => ofh_executor_state_workers_other _ _ _ _ _ hne⟩

/-- The workers that `create_ofh_executors` registers, each with the mask of its own
reservation: the timing worker takes the first reservation and cell `i` the three
reservations that follow the `3 * i + 1` earlier ones. -/
theorem ofh_state_workers (wm : worker_manager) (env : host) (n : Nat) :
    (ofh_state wm env n).workers "ru_timing" =
      some ⟨"ru_timing", 1, .max_minus 0,
        mask_of_reservation (wm.affinity_manager.nth_reservation 0), true⟩ ∧
    ∀ i, i < n →
      (ofh_state wm env n).workers ("ru_dl_" ++ to_string i) =
        some ⟨"ru_dl_" ++ to_string i, task_worker_queue_size, .max_minus 5,
          mask_of_reservation (wm.affinity_manager.nth_reservation (3 * i + 1)), true⟩ ∧
      (ofh_state wm env n).workers ("ru_tx_" ++ to_string i) =
        some ⟨"ru_tx_" ++ to_string i, task_worker_queue_size, .max_minus 1,
          mask_of_reservation (wm.affinity_manager.nth_reservation (3 * i + 2)), true⟩ ∧
      (ofh_state wm env n).workers ("ru_rx_" ++ to_string i) =
        some ⟨"ru_rx_" ++ to_string i, 1, .max_minus 1,
          mask_of_reservation (wm.affinity_manager.nth_reservation (3 * i + 3)), true⟩ := by
  obtain ⟨wm2, heq, ham, htiming, _, _, _, _, _, _, _, _⟩ := ofh_state_eq wm env n
  rw [heq]
  refine ⟨?_, ?_⟩
  · rw [ofh_cells_state_workers_other wm2 n "ru_timing" (by intro i _; simp [String.ext_iff])]
    exact htiming
  · intro i hi
    have h := ofh_cells_state_workers_created wm2 n i hi
    rw [ham, nth_reservation_after, nth_reservation_after, nth_reservation_after,
      show 1 + 3 * i = 3 * i + 1 by omega, show 1 + (3 * i + 1) = 3 * i + 2 by omega,
      show 1 + (3 * i + 2) = 3 * i + 3 by omega] at h
    exact h

/-- The executors that `create_ofh_executors` publishes: the timing executor and one
executor per cell in each of the three vectors. -/
theorem ofh_state_execs (wm : worker_manager) (env : host) (n : Nat) :
    (ofh_state wm env n).ru_timing_exec = some (.task_worker_executor "ru_timing" true) ∧
    (ofh_state wm env n).ru_dl_exec = wm.ru_dl_exec ++ (List.range n).map
      (fun i => task_executor.task_worker_executor ("ru_dl_" ++ to_string i) true) ∧
    (ofh_state wm env n).ru_tx_exec = wm.ru_tx_exec ++ (List.range n).map
      (fun i => task_executor.task_worker_executor ("ru_tx_" ++ to_string i) true) ∧
    (ofh_state wm env n).ru_rx_exec = wm.ru_rx_exec ++ (List.range n).map
      (fun i => task_executor.task_worker_executor ("ru_rx_" ++ to_string i) true) := by
  obtain ⟨wm2, heq, _, _, ht, hdl, htx, hrx, _, _, _, _⟩ := ofh_state_eq wm env n
  obtain ⟨e1, e2, e3, e4⟩ := ofh_cells_state_execs wm2 n
  rw [heq, e1, e2, e3, e4, ht, hdl, htx, hrx]
  exact ⟨rfl, rfl, rfl, rfl⟩

/-- C14, counterexample: with three Open Fronthaul cells the constructor makes ten
CPU-affinity reservation requests, not nine. -/
theorem ofh_three_cells_ten_requests :
    ∃ wm, worker_manager.create sample_host ofh_three_cells = .ok wm ∧
      wm.nof_affinity_requests = 10 ∧ wm.nof_affinity_requests ≠ 3 * 3 :=
  ⟨_, rfl, rfl, by decide⟩

/-- C14, amended: for an Open Fronthaul radio with `n` cells the constructor creates the
timing worker "ru_timing" and one triad of workers (dl, tx, rx) per cell, publishes one
executor per cell in each executor vector, and makes exactly `3 * n + 1` reservation
requests, the first for the timing worker and then three per cell in the order dl, tx, rx;
every worker carries the mask of its own reservation.  With an affinity pool of two free
cores exactly the first two reservations succeed, each with a core of the pool of its own,
and all later ones fail, so the workers of the remaining requests are created with the
empty mask. -/
theorem ofh_requests_and_pinning (env : host) (cells_cfg : List cell_appconfig)
    (ul dl pdsch : Nat) :
    ∃ wm, worker_manager.create env (ofh_config cells_cfg ul dl pdsch) = .ok wm ∧
      wm.nof_affinity_requests = 3 * (cells_cfg.length % UINT_RANGE) + 1 ∧
      wm.ru_timing_exec = some (.task_worker_executor "ru_timing" true) ∧
      wm.ru_dl_exec = (List.range (cells_cfg.length % UINT_RANGE)).map
        (fun i => task_executor.task_worker_executor ("ru_dl_" ++ to_string i) true) ∧
      wm.ru_tx_exec = (List.range (cells_cfg.length % UINT_RANGE)).map
        (fun i => task_executor.task_worker_executor ("ru_tx_" ++ to_string i) true) ∧
      wm.ru_rx_exec = (List.range (cells_cfg.length % UINT_RANGE)).map
        (fun i => task_executor.task_worker_executor ("ru_rx_" ++ to_string i) true) ∧
      (∃ w, wm.workers "ru_timing" = some w ∧ w.mask = mask_of_reservation
        ((⟨env.affinity_pool⟩ : affinity_mask_manager).nth_reservation 0)) ∧
      (∀ i, i < cells_cfg.length % UINT_RANGE →
        (∃ w, wm.workers ("ru_dl_" ++ to_string i) = some w ∧ w.mask = mask_of_reservation
          ((⟨env.affinity_pool⟩ : affinity_mask_manager).nth_reservation (3 * i + 1))) ∧
        (∃ w, wm.workers ("ru_tx_" ++ to_string i) = some w ∧ w.mask = mask_of_reservation
          ((⟨env.affinity_pool⟩ : affinity_mask_manager).nth_reservation (3 * i + 2))) ∧
        (∃ w, wm.workers ("ru_rx_" ++ to_string i) = some w ∧ w.mask = mask_of_reservation
          ((⟨env.affinity_pool⟩ : affinity_mask_manager).nth_reservation (3 * i + 3)))) ∧
      (env.affinity_pool = [false, false] →
        (∃ c0 c1, c0 < env.affinity_pool.length ∧ c1 < env.affinity_pool.length ∧ c0 ≠ c1 ∧
          (⟨env.affinity_pool⟩ : affinity_mask_manager).nth_reservation 0 = some c0 ∧
          (⟨env.affinity_pool⟩ : affinity_mask_manager).nth_reservation 1 = some c1 ∧
          mask_of_reservation
            ((⟨env.affinity_pool⟩ : affinity_mask_manager).nth_reservation 0) = ⟨[c0]⟩ ∧
          mask_of_reservation
            ((⟨env.affinity_pool⟩ : affinity_mask_manager).nth_reservation 1) = ⟨[c1]⟩) ∧
        ∀ j, 2 ≤ j →
          (⟨env.affinity_pool⟩ : affinity_mask_manager).nth_reservation j = none ∧
          mask_of_reservation ((⟨env.affinity_pool⟩ : affinity_mask_manager).nth_reservation j) =
            ⟨[]⟩) := by
  obtain ⟨ht, hcells⟩ := ofh_state_workers (du_cu_nonblocking_state env ul dl pdsch) env
    (cells_cfg.length % UINT_RANGE)
  obtain ⟨e1, e2, e3, e4⟩ := ofh_state_execs (du_cu_nonblocking_state env ul dl pdsch) env
    (cells_cfg.length % UINT_RANGE)
  refine ⟨_, create_ofh_eq env cells_cfg ul dl pdsch, ?_, e1, ?_, ?_, ?_, ⟨_, ht, rfl⟩, ?_, ?_⟩
  · rw [ofh_state_requests]
    simp [worker_manager.nof_affinity_requests, du_cu_nonblocking_state, worker_manager.init]
  · rw [e2]
    simp [du_cu_nonblocking_state, worker_manager.init]
  · rw [e3]
    simp [du_cu_nonblocking_state, worker_manager.init]
  · rw [e4]
    simp [du_cu_nonblocking_state, worker_manager.init]
  · intro i hi
    obtain ⟨h1, h2, h3⟩ := hcells i hi
    exact ⟨⟨_, h1, rfl⟩, ⟨_, h2, rfl⟩, ⟨_, h3, rfl⟩⟩
  · intro hpool
    rw [hpool]
    obtain ⟨r0, r1, rj⟩ := two_core_pool_reservations
    refine ⟨⟨0, 1, by decide, by decide, by decide, r0, r1, by rw [r0]; rfl, by rw [r1]; rfl⟩,
      fun j hj => ⟨rj j hj, by rw [rj j hj]; rfl⟩⟩

/-- C15: for every state of the affinity manager, `create_ofh_executor(name, ...)` on a name
that is not registered creates the worker `name` and returns an executor bound to it; the
worker's mask is the single reserved index when the reservation succeeds and the empty mask
when it fails, so a failed reservation does not prevent the creation; and the constructor
completes for an Open Fronthaul radio with every affinity pool and cell count. -/
theorem create_ofh_executor_pins_or_degrades (wm : worker_manager) (name : String) (p q : Nat)
    (hfree : wm.workers name = none) :
    (∃ wm1 w, wm.create_ofh_executor name p q = .ok (.task_worker_executor name true, wm1) ∧
      wm1.workers name = some w ∧ w.name = name ∧
      (∀ idx, wm.affinity_manager.reserve_cpu_index.1 = some idx → w.mask = ⟨[idx]⟩) ∧
      (wm.affinity_manager.reserve_cpu_index.1 = none → w.mask = ⟨[]⟩) ∧
      ∀ other, other ≠ name → wm1.workers other = wm.workers other) ∧
    ∀ (env : host) (cells_cfg : List cell_appconfig) (ul dl pdsch : Nat),
      ∃ wm2, worker_manager.create env (ofh_config cells_cfg ul dl pdsch) = .ok wm2 := by
  refine ⟨⟨_, _, create_ofh_executor_ok wm name p q hfree,
    (ofh_executor_state_fields wm name p q).2, rfl, ?_, ?_,
    fun other hne => ofh_executor_state_workers_other wm name other p q hne⟩,
    fun env cells_cfg ul dl pdsch => ⟨_, create_ofh_eq env cells_cfg ul dl pdsch⟩⟩
  · intro idx hidx
    simp only [affinity_mask_manager.nth_reservation, affinity_mask_manager.after, hidx]
    rfl
  · intro hnone
    simp only [affinity_mask_manager.nth_reservation, affinity_mask_manager.after, hnone]
    rfl

/-- Witness for C15: the timing executor on a fresh manager of `sample_host`. -/
theorem create_ofh_executor_pins_or_degrades_witness :
    (worker_manager.init sample_host).workers "ru_timing" = none ∧
    ((∃ wm1 w, (worker_manager.init sample_host).create_ofh_executor "ru_timing" 0 1 =
        .ok (.task_worker_executor "ru_timing" true, wm1) ∧
      wm1.workers "ru_timing" = some w ∧ w.name = "ru_timing" ∧
      (∀ idx, (worker_manager.init sample_host).affinity_manager.reserve_cpu_index.1 = some idx →
        w.mask = ⟨[idx]⟩) ∧
      ((worker_manager.init sample_host).affinity_manager.reserve_cpu_index.1 = none →
        w.mask = ⟨[]⟩) ∧
      ∀ other, other ≠ "ru_timing" →
        wm1.workers other = (worker_manager.init sample_host).workers other) ∧
    ∀ (env : host) (cells_cfg : List cell_appconfig) (ul dl pdsch : Nat),
      ∃ wm2, worker_manager.create env (ofh_config cells_cfg ul dl pdsch) = .ok wm2) :=
  ⟨rfl, create_ofh_executor_pins_or_degrades (worker_manager.init sample_host) "ru_timing" 0 1 rfl⟩

/-- The loop of `create_ofh_executors` leaves the two priority workers and the pools as they
were. -/
theorem ofh_cells_state_frame (wm : worker_manager) (k : Nat) :
    (ofh_cells_state wm k).du_cell_worker = wm.du_cell_worker ∧
    (ofh_cells_state wm k).gnb_ctrl_worker = wm.gnb_ctrl_worker ∧
    (ofh_cells_state wm k).worker_pools = wm.worker_pools := by
  induction k with
  | zero => exact ⟨rfl, rfl, rfl⟩
  | succ k ih =>
    obtain ⟨h1, h2, h3⟩ := ih
    exact ⟨h1, h2, h3⟩

/-- With a driver other than "zmq" and the profile blocking the constructor stops at the
lookup of "phy_worker". -/
theorem create_sdr_blocking_eq (env : host) (driver : String)
    (cells_cfg : List cell_appconfig) (ul dl pdsch : Nat) (hz : driver ≠ "zmq") :
    worker_manager.create env (sdr_config driver .blocking cells_cfg ul dl pdsch) =
      .error (.out_of_range "phy_worker") := by
  obtain ⟨hradio, hstats, hphy, _⟩ := du_cu_nonblocking_workers_at env ul dl pdsch
  have hbeq : (driver == "zmq") = false := by simpa using hz
  have hbne : (driver != "zmq") = true := by simpa using hz
  simp only [sdr_config, worker_manager.create, bind, Except.bind, hbeq, hbne,
    create_du_cu_executors_nonblocking, worker_manager.create_ru_executors, if_true]
  exact create_lower_phy_executors_blocking_absent _ hradio hstats hphy

/-- Every successfully constructed manager has one of three shapes: the blocking topology,
a non-blocking SDR topology, or the Open Fronthaul topology. -/
theorem create_cases (env : host) (appcfg : gnb_appconfig) (wm : worker_manager)
    (hcreate : worker_manager.create env appcfg = .ok wm) :
    (∃ pdsch, wm = lower_phy_state (du_cu_blocking_state env pdsch) .blocking) ∨
    (∃ ul dl pdsch profile,
      wm = lower_phy_state (du_cu_nonblocking_state env ul dl pdsch) profile) ∨
    (∃ ul dl pdsch n, wm = ofh_state (du_cu_nonblocking_state env ul dl pdsch) env n) := by
  obtain ⟨ru_cfg, cells_cfg, ⟨ul, dl, pdsch⟩⟩ := appcfg
  cases ru_cfg with
  | ofh cfg =>
    have h := create_ofh_eq env cells_cfg ul dl pdsch
    simp only [ofh_config] at h
    rw [h] at hcreate
    cases hcreate
    exact Or.inr (Or.inr ⟨ul, dl, pdsch, _, rfl⟩)
  | sdr cfg =>
    obtain ⟨driver, ⟨profile⟩⟩ := cfg
    by_cases hz : driver = "zmq"
    · subst hz
      have h := create_zmq_eq env profile cells_cfg ul dl pdsch
      simp only [sdr_config] at h
      rw [h] at hcreate
      cases hcreate
      exact Or.inl ⟨pdsch, rfl⟩
    · by_cases hp : profile = .blocking
      · subst hp
        have h := create_sdr_blocking_eq env driver cells_cfg ul dl pdsch hz
        simp only [sdr_config] at h
        rw [h] at hcreate
        cases hcreate
      · have h := create_sdr_eq env driver profile cells_cfg ul dl pdsch hz hp
        simp only [sdr_config] at h
        rw [h] at hcreate
        cases hcreate
        exact Or.inr (Or.inl ⟨ul, dl, pdsch, profile, rfl⟩)

/-- Every successfully constructed manager owns the du_cell and the gnb_ctrl worker. -/
theorem create_priority_workers (env : host) (appcfg : gnb_appconfig) (wm : worker_manager)
    (hcreate : worker_manager.create env appcfg = .ok wm) :
    wm.du_cell_worker =
      some ⟨"du_cell", [8, task_worker_queue_size], 10, .max_minus 2, ⟨[]⟩, true⟩ ∧
    wm.gnb_ctrl_worker =
      some ⟨"gnb_ctrl", [64, task_worker_queue_size], 100, .max_minus 2, ⟨[]⟩, true⟩ := by
  rcases create_cases env appcfg wm hcreate with ⟨pdsch, h⟩ | ⟨ul, dl, pdsch, profile, h⟩ |
    ⟨ul, dl, pdsch, n, h⟩
  · subst h
    exact ⟨rfl, rfl⟩
  · subst h
    cases profile <;> exact ⟨rfl, rfl⟩
  · subst h
    obtain ⟨wm2, heq, _, _, _, _, _, _, hc, hg, _, _⟩ :=
      ofh_state_eq (du_cu_nonblocking_state env ul dl pdsch) env n
    obtain ⟨f1, f2, _⟩ := ofh_cells_state_frame wm2 n
    rw [heq, f1, f2, hc, hg]
    exact ⟨rfl, rfl⟩

/-- What `stop()` computes on a manager that owns its two priority workers. -/
theorem stop_ok (wm : worker_manager) (du_cell gnb_ctrl : du_cell_worker_type)
    (hc : wm.du_cell_worker = some du_cell) (hg : wm.gnb_ctrl_worker = some gnb_ctrl) :
    wm.stop =
      .ok { wm with
            du_cell_worker := some { du_cell with running := false },
            gnb_ctrl_worker := some { gnb_ctrl with running := false },
            workers := fun n => (wm.workers n).map (fun w => { w with running := false }),
            worker_pools :=
              fun n => (wm.worker_pools n).map (fun w => { w with running := false }) } := by
  simp only [worker_manager.stop, hc, hg]

/-- C20: after a successful construction `stop()` completes and stops the du_cell worker,
the gnb_ctrl worker, every entry of `workers` and every entry of `worker_pools`: the maps
keep exactly their entries and none of them is left running. -/
theorem stop_stops_every_worker (env : host) (appcfg : gnb_appconfig) (wm : worker_manager)
    (hcreate : worker_manager.create env appcfg = .ok wm) :
    ∃ wm1 du_cell gnb_ctrl, wm.stop = .ok wm1 ∧
      wm1.du_cell_worker = some du_cell ∧ du_cell.running = false ∧
      wm1.gnb_ctrl_worker = some gnb_ctrl ∧ gnb_ctrl.running = false ∧
      (∀ n w, wm.workers n = some w → wm1.workers n = some { w with running := false }) ∧
      (∀ n w, wm.worker_pools n = some w →
        wm1.worker_pools n = some { w with running := false }) ∧
      (∀ n w, wm1.workers n = some w → w.running = false) ∧
      (∀ n w, wm1.worker_pools n = some w → w.running = false) := by
  obtain ⟨hc, hg⟩ := create_priority_workers env appcfg wm hcreate
  refine ⟨_, _, _, stop_ok wm _ _ hc hg, rfl, rfl, rfl, rfl, ?_, ?_, ?_, ?_⟩
  · intro n w hw
    simp [hw]
  · intro n w hw
    simp [hw]
  · intro n w hw
    cases h : wm.workers n with
    | none => simp [h] at hw
    | some w0 =>
      simp only [h, Option.map_some', Option.some.injEq] at hw
      rw [← hw]
  · intro n w hw
    cases h : wm.worker_pools n with
    | none => simp [h] at hw
    | some w0 =>
      simp only [h, Option.map_some', Option.some.injEq] at hw
      rw [← hw]

/-- Witness for C20 on the manager built for `uhd_quad_config`. -/
theorem stop_stops_every_worker_witness :
    ∃ wm, worker_manager.create sample_host uhd_quad_config = .ok wm ∧
      ∃ wm1 du_cell gnb_ctrl, wm.stop = .ok wm1 ∧
        wm1.du_cell_worker = some du_cell ∧ du_cell.running = false ∧
        wm1.gnb_ctrl_worker = some gnb_ctrl ∧ gnb_ctrl.running = false ∧
        (∀ n w, wm.workers n = some w → wm1.workers n = some { w with running := false }) ∧
        (∀ n w, wm.worker_pools n = some w →
          wm1.worker_pools n = some { w with running := false }) ∧
        (∀ n w, wm1.workers n = some w → w.running = false) ∧
        (∀ n w, wm1.worker_pools n = some w → w.running = false) :=
  ⟨_, create_sdr_eq sample_host "uhd" .quad [⟨⟩, ⟨⟩] 1 1 1 (by decide) (by decide),
    stop_stops_every_worker sample_host uhd_quad_config _
      (create_sdr_eq sample_host "uhd" .quad [⟨⟩, ⟨⟩] 1 1 1 (by decide) (by decide))⟩

end srsran
namespace srsran.srs_cu_cp

/-- What `remove_du` computes for an index other than `invalid`. -/
theorem remove_du_ok (repo : du_processor_repository) (lim : du_index_limits) (i : du_index_t)
    (hvalid : i ≠ lim.invalid) :
    repo.remove_du lim i =
      .ok { repo with
            du_task_sched :=
              ⟨upd repo.du_task_sched.queues i
                (repo.du_task_sched.queues i ++ [async_task.remove_du i])⟩ } := by
  simp [du_processor_repository.remove_du, hvalid, du_task_scheduler.handle_du_async_task]

/-- What the removal task computes on a repository that holds the index. -/
theorem remove_du_task_ok (repo : du_processor_repository) (i : du_index_t) (ctx : du_context)
    (hi : repo.du_db i = some ctx) :
    (async_task.remove_du i).run repo = .ok { repo with du_db := upd repo.du_db i none } := by
  simp [async_task.run, hi]

/-- What `find_du` computes on an index that has an entry with a processor. -/
theorem find_du_ok (repo : du_processor_repository) (lim : du_index_limits) (i : du_index_t)
    (ctx : du_context) (du : du_processor_interface) (hvalid : i ≠ lim.invalid)
    (hi : repo.du_db i = some ctx) (hdu : ctx.du_processor = some du) :
    repo.find_du lim i = .ok du := by
  simp [du_processor_repository.find_du, hvalid, hi, hdu]

/-- What `find_du` computes on an index without entry. -/
theorem find_du_absent (repo : du_processor_repository) (lim : du_index_limits)
    (i : du_index_t) (hvalid : i ≠ lim.invalid) (hi : repo.du_db i = none) :
    repo.find_du lim i = .error (.assertion "DU not found") := by
  simp [du_processor_repository.find_du, hvalid, hi]

/-- C16: for every index other than `invalid`, `remove_du(i)` and
`handle_du_remove_request(i)` return with `du_db` exactly as before, so `find_du(i)` gives
the same result as before; their only effect on the repository is one removal task appended
to the task queue of index `i`, all other queues being unchanged. -/
theorem remove_du_only_schedules (repo : du_processor_repository) (lim : du_index_limits)
    (i : du_index_t) (hvalid : i ≠ lim.invalid) :
    ∃ repo1, repo.remove_du lim i = .ok repo1 ∧
      repo.handle_du_remove_request lim i = .ok repo1 ∧
      repo1.du_db = repo.du_db ∧ repo1.cfg = repo.cfg ∧
      repo1.find_du lim i = repo.find_du lim i ∧
      repo1.du_task_sched.queues i = repo.du_task_sched.queues i ++ [async_task.remove_du i] ∧
      ∀ j, j ≠ i → repo1.du_task_sched.queues j = repo.du_task_sched.queues j :=
  ⟨_, remove_du_ok repo lim i hvalid, remove_du_ok repo lim i hvalid, rfl, rfl, rfl,
    upd_same _ _ _, fun _ hj => upd_other _ _ _ _ hj⟩

/-- Witness for C16: removal of DU 1 from `sample_repository`. -/
theorem remove_du_only_schedules_witness :
    (1 : du_index_t) ≠ sample_limits.invalid ∧
    ∃ repo1, sample_repository.remove_du sample_limits 1 = .ok repo1 ∧
      sample_repository.handle_du_remove_request sample_limits 1 = .ok repo1 ∧
      repo1.du_db = sample_repository.du_db ∧ repo1.cfg = sample_repository.cfg ∧
      repo1.find_du sample_limits 1 = sample_repository.find_du sample_limits 1 ∧
      repo1.du_task_sched.queues 1 =
        sample_repository.du_task_sched.queues 1 ++ [async_task.remove_du 1] ∧
      ∀ j, j ≠ 1 → repo1.du_task_sched.queues j = sample_repository.du_task_sched.queues j :=
  ⟨by decide, remove_du_only_schedules sample_repository sample_limits 1 (by decide)⟩

/-- C17: `remove_du(i)` on a repository that holds `i` appends the removal task and leaves
the entity in place, so a `find_du(i)` before the task executes obtains the stored DU
processor.  When the removal task executes on any repository that holds `i`, afterwards
`du_db` has no entry for `i`, every other entry is unchanged, and `find_du(i)` raises the
assertion fault "DU not found". -/
theorem removal_task_erases_entry (repo : du_processor_repository) (lim : du_index_limits)
    (i : du_index_t) (ctx : du_context) (du : du_processor_interface)
    (hvalid : i ≠ lim.invalid) (hi : repo.du_db i = some ctx)
    (hdu : ctx.du_processor = some du) :
    (∃ repo1, repo.remove_du lim i = .ok repo1 ∧
      repo1.du_task_sched.queues i = repo.du_task_sched.queues i ++ [async_task.remove_du i] ∧
      repo1.find_du lim i = .ok du) ∧
    (∀ (r : du_processor_repository) (c : du_context), r.du_db i = some c →
      ∃ r2, (async_task.remove_du i).run r = .ok r2 ∧
        r2.du_db i = none ∧
        (∀ j, j ≠ i → r2.du_db j = r.du_db j) ∧
        r2.du_task_sched.queues = r.du_task_sched.queues ∧
        r2.find_du lim i = .error (.assertion "DU not found")) ∧
    (repo.du_task_sched.queues i = [] →
      ∃ repo1 repo2, repo.remove_du lim i = .ok repo1 ∧
        repo1.run_next_du_task i = .ok repo2 ∧ repo2.du_db i = none ∧
        repo2.find_du lim i = .error (.assertion "DU not found")) := by
  refine ⟨⟨_, remove_du_ok repo lim i hvalid, upd_same _ _ _,
    find_du_ok _ lim i ctx du hvalid hi hdu⟩, ?_, ?_⟩
  · intro r c hc
    refine ⟨_, remove_du_task_ok r i c hc, upd_same _ _ _, fun _ hj => upd_other _ _ _ _ hj, rfl,
      find_du_absent _ lim i hvalid (upd_same _ _ _)⟩
  · intro hq
    have hrun : ({ repo with
          du_task_sched :=
            ⟨upd repo.du_task_sched.queues i
              (repo.du_task_sched.queues i ++ [async_task.remove_du i])⟩ } :
          du_processor_repository).run_next_du_task i =
        .ok { repo with
              du_db := upd repo.du_db i none,
              du_task_sched := ⟨upd (upd repo.du_task_sched.queues i
                (repo.du_task_sched.queues i ++ [async_task.remove_du i])) i []⟩ } := by
      simp [du_processor_repository.run_next_du_task, hq, async_task.run, hi]
    exact ⟨_, _, remove_du_ok repo lim i hvalid, hrun, upd_same _ _ _,
      find_du_absent _ lim i hvalid (upd_same _ _ _)⟩

/-- Witness for C17: removal of DU 1 from `sample_repository`. -/
theorem removal_task_erases_entry_witness :
    (∃ repo1, sample_repository.remove_du sample_limits 1 = .ok repo1 ∧
      repo1.du_task_sched.queues 1 =
        sample_repository.du_task_sched.queues 1 ++ [async_task.remove_du 1] ∧
      repo1.find_du sample_limits 1 = .ok (sample_processor 1)) ∧
    (∀ (r : du_processor_repository) (c : du_context), r.du_db 1 = some c →
      ∃ r2, (async_task.remove_du 1).run r = .ok r2 ∧
        r2.du_db 1 = none ∧
        (∀ j, j ≠ 1 → r2.du_db j = r.du_db j) ∧
        r2.du_task_sched.queues = r.du_task_sched.queues ∧
        r2.find_du sample_limits 1 = .error (.assertion "DU not found")) ∧
    (sample_repository.du_task_sched.queues 1 = [] →
      ∃ repo1 repo2, sample_repository.remove_du sample_limits 1 = .ok repo1 ∧
        repo1.run_next_du_task 1 = .ok repo2 ∧ repo2.du_db 1 = none ∧
        repo2.find_du sample_limits 1 = .error (.assertion "DU not found")) :=
  removal_task_erases_entry sample_repository sample_limits 1
    ⟨true, some (sample_processor 1), true⟩ (sample_processor 1) (by decide) (by rfl) (by rfl)

/-- C18: `find_du(i)` raises an assertion fault exactly when `i` is the invalid index or has
no entry in `du_db`; otherwise it returns the DU processor stored under `i`.  The lookup is
a function of the repository and does not modify it. -/
theorem find_du_asserts_iff (repo : du_processor_repository) (lim : du_index_limits)
    (i : du_index_t) :
    ((∃ msg, repo.find_du lim i = .error (.assertion msg)) ↔
      (i = lim.invalid ∨ repo.du_db i = none)) ∧
    (∀ ctx du, i ≠ lim.invalid → repo.du_db i = some ctx → ctx.du_processor = some du →
      repo.find_du lim i = .ok du) := by
  refine ⟨?_, fun ctx du hvalid hi hdu => find_du_ok repo lim i ctx du hvalid hi hdu⟩
  by_cases hvalid : i = lim.invalid
  · simp [du_processor_repository.find_du, hvalid]
  · cases hi : repo.du_db i with
    | none => simp [du_processor_repository.find_du, hvalid, hi]
    | some ctx =>
      cases hdu : ctx.du_processor <;>
        simp [du_processor_repository.find_du, hvalid, hi, hdu]

/-- The loop of `get_next_du_index` either finds no free index among the `fuel` indices from
`start` on and returns `invalid`, or returns the first free index among them. -/
theorem get_next_du_index_loop_spec (lim : du_index_limits)
    (du_db : du_index_t → Option du_context) (fuel start : Nat) :
    (get_next_du_index_loop lim du_db fuel start = lim.invalid ∧
      ∀ j, start ≤ j → j < start + fuel → du_db j ≠ none) ∨
    (start ≤ get_next_du_index_loop lim du_db fuel start ∧
      get_next_du_index_loop lim du_db fuel start < start + fuel ∧
      du_db (get_next_du_index_loop lim du_db fuel start) = none ∧
      ∀ j, start ≤ j → j < get_next_du_index_loop lim du_db fuel start → du_db j ≠ none) := by
  induction fuel generalizing start with
  | zero =>
    left
    exact ⟨rfl, fun j h1 h2 => by omega⟩
  | succ fuel ih =>
    cases hs : du_db start with
    | none =>
      have e : get_next_du_index_loop lim du_db (fuel + 1) start = start := by
        simp [get_next_du_index_loop, hs]
      rw [e]
      right
      exact ⟨Nat.le_refl _, by omega, hs, fun j h1 h2 => by omega⟩
    | some c =>
      have e : get_next_du_index_loop lim du_db (fuel + 1) start =
          get_next_du_index_loop lim du_db fuel (start + 1) := by
        simp [get_next_du_index_loop, hs]
      rw [e]
      have hstart : ∀ j, start ≤ j → j < start + 1 → du_db j ≠ none := by
        intro j h1 h2
        have : j = start := by omega
        rw [this, hs]
        exact Option.some_ne_none c
      rcases ih (start + 1) with ⟨h1, h2⟩ | ⟨h1, h2, h3, h4⟩
      · left
        refine ⟨h1, fun j hj1 hj2 => ?_⟩
        by_cases hj : j < start + 1
        · exact hstart j hj1 hj
        · exact h2 j (by omega) (by omega)
      · right
        refine ⟨by omega, by omega, h3, fun j hj1 hj2 => ?_⟩
        by_cases hj : j < start + 1
        · exact hstart j hj1 hj
        · exact h4 j (by omega) hj2

/-- The result of `get_next_du_index`: `invalid` with every index of the range occupied, or
the smallest free index of the range. -/
theorem get_next_du_index_spec (repo : du_processor_repository) (lim : du_index_limits) :
    (repo.get_next_du_index lim = lim.invalid ∧
      ∀ j, lim.min ≤ j → j < lim.MAX_NOF_DUS → repo.du_db j ≠ none) ∨
    (lim.min ≤ repo.get_next_du_index lim ∧ repo.get_next_du_index lim < lim.MAX_NOF_DUS ∧
      repo.du_db (repo.get_next_du_index lim) = none ∧
      ∀ j, lim.min ≤ j → j < repo.get_next_du_index lim → repo.du_db j ≠ none) := by
  simp only [du_processor_repository.get_next_du_index]
  rcases get_next_du_index_loop_spec lim repo.du_db (lim.MAX_NOF_DUS - lim.min) lim.min with
    ⟨h1, h2⟩ | ⟨h1, h2, h3, h4⟩
  · left
    exact ⟨h1, fun j hj1 hj2 => h2 j hj1 (by omega)⟩
  · right
    exact ⟨h1, by omega, h3, h4⟩

/-- C19: with `invalid` outside the range from `du_index_t::min` to `MAX_NOF_DUS`,
`get_next_du_index` returns `invalid` exactly when every index of the range has an entry,
and otherwise the smallest index of the range without entry; once the removal task of an
index `i` of the range has executed, the result is a valid index not above `i`, and it is
`i` itself when every smaller index of the range is occupied (indices are reused). -/
theorem get_next_du_index_smallest_free (repo : du_processor_repository)
    (lim : du_index_limits)
    (hinv : lim.invalid < lim.min ∨ lim.MAX_NOF_DUS ≤ lim.invalid) :
    (repo.get_next_du_index lim = lim.invalid ↔
      ∀ j, lim.min ≤ j → j < lim.MAX_NOF_DUS → repo.du_db j ≠ none) ∧
    (repo.get_next_du_index lim ≠ lim.invalid →
      lim.min ≤ repo.get_next_du_index lim ∧ repo.get_next_du_index lim < lim.MAX_NOF_DUS ∧
      repo.du_db (repo.get_next_du_index lim) = none ∧
      ∀ j, lim.min ≤ j → j < repo.get_next_du_index lim → repo.du_db j ≠ none) ∧
    (∀ i ctx, lim.min ≤ i → i < lim.MAX_NOF_DUS → repo.du_db i = some ctx →
      ∃ repo2, (async_task.remove_du i).run repo = .ok repo2 ∧
        repo2.get_next_du_index lim ≠ lim.invalid ∧
        lim.min ≤ repo2.get_next_du_index lim ∧ repo2.get_next_du_index lim ≤ i ∧
        ((∀ j, lim.min ≤ j → j < i → repo.du_db j ≠ none) →
          repo2.get_next_du_index lim = i)) := by
  refine ⟨?_, ?_, ?_⟩
  · rcases get_next_du_index_spec repo lim with ⟨h1, h2⟩ | ⟨h1, h2, h3, _⟩
    · exact ⟨fun _ => h2, fun _ => h1⟩
    · constructor
      · intro h
        rw [h] at h1 h2
        exfalso
        omega
      · intro h
        exact absurd h3 (h _ h1 h2)
  · intro hne
    rcases get_next_du_index_spec repo lim with ⟨h1, _⟩ | h
    · exact absurd h1 hne
    · exact h
  · intro i ctx hi1 hi2 hctx
    refine ⟨_, remove_du_task_ok repo i ctx hctx, ?_⟩
    have hfree : (upd repo.du_db i none) i = none := upd_same _ _ _
    generalize hr : ({ repo with du_db := upd repo.du_db i none } :
      du_processor_repository).get_next_du_index lim = r
    have hspec := get_next_du_index_spec
      ({ repo with du_db := upd repo.du_db i none } : du_processor_repository) lim
    rw [hr] at hspec
    rcases hspec with ⟨_, h2⟩ | ⟨h1, h2, h3, h4⟩
    · exact absurd hfree (h2 i hi1 hi2)
    · have hle : r ≤ i := by
        by_contra hgt
        exact h4 i hi1 (by omega) hfree
      refine ⟨?_, h1, hle, fun hocc => ?_⟩
      · intro h
        rw [h] at h1 h2
        omega
      · by_contra hne
        have hlt : r < i := by omega
        have hsame : upd repo.du_db i none r = repo.du_db r :=
          upd_other repo.du_db i r none (Nat.ne_of_lt hlt)
        simp only [hsame] at h3
        exact hocc r h1 hlt h3

/-- Witness for C19 on `sample_repository` with `sample_limits`: the next index is 2, and
after the removal of DU 0 it is 0 again. -/
theorem get_next_du_index_smallest_free_witness :
    (sample_limits.invalid < sample_limits.min ∨
      sample_limits.MAX_NOF_DUS ≤ sample_limits.invalid) ∧
    sample_repository.get_next_du_index sample_limits = 2 ∧
    ((sample_repository.get_next_du_index sample_limits = sample_limits.invalid ↔
      ∀ j, sample_limits.min ≤ j → j < sample_limits.MAX_NOF_DUS →
        sample_repository.du_db j ≠ none) ∧
    (sample_repository.get_next_du_index sample_limits ≠ sample_limits.invalid →
      sample_limits.min ≤ sample_repository.get_next_du_index sample_limits ∧
      sample_repository.get_next_du_index sample_limits < sample_limits.MAX_NOF_DUS ∧
      sample_repository.du_db (sample_repository.get_next_du_index sample_limits) = none ∧
      ∀ j, sample_limits.min ≤ j → j < sample_repository.get_next_du_index sample_limits →
        sample_repository.du_db j ≠ none) ∧
    (∀ i ctx, sample_limits.min ≤ i → i < sample_limits.MAX_NOF_DUS →
      sample_repository.du_db i = some ctx →
      ∃ repo2, (async_task.remove_du i).run sample_repository = .ok repo2 ∧
        repo2.get_next_du_index sample_limits ≠ sample_limits.invalid ∧
        sample_limits.min ≤ repo2.get_next_du_index sample_limits ∧
        repo2.get_next_du_index sample_limits ≤ i ∧
        ((∀ j, sample_limits.min ≤ j → j < i → sample_repository.du_db j ≠ none) →
          repo2.get_next_du_index sample_limits = i))) :=
  ⟨by decide, by rfl,
    get_next_du_index_smallest_free sample_repository sample_limits (by decide)⟩

end srsran.srs_cu_cp

namespace srsran

/-- The loop of `create_ofh_executors` leaves the DU and CU executors as they were. -/
theorem ofh_cells_state_du_execs (wm : worker_manager) (k : Nat) :
    (ofh_cells_state wm k).du_timer_exec = wm.du_timer_exec ∧
    (ofh_cells_state wm k).du_ctrl_exec = wm.du_ctrl_exec ∧
    (ofh_cells_state wm k).cu_cp_exec = wm.cu_cp_exec ∧
    (ofh_cells_state wm k).du_cell_exec = wm.du_cell_exec ∧
    (ofh_cells_state wm k).du_slot_exec = wm.du_slot_exec := by
  induction k with
  | zero => exact ⟨rfl, rfl, rfl, rfl, rfl⟩
  | succ k ih =>
    obtain ⟨h1, h2, h3, h4, h5⟩ := ih
    exact ⟨h1, h2, h3, h4, h5⟩

/-- The method `create_ofh_executors` leaves the DU and CU executors as they were. -/
theorem ofh_state_du_execs (wm : worker_manager) (env : host) (n : Nat) :
    (ofh_state wm env n).du_timer_exec = wm.du_timer_exec ∧
    (ofh_state wm env n).du_ctrl_exec = wm.du_ctrl_exec ∧
    (ofh_state wm env n).cu_cp_exec = wm.cu_cp_exec ∧
    (ofh_state wm env n).du_cell_exec = wm.du_cell_exec ∧
    (ofh_state wm env n).du_slot_exec = wm.du_slot_exec := by
  simp only [ofh_state]
  split
  · obtain ⟨h1, h2, h3, h4, h5⟩ := ofh_cells_state_du_execs
      { ofh_executor_state
          { wm with
            printed :=
              wm.printed ++ [print_event.ofh_threads_advisory
                (nof_host_threads env.hardware_concurrency) (min_ofh_threads n)] }
          "ru_timing" 0 1 with
        ru_timing_exec := some (.task_worker_executor "ru_timing" true) } n
    exact ⟨h1, h2, h3, h4, h5⟩
  · obtain ⟨h1, h2, h3, h4, h5⟩ := ofh_cells_state_du_execs
      { ofh_executor_state wm "ru_timing" 0 1 with
        ru_timing_exec := some (.task_worker_executor "ru_timing" true) } n
    exact ⟨h1, h2, h3, h4, h5⟩

/-- C23: for both values of `is_blocking_mode_active` and all thread counts,
`create_du_cu_executors` makes `du_timer_exec` the max lane and `du_ctrl_exec` and
`cu_cp_exec` the min lane of the gnb_ctrl worker, `du_cell_exec` the min lane and
`du_slot_exec` (behind the synchronous adapter in blocking mode) the max lane of the du_cell
worker, and both priority workers exist; every successfully constructed manager keeps these
five executors. -/
theorem timer_and_control_share_worker (env : host) (is_blocking_mode_active : Bool)
    (ul dl pdsch : Nat) :
    (∃ wm slot,
      (worker_manager.init env).create_du_cu_executors env is_blocking_mode_active ul dl pdsch =
        .ok wm ∧
      wm.gnb_ctrl_worker.isSome = true ∧ wm.du_cell_worker.isSome = true ∧
      wm.du_timer_exec = some (.priority_task_worker_executor .max .gnb_ctrl_worker) ∧
      wm.du_ctrl_exec = some (.priority_task_worker_executor .min .gnb_ctrl_worker) ∧
      wm.cu_cp_exec = some (.priority_task_worker_executor .min .gnb_ctrl_worker) ∧
      wm.du_cell_exec = some (.priority_task_worker_executor .min .du_cell_worker) ∧
      wm.du_slot_exec = some slot ∧ slot.lane = some (.max, .du_cell_worker) ∧
      slot.is_sync = is_blocking_mode_active) ∧
    ∀ appcfg wm, worker_manager.create env appcfg = .ok wm →
      ∃ slot,
        wm.du_timer_exec = some (.priority_task_worker_executor .max .gnb_ctrl_worker) ∧
        wm.du_ctrl_exec = some (.priority_task_worker_executor .min .gnb_ctrl_worker) ∧
        wm.cu_cp_exec = some (.priority_task_worker_executor .min .gnb_ctrl_worker) ∧
        wm.du_cell_exec = some (.priority_task_worker_executor .min .du_cell_worker) ∧
        wm.du_slot_exec = some slot ∧ slot.lane = some (.max, .du_cell_worker) := by
  refine ⟨?_, ?_⟩
  · cases is_blocking_mode_active with
    | true =>
      exact ⟨_, _, create_du_cu_executors_blocking env ul dl pdsch, rfl, rfl, rfl, rfl, rfl, rfl,
        rfl, rfl, rfl⟩
    | false =>
      exact ⟨_, _, create_du_cu_executors_nonblocking env ul dl pdsch, rfl, rfl, rfl, rfl, rfl,
        rfl, rfl, rfl, rfl⟩
  · intro appcfg wm hcreate
    rcases create_cases env appcfg wm hcreate with ⟨pdsch, h⟩ | ⟨ul, dl, pdsch, profile, h⟩ |
      ⟨ul, dl, pdsch, n, h⟩
    · subst h
      exact ⟨_, rfl, rfl, rfl, rfl, rfl, rfl⟩
    · subst h
      cases profile <;> exact ⟨_, rfl, rfl, rfl, rfl, rfl, rfl⟩
    · subst h
      obtain ⟨g1, g2, g3, g4, g5⟩ :=
        ofh_state_du_execs (du_cu_nonblocking_state env ul dl pdsch) env n
      rw [g1, g2, g3, g4, g5]
      exact ⟨_, rfl, rfl, rfl, rfl, rfl, rfl⟩


/-- C24, counterexample: with the hardware driver "uhd" and the configured profile blocking
the effective profile is blocking, yet the constructor stops at the lookup of "phy_worker"
and builds no manager, so that no worker backs the lower-PHY executors. -/
theorem uhd_blocking_backs_no_lower_phy_executor :
    effective_profile "uhd" .blocking = .blocking ∧
    ¬ ∃ wm, worker_manager.create sample_host (sdr_config "uhd" .blocking [⟨⟩] 1 1 1) = .ok wm ∧
      wm.lower_phy_workers.length = 1 := by
  refine ⟨rfl, ?_⟩
  rintro ⟨wm, h, _⟩
  rw [create_sdr_blocking_eq sample_host "uhd" [⟨⟩] 1 1 1 (by decide)] at h
  cases h

/-- C24, amended: for an SDR radio on which construction succeeds, `create_ru_executors`
hands to `create_lower_phy_executors` the effective profile (blocking for the driver "zmq",
the configured profile otherwise), and the lower-PHY tx, rx, dl and ul executors are backed
by 1 distinct worker for blocking and for single, 2 for dual (tx and dl on "lower_phy_dl",
rx and ul on "lower_phy_ul") and 4 for quad, each an entry of `workers`. -/
theorem lower_phy_workers_by_profile (env : host) (driver : String)
    (profile : lower_phy_thread_profile) (cells_cfg : List cell_appconfig) (ul dl pdsch : Nat)
    (wm : worker_manager)
    (hcreate :
      worker_manager.create env (sdr_config driver profile cells_cfg ul dl pdsch) = .ok wm) :
    (∀ wm0 : worker_manager,
      wm0.create_ru_executors env (sdr_config driver profile cells_cfg ul dl pdsch) =
        wm0.create_lower_phy_executors (effective_profile driver profile)) ∧
    (driver = "zmq" → effective_profile driver profile = .blocking) ∧
    (driver ≠ "zmq" → effective_profile driver profile = profile) ∧
    wm.lower_phy_workers.length =
      (match effective_profile driver profile with
       | .blocking => 1
       | .single => 1
       | .dual => 2
       | .quad => 4) ∧
    (∀ n ∈ wm.lower_phy_workers, ∃ w, wm.workers n = some w ∧ w.name = n) ∧
    (effective_profile driver profile = .dual →
      wm.lower_phy_tx_exec = some (.task_worker_executor "lower_phy_dl" true) ∧
      wm.lower_phy_dl_exec = some (.task_worker_executor "lower_phy_dl" true) ∧
      wm.lower_phy_rx_exec = some (.task_worker_executor "lower_phy_ul" true) ∧
      wm.lower_phy_ul_exec = some (.task_worker_executor "lower_phy_ul" true)) := by
  refine ⟨fun _ => rfl, fun hz => by simp [effective_profile, hz],
    fun hz => by simp [effective_profile, hz], ?_⟩
  by_cases hz : driver = "zmq"
  · subst hz
    rw [create_zmq_eq] at hcreate
    cases hcreate
    have he : effective_profile "zmq" profile = .blocking := by simp [effective_profile]
    rw [he]
    refine ⟨rfl, ?_, by simp⟩
    intro n hn
    have hn1 : n = "phy_worker" := by
      have : n ∈ ["phy_worker"] := hn
      simpa using this
    subst hn1
    simp [lower_phy_state, du_cu_blocking_state, upd]
  · have he : effective_profile driver profile = profile := by simp [effective_profile, hz]
    rw [he]
    cases profile with
    | blocking =>
      rw [create_sdr_blocking_eq env driver cells_cfg ul dl pdsch hz] at hcreate
      cases hcreate
    | single =>
      rw [create_sdr_eq env driver .single cells_cfg ul dl pdsch hz (by decide)] at hcreate
      cases hcreate
      refine ⟨rfl, ?_, by simp⟩
      intro n hn
      have hn1 : n = "lower_phy" := by
        have : n ∈ ["lower_phy"] := hn
        simpa using this
      subst hn1
      simp [lower_phy_state, upd]
    | dual =>
      rw [create_sdr_eq env driver .dual cells_cfg ul dl pdsch hz (by decide)] at hcreate
      cases hcreate
      refine ⟨rfl, ?_, fun _ => ⟨rfl, rfl, rfl, rfl⟩⟩
      intro n hn
      have hn1 : n ∈ ["lower_phy_dl", "lower_phy_ul"] := hn
      simp only [List.mem_cons, List.mem_singleton, List.not_mem_nil, or_false] at hn1
      rcases hn1 with h | h <;> subst h
      · simp [lower_phy_state, upd]
      · simp [lower_phy_state, upd]
    | quad =>
      rw [create_sdr_eq env driver .quad cells_cfg ul dl pdsch hz (by decide)] at hcreate
      cases hcreate
      refine ⟨rfl, ?_, by simp⟩
      intro n hn
      have hn1 : n ∈ ["lower_phy_tx", "lower_phy_rx", "lower_phy_dl", "lower_phy_ul"] := hn
      simp only [List.mem_cons, List.mem_singleton, List.not_mem_nil, or_false] at hn1
      rcases hn1 with h | h | h | h <;> subst h
      · simp [lower_phy_state, upd]
      · simp [lower_phy_state, upd]
      · simp [lower_phy_state, upd]
      · simp [lower_phy_state, upd]

/-- Witness for C24 with driver "uhd", the configured profile dual and one cell. -/
theorem lower_phy_workers_by_profile_witness :
    ∃ wm, worker_manager.create sample_host (sdr_config "uhd" .dual [⟨⟩] 1 1 1) = .ok wm ∧
      wm.lower_phy_workers = ["lower_phy_dl", "lower_phy_ul"] ∧
      wm.lower_phy_workers.length =
        (match effective_profile "uhd" .dual with
         | .blocking => 1
         | .single => 1
         | .dual => 2
         | .quad => 4) :=
  ⟨_, create_sdr_eq sample_host "uhd" .dual [⟨⟩] 1 1 1 (by decide) (by decide), by decide,
    (lower_phy_workers_by_profile sample_host "uhd" .dual [⟨⟩] 1 1 1 _
      (create_sdr_eq sample_host "uhd" .dual [⟨⟩] 1 1 1 (by decide) (by decide))).2.2.2.1⟩


/-- The host-thread estimate is computed without wrap-around and is at least 4. -/
theorem nof_host_threads_eq (h : Nat) (hh : h < UINT_RANGE) :
    3 ≤ max h 4 ∧ nof_host_threads h = max 4 (max h 4 - 3) ∧ 4 ≤ nof_host_threads h := by
  have h3 : 3 ≤ max h 4 := le_trans (by decide) (le_max_right h 4)
  have hlt : max h 4 - 3 < UINT_RANGE := by
    have : max h 4 < UINT_RANGE := max_lt hh (by decide)
    omega
  have hmod : (max h 4 + UINT_RANGE - 3) % UINT_RANGE = max h 4 - 3 := by
    rw [show max h 4 + UINT_RANGE - 3 = (max h 4 - 3) + UINT_RANGE by omega,
      Nat.add_mod_right, Nat.mod_eq_of_lt hlt]
  refine ⟨h3, ?_, ?_⟩
  · simp only [nof_host_threads, hmod]
  · exact le_max_left _ _

/-- The minimum thread count equals `3 * n + 1` when that value fits in `unsigned`. -/
theorem min_ofh_threads_eq (n : Nat) (hn : 3 * n + 1 < UINT_RANGE) :
    min_ofh_threads n = 3 * n + 1 := by
  have h1 : n * 3 < UINT_RANGE := by omega
  simp only [min_ofh_threads, MAX_NUM_THREADS_PER_CELL, Nat.mod_eq_of_lt h1]
  rw [Nat.mod_eq_of_lt (by omega)]
  omega

/-- A `create_ofh_executor` call prints no advisory. -/
theorem ofh_executor_state_advisories (wm : worker_manager) (name : String) (p q : Nat) :
    (ofh_executor_state wm name p q).advisories = wm.advisories := by
  cases hr : wm.affinity_manager.reserve_cpu_index.1 <;>
    simp [ofh_executor_state, worker_manager.advisories, hr, List.filter_append,
      print_event.is_advisory]

/-- The iteration for one cell prints no advisory. -/
theorem ofh_cell_state_advisories (wm : worker_manager) (i : Nat) :
    (ofh_cell_state wm i).advisories = wm.advisories := by
  have h1 := ofh_executor_state_advisories wm ("ru_dl_" ++ to_string i) 5 task_worker_queue_size
  have h2 := fun wm2 => ofh_executor_state_advisories wm2 ("ru_tx_" ++ to_string i) 1
    task_worker_queue_size
  have h3 := fun wm2 => ofh_executor_state_advisories wm2 ("ru_rx_" ++ to_string i) 1 1
  simp only [worker_manager.advisories] at h1 h2 h3 ⊢
  simp only [ofh_cell_state]
  rw [h3, h2]
  simp only []
  rw [h1]

/-- The loop of `create_ofh_executors` prints no advisory. -/
theorem ofh_cells_state_advisories (wm : worker_manager) (k : Nat) :
    (ofh_cells_state wm k).advisories = wm.advisories := by
  induction k with
  | zero => rfl
  | succ k ih =>
    simp only [ofh_cells_state]
    rw [ofh_cell_state_advisories, ih]

/-- The advisories after `create_ofh_executors`: one more exactly when the estimate is below
the minimum. -/
theorem ofh_state_advisories (wm : worker_manager) (env : host) (n : Nat) :
    (ofh_state wm env n).advisories =
      wm.advisories ++
        (if nof_host_threads env.hardware_concurrency < min_ofh_threads n then
          [print_event.ofh_threads_advisory (nof_host_threads env.hardware_concurrency)
            (min_ofh_threads n)]
        else []) := by
  have e : ∀ (wm2 : worker_manager) (x : Option task_executor),
      ({ wm2 with ru_timing_exec := x } : worker_manager).advisories = wm2.advisories :=
    fun _ _ => rfl
  simp only [ofh_state]
  rw [ofh_cells_state_advisories, e, ofh_executor_state_advisories]
  split <;>
    simp [worker_manager.advisories, List.filter_append, print_event.is_advisory]

/-- A `create_ofh_executor` call reads nothing of the printed lines. -/
theorem ofh_executor_state_without_printed (wm : worker_manager) (name : String) (p q : Nat) :
    (ofh_executor_state wm name p q).without_printed =
      (ofh_executor_state wm.without_printed name p q).without_printed := rfl

/-- The iteration for one cell reads nothing of the printed lines. -/
theorem ofh_cell_state_without_printed (wm : worker_manager) (i : Nat) :
    (ofh_cell_state wm i).without_printed =
      (ofh_cell_state wm.without_printed i).without_printed := rfl

/-- Managers that differ in their printed lines only still differ in their printed lines
only after the loop of `create_ofh_executors`. -/
theorem ofh_cells_state_without_printed (wm1 wm2 : worker_manager) (k : Nat)
    (h : wm1.without_printed = wm2.without_printed) :
    (ofh_cells_state wm1 k).without_printed = (ofh_cells_state wm2 k).without_printed := by
  induction k with
  | zero => exact h
  | succ k ih =>
    calc (ofh_cell_state (ofh_cells_state wm1 k) k).without_printed
        = (ofh_cell_state (ofh_cells_state wm1 k).without_printed k).without_printed :=
          ofh_cell_state_without_printed _ _
      _ = (ofh_cell_state (ofh_cells_state wm2 k).without_printed k).without_printed :=
          congrArg (fun w => (ofh_cell_state w k).without_printed) ih
      _ = (ofh_cell_state (ofh_cells_state wm2 k) k).without_printed :=
          (ofh_cell_state_without_printed _ _).symm

/-- The workers, pools, executors and affinity manager that `create_ofh_executors` builds do
not depend on the host-thread estimate. -/
theorem ofh_state_without_printed (wm : worker_manager) (env1 env2 : host) (n : Nat) :
    (ofh_state wm env1 n).without_printed = (ofh_state wm env2 n).without_printed := by
  have e1 : ∀ (w1 w2 : worker_manager) (x : Option task_executor),
      w1.without_printed = w2.without_printed →
      ({ w1 with ru_timing_exec := x } : worker_manager).without_printed =
        ({ w2 with ru_timing_exec := x } : worker_manager).without_printed :=
    fun w1 w2 x h => congrArg (fun w : worker_manager => { w with ru_timing_exec := x }) h
  have e2 : ∀ w1 w2 : worker_manager, w1.without_printed = w2.without_printed →
      (ofh_executor_state w1 "ru_timing" 0 1).without_printed =
        (ofh_executor_state w2 "ru_timing" 0 1).without_printed := by
    intro w1 w2 h
    rw [ofh_executor_state_without_printed w1, ofh_executor_state_without_printed w2, h]
  have e3 : ∀ l : List print_event,
      ({ wm with printed := l } : worker_manager).without_printed = wm.without_printed :=
    fun _ => rfl
  simp only [ofh_state]
  apply ofh_cells_state_without_printed
  apply e1
  apply e2
  split <;> split <;> simp only [e3]


/-- C21, counterexample: on a host with 8 hardware threads the estimate is 5; for the cell
count 1431655765 the value `nof_cells * 3 + 1` wraps around to 0 in `unsigned` arithmetic,
so no advisory is printed although 5 is smaller than 3·n + 1. -/
theorem ofh_advisory_lost_by_wrap_around :
    wrapping_cell_count < UINT_RANGE ∧
    nof_host_threads sample_host.hardware_concurrency = 5 ∧
    5 < 3 * wrapping_cell_count + 1 ∧
    min_ofh_threads wrapping_cell_count = 0 ∧
    ∃ wm, (worker_manager.init sample_host).create_ofh_executors sample_host
        wrapping_cell_count = .ok wm ∧
      wm.advisories = [] := by
  have hmin : min_ofh_threads wrapping_cell_count = 0 := by decide
  refine ⟨by decide, by decide, by decide, hmin,
    _, create_ofh_executors_ok _ _ _ rfl (fun _ => ⟨rfl, rfl, rfl⟩), ?_⟩
  rw [ofh_state_advisories, hmin]
  rfl

/-- C21, amended: in `create_ofh_executors`, for every `unsigned` hardware-concurrency value
h and every cell count n for which 3·n + 1 fits in `unsigned`, the estimate
max(4, max(h, 4) − 3) is computed without wrap-around and is at least 4; the method succeeds
when its worker names are free and prints the advisory exactly when the estimate is smaller
than 3·n + 1; and for every other host the manager it builds differs in the printed lines
only. -/
theorem ofh_advisory_iff_shortfall (wm : worker_manager) (env : host) (n : Nat)
    (hh : env.hardware_concurrency < UINT_RANGE) (hn : 3 * n + 1 < UINT_RANGE)
    (htiming : wm.workers "ru_timing" = none)
    (hfresh : ∀ i, wm.workers ("ru_dl_" ++ to_string i) = none ∧
      wm.workers ("ru_tx_" ++ to_string i) = none ∧
      wm.workers ("ru_rx_" ++ to_string i) = none) :
    3 ≤ max env.hardware_concurrency 4 ∧
    nof_host_threads env.hardware_concurrency = max 4 (max env.hardware_concurrency 4 - 3) ∧
    4 ≤ nof_host_threads env.hardware_concurrency ∧
    ∃ wm1, wm.create_ofh_executors env n = .ok wm1 ∧
      wm1.advisories =
        wm.advisories ++
          (if nof_host_threads env.hardware_concurrency < 3 * n + 1 then
            [print_event.ofh_threads_advisory (nof_host_threads env.hardware_concurrency)
              (3 * n + 1)]
          else []) ∧
      ∀ env2 : host, ∃ wm2, wm.create_ofh_executors env2 n = .ok wm2 ∧
        wm2.without_printed = wm1.without_printed := by
  obtain ⟨h1, h2, h3⟩ := nof_host_threads_eq env.hardware_concurrency hh
  refine ⟨h1, h2, h3, _, create_ofh_executors_ok wm env n htiming hfresh, ?_, ?_⟩
  · rw [ofh_state_advisories, min_ofh_threads_eq n hn]
  · intro env2
    exact ⟨_, create_ofh_executors_ok wm env2 n htiming hfresh,
      ofh_state_without_printed wm env2 env n⟩

/-- Witness for C21 on a host with 8 hardware threads and two cells: the estimate 5 is below
the minimum 7. -/
theorem ofh_advisory_iff_shortfall_witness :
    sample_host.hardware_concurrency < UINT_RANGE ∧ 3 * 2 + 1 < UINT_RANGE ∧
    nof_host_threads sample_host.hardware_concurrency = 5 ∧
    ∃ wm1, (worker_manager.init sample_host).create_ofh_executors sample_host 2 = .ok wm1 ∧
      wm1.advisories =
        (worker_manager.init sample_host).advisories ++
          (if nof_host_threads sample_host.hardware_concurrency < 3 * 2 + 1 then
            [print_event.ofh_threads_advisory (nof_host_threads sample_host.hardware_concurrency)
              (3 * 2 + 1)]
          else []) ∧
      ∀ env2 : host, ∃ wm2,
        (worker_manager.init sample_host).create_ofh_executors env2 2 = .ok wm2 ∧
        wm2.without_printed = wm1.without_printed :=
  ⟨by decide, by decide, by decide,
    (ofh_advisory_iff_shortfall (worker_manager.init sample_host) sample_host 2 (by decide)
      (by decide) rfl (fun _ => ⟨rfl, rfl, rfl⟩)).2.2.2⟩


/-- C28: for every SDR configuration with a driver other than "zmq" and a profile other than
blocking, construction succeeds and registers the worker "upper_phy_dl", and no executor
handle of the manager is bound to that worker (the downlink executors are bound to the
workers "upper_phy_dl#i"). -/
theorem upper_phy_dl_worker_has_no_executor (env : host) (driver : String)
    (profile : lower_phy_thread_profile) (cells_cfg : List cell_appconfig) (ul dl pdsch : Nat)
    (hz : driver ≠ "zmq") (hp : profile ≠ .blocking) :
    ∃ wm, worker_manager.create env (sdr_config driver profile cells_cfg ul dl pdsch) = .ok wm ∧
      wm.workers "upper_phy_dl" =
        some ⟨"upper_phy_dl", task_worker_queue_size, .max_minus 10, ⟨[]⟩, true⟩ ∧
      ∀ e ∈ wm.executors, e.worker_name ≠ some "upper_phy_dl" := by
  refine ⟨_, create_sdr_eq env driver profile cells_cfg ul dl pdsch hz hp, ?_, ?_⟩
  · have h := du_cu_nonblocking_workers_other env ul dl pdsch "upper_phy_dl"
      (by intro i; simp [String.ext_iff])
    cases profile <;> simp [lower_phy_state, upd, h]
  · intro e he
    cases profile <;>
      simp [worker_manager.executors, lower_phy_state, du_cu_nonblocking_state,
        worker_manager.init] at he <;>
      (repeat' (refine Or.elim he ?_ ?_ <;> clear he <;> intro he)) <;>
      first
      | (subst he; simp [task_executor.worker_name])
      | (obtain ⟨_, he⟩ := he; subst he; simp [task_executor.worker_name])
      | (obtain ⟨a, _, he⟩ := he; subst he; simp [task_executor.worker_name, String.ext_iff])

/-- Witness for C28 with the driver "uhd", the profile quad and two cells. -/
theorem upper_phy_dl_worker_has_no_executor_witness :
    "uhd" ≠ "zmq" ∧ lower_phy_thread_profile.quad ≠ .blocking ∧
    ∃ wm, worker_manager.create sample_host uhd_quad_config = .ok wm ∧
      wm.workers "upper_phy_dl" =
        some ⟨"upper_phy_dl", task_worker_queue_size, .max_minus 10, ⟨[]⟩, true⟩ ∧
      ∀ e ∈ wm.executors, e.worker_name ≠ some "upper_phy_dl" :=
  ⟨by decide, by decide,
    upper_phy_dl_worker_has_no_executor sample_host "uhd" .quad [⟨⟩, ⟨⟩] 1 1 1 (by decide)
      (by decide)⟩

end srsran

namespace srsgnb

/-- C22, counterexample: subscribing one pending observer to two sources in turn raises no
fault and leaves source 0 holding observer 0 while the parent of observer 0 is source 1; when
the observer is then destroyed, source 0 still designates the destroyed observer. -/
theorem source_keeps_destroyed_observer :
    (∃ h src0 ob, run heap.empty double_subscription = .ok h ∧
      h.sources 0 = some src0 ∧ src0.sub = some 0 ∧
      h.observers 0 = some ob ∧ ob.parent = some 1 ∧ ob.parent ≠ some 0) ∧
    ∃ h src0, run heap.empty dangling_subscription = .ok h ∧
      h.sources 0 = some src0 ∧ src0.sub = some 0 ∧ h.observers 0 = none :=
  ⟨⟨_, _, _, rfl, rfl, rfl, rfl, rfl, by decide⟩, ⟨_, _, rfl, rfl, rfl, rfl⟩⟩

/-- C22, amended: over every fault-free sequence of constructions, `subscribe_to` (with or
without timeout), `set`, timer expiries, source destructions and observer destructions in
which `subscribe_to` is only applied to observers that are not connected, a live source's
subscriber pointer designates a live observer o if and only if the parent pointer of o
designates that source, and no subscriber or parent pointer designates a destroyed
object. -/
theorem back_references_consistent {T : Type} (ops : List (op T)) (h : heap T)
    (hrun : run heap.empty ops = .ok h)
    (hdisc : subscribes_only_unconnected heap.empty ops) :
    (∀ s src o ob, h.sources s = some src → h.observers o = some ob →
      (src.sub = some o ↔ ob.parent = some s)) ∧
    (∀ s src o, h.sources s = some src → src.sub = some o → ∃ ob, h.observers o = some ob) ∧
    (∀ o ob s, h.observers o = some ob → ob.parent = some s → ∃ src, h.sources s = some src) := by
  have hl := run_preserves_linked ops heap.empty h linked_empty hdisc hrun
  refine ⟨?_, ?_, ?_⟩
  · intro s src o ob hs ho
    constructor
    · intro hsub
      obtain ⟨ob1, ho1, hp1⟩ := hl.1 s src o hs hsub
      rw [ho] at ho1
      cases ho1
      exact hp1
    · intro hpar
      obtain ⟨src1, hs1, hsub1⟩ := hl.2 o ob s ho hpar
      rw [hs] at hs1
      cases hs1
      exact hsub1
  · intro s src o hs hsub
    obtain ⟨ob, ho, _⟩ := hl.1 s src o hs hsub
    exact ⟨ob, ho⟩
  · intro o ob s ho hpar
    obtain ⟨src, hs, _⟩ := hl.2 o ob s ho hpar
    exact ⟨src, hs⟩

/-- Witness for C22 (amended) on `single_subscription`: source 0 holds observer 0, whose
parent is source 0. -/
theorem back_references_consistent_witness :
    ∃ h src ob, run heap.empty single_subscription = .ok h ∧
      subscribes_only_unconnected heap.empty single_subscription ∧
      h.sources 0 = some src ∧ h.observers 0 = some ob ∧
      (src.sub = some 0 ↔ ob.parent = some 0) ∧ src.sub = some 0 :=
  ⟨_, _, _, rfl, single_subscription_unconnected, rfl, rfl,
    (back_references_consistent single_subscription _ rfl single_subscription_unconnected).1
      0 _ 0 _ rfl rfl, rfl⟩

/-- C25: an observer subscribes with a timeout and is destroyed before the timer expires;
the destructor unlinks the source without stopping the timer, so the source is left with an
armed timer and no subscriber, and when a second observer then subscribes without a timeout
the expiry of that timer completes it with the cancel value. -/
theorem stale_timer_cancels_later_observer :
    (∃ h src, run heap.empty abandoned_timeout = .ok h ∧ h.sources 0 = some src ∧
      src.has_subscriber = false ∧ src.running_timer.running = true) ∧
    (∃ h src ob, run heap.empty (abandoned_timeout ++ [.new_observer 1, .subscribe_to 1 0]) =
        .ok h ∧ h.sources 0 = some src ∧ src.sub = some 1 ∧ h.observers 1 = some ob ∧
      ob.complete = false) ∧
    ∃ h ob, run heap.empty stale_timer_run = .ok h ∧ h.observers 1 = some ob ∧
      ob.complete = true ∧ ob.result = .ok 99 :=
  ⟨⟨_, _, rfl, rfl, rfl, rfl⟩, ⟨_, _, _, rfl, rfl, rfl, rfl, rfl⟩, ⟨_, _, rfl, rfl, rfl, rfl⟩⟩

end srsgnb

namespace srsran.srs_cu_cp

/-- What `add_du` computes: with a free index in the range, an entry is inserted at the
smallest free index; with the range full, nothing changes. -/
theorem add_du_spec (repo : du_processor_repository) (lim : du_index_limits)
    (f : du_processor_config_t → Option du_processor_interface)
    (i : Nat) (repo1 : du_processor_repository)
    (h : repo.add_du lim f = .ok (i, repo1)) :
    (i = lim.invalid ∧ repo.get_next_du_index lim = lim.invalid ∧ repo1 = repo) ∨
    (i ≠ lim.invalid ∧ lim.min ≤ i ∧ i < lim.MAX_NOF_DUS ∧ repo.du_db i = none ∧
      (∀ j, lim.min ≤ j → j < i → repo.du_db j ≠ none) ∧
      ∃ du, f ⟨i, repo.cfg.rrc_config⟩ = some du ∧
        repo1 = { repo with
                  du_db :=
                    upd repo.du_db i
                      (some ⟨true, some { du with context_du_index := i }, true⟩) }) := by
  unfold du_processor_repository.add_du at h
  generalize hr : repo.get_next_du_index lim = r at h
  have hspec := get_next_du_index_spec repo lim
  rw [hr] at hspec
  by_cases hinv : r = lim.invalid
  · simp only [hinv, if_true] at h
    cases h
    exact Or.inl ⟨rfl, hinv, rfl⟩
  · simp only [hinv, if_false] at h
    rcases hspec with ⟨h1, _⟩ | ⟨h1, h2, h3, h4⟩
    · exact absurd h1 hinv
    · simp only [h3] at h
      cases hf : f ⟨r, repo.cfg.rrc_config⟩ with
      | none =>
        simp only [hf] at h
        cases h
      | some du =>
        simp only [hf] at h
        cases h
        exact Or.inr ⟨hinv, h1, h2, h3, h4, du, hf, rfl⟩

/-- With a factory that always hands out a processor, `add_du` raises no fault. -/
theorem add_du_total (repo : du_processor_repository) (lim : du_index_limits)
    (f : du_processor_config_t → Option du_processor_interface)
    (hf : ∀ cfg, ∃ du, f cfg = some du) :
    ∃ i repo1, repo.add_du lim f = .ok (i, repo1) := by
  unfold du_processor_repository.add_du
  generalize hr : repo.get_next_du_index lim = r
  have hspec := get_next_du_index_spec repo lim
  rw [hr] at hspec
  by_cases hinv : r = lim.invalid
  · simp only [hinv, if_true]
    exact ⟨_, _, rfl⟩
  · simp only [hinv, if_false]
    rcases hspec with ⟨h1, _⟩ | ⟨_, _, h3, _⟩
    · exact absurd h1 hinv
    · obtain ⟨du, hdu⟩ := hf ⟨r, repo.cfg.rrc_config⟩
      simp only [h3, hdu]
      exact ⟨_, _, rfl⟩

/-- The calls `add_du` and `handle_new_du_connection` leave the configuration and the task
scheduler as they were, and either leave `du_db` unchanged or add one entry at an index of
the range that had none. -/
theorem add_du_shape (repo : du_processor_repository) (lim : du_index_limits)
    (f : du_processor_config_t → Option du_processor_interface)
    (i : Nat) (repo1 : du_processor_repository)
    (h : repo.add_du lim f = .ok (i, repo1)) :
    repo1.cfg = repo.cfg ∧ repo1.du_task_sched = repo.du_task_sched ∧
    (repo1.du_db = repo.du_db ∨
      ∃ ctx, lim.min ≤ i ∧ i < lim.MAX_NOF_DUS ∧ repo.du_db i = none ∧
        repo1.du_db = upd repo.du_db i (some ctx)) := by
  rcases add_du_spec repo lim f i repo1 h with ⟨_, _, h2⟩ | ⟨_, h2, h3, h4, _, du, _, h7⟩
  · subst h2
    exact ⟨rfl, rfl, Or.inl rfl⟩
  · subst h7
    exact ⟨rfl, rfl, Or.inr ⟨_, h2, h3, h4, rfl⟩⟩

/-- The shape of `add_du_shape` for `handle_new_du_connection`. -/
theorem handle_new_du_connection_shape (repo : du_processor_repository)
    (lim : du_index_limits) (f : du_processor_config_t → Option du_processor_interface)
    (repo2 : du_processor_repository)
    (h : repo.handle_new_du_connection lim f = .ok repo2) :
    repo2.cfg = repo.cfg ∧ repo2.du_task_sched = repo.du_task_sched ∧
    (repo2.du_db = repo.du_db ∨
      ∃ i ctx, lim.min ≤ i ∧ i < lim.MAX_NOF_DUS ∧ repo.du_db i = none ∧
        repo2.du_db = upd repo.du_db i (some ctx)) := by
  unfold du_processor_repository.handle_new_du_connection at h
  cases hadd : repo.add_du lim f with
  | error e =>
    rw [hadd] at h
    cases h
  | ok r =>
    obtain ⟨i, repo1⟩ := r
    rw [hadd] at h
    simp only [] at h
    rcases add_du_spec repo lim f i repo1 hadd with ⟨h1, _, h2⟩ | ⟨h1, h2, h3, h4, _, du, _, h7⟩
    · subst h2
      simp only [h1, if_true] at h
      cases h
      exact ⟨rfl, rfl, Or.inl rfl⟩
    · subst h7
      simp only [h1, if_false, upd_same] at h
      by_cases hamf : repo.cfg.amf_connected = true
      · simp only [hamf, if_true] at h
        cases h
        exact ⟨rfl, rfl, Or.inr ⟨i, _, h2, h3, h4, upd_upd _ _ _ _⟩⟩
      · simp only [hamf, if_false] at h
        cases h
        exact ⟨rfl, rfl, Or.inr ⟨i, _, h2, h3, h4, rfl⟩⟩

/-- On a repository whose range is full, `handle_new_du_connection` changes nothing. -/
theorem handle_new_du_connection_full (repo : du_processor_repository)
    (lim : du_index_limits) (f : du_processor_config_t → Option du_processor_interface)
    (hfull : repo.get_next_du_index lim = lim.invalid) :
    repo.add_du lim f = .ok (lim.invalid, repo) ∧
    repo.handle_new_du_connection lim f = .ok repo := by
  have hadd : repo.add_du lim f = .ok (lim.invalid, repo) := by
    simp [du_processor_repository.add_du, hfull]
  refine ⟨hadd, ?_⟩
  unfold du_processor_repository.handle_new_du_connection
  rw [hadd]
  simp

/-- A list of distinct numbers from `a` up to, not including, `b` has at most `b - a`
members. -/
theorem nodup_length_le_of_range (l : List Nat) (a b : Nat) (hn : l.Nodup)
    (h : ∀ j ∈ l, a ≤ j ∧ j < b) : l.length ≤ b - a := by
  have hsub : l.toFinset ⊆ Finset.Ico a b := by
    intro j hj
    rw [List.mem_toFinset] at hj
    rw [Finset.mem_Ico]
    exact h j hj
  have hc := Finset.card_le_card hsub
  rw [List.toFinset_card_of_nodup hn, Nat.card_Ico] at hc
  exact hc

/-- What a task that completes does: it removes the entry of an index that had one. -/
theorem async_task_run_shape (repo repo1 : du_processor_repository) (t : async_task)
    (h : t.run repo = .ok repo1) :
    ∃ k, t = .remove_du k ∧ repo.du_db k ≠ none ∧
      repo1 = { repo with du_db := upd repo.du_db k none } := by
  cases t with
  | remove_du k =>
    cases hk : repo.du_db k with
    | none =>
      simp [async_task.run, hk] at h
    | some ctx =>
      simp only [async_task.run, hk] at h
      cases h
      exact ⟨k, rfl, by simp [hk], rfl⟩

/-- What one call that completes does to the repository. -/
theorem repo_step_shape (lim : du_index_limits) (repo repo1 : du_processor_repository)
    (a : repo_op) (h : repo_step lim repo a = .ok repo1) :
    (repo1.du_task_sched = repo.du_task_sched ∧
      (repo1.du_db = repo.du_db ∨
        ∃ i ctx, lim.min ≤ i ∧ i < lim.MAX_NOF_DUS ∧ repo.du_db i = none ∧
          repo1.du_db = upd repo.du_db i (some ctx)) ∧
      a.removes_absent_or_pending repo = false ∧ ∀ i, a.runs_task_of i = false) ∨
    (∃ i, a = .remove_du i ∧ repo1.du_db = repo.du_db ∧
      repo1.du_task_sched.queues =
        upd repo.du_task_sched.queues i
          (repo.du_task_sched.queues i ++ [async_task.remove_du i])) ∨
    (∃ i, a = .run_next_du_task i ∧ repo.du_task_sched.queues i = [] ∧ repo1 = repo) ∨
    (∃ i k rest, a = .run_next_du_task i ∧
      repo.du_task_sched.queues i = async_task.remove_du k :: rest ∧ repo.du_db k ≠ none ∧
      repo1.du_db = upd repo.du_db k none ∧
      repo1.du_task_sched.queues = upd repo.du_task_sched.queues i rest) := by
  cases a with
  | add_du f =>
    simp only [repo_step] at h
    cases hadd : repo.add_du lim f with
    | error e =>
      rw [hadd] at h
      cases h
    | ok r =>
      obtain ⟨i, repo2⟩ := r
      rw [hadd] at h
      cases h
      obtain ⟨_, h2, h3⟩ := add_du_shape repo lim f i repo2 hadd
      refine Or.inl ⟨h2, ?_, rfl, fun _ => rfl⟩
      rcases h3 with h3 | ⟨ctx, h3⟩
      · exact Or.inl h3
      · exact Or.inr ⟨i, ctx, h3⟩
  | handle_new_du_connection f =>
    obtain ⟨_, h2, h3⟩ := handle_new_du_connection_shape repo lim f repo1 h
    exact Or.inl ⟨h2, h3, rfl, fun _ => rfl⟩
  | remove_du i =>
    simp only [repo_step, du_processor_repository.remove_du] at h
    by_cases hinv : i = lim.invalid
    · simp [hinv] at h
    · simp only [hinv, if_false] at h
      cases h
      exact Or.inr (Or.inl ⟨i, rfl, rfl, rfl⟩)
  | run_next_du_task i =>
    simp only [repo_step, du_processor_repository.run_next_du_task] at h
    cases hq : repo.du_task_sched.queues i with
    | nil =>
      simp only [hq] at h
      cases h
      exact Or.inr (Or.inr (Or.inl ⟨i, rfl, hq, rfl⟩))
    | cons t rest =>
      simp only [hq] at h
      obtain ⟨k, hk, hne, heq⟩ := async_task_run_shape _ _ t h
      subst hk
      subst heq
      exact Or.inr (Or.inr (Or.inr ⟨i, k, rest, rfl, hq, hne, rfl, rfl⟩))

/-- Every call keeps the entries of `du_db` inside the index range. -/
theorem repo_step_entries_in_range (lim : du_index_limits)
    (repo repo1 : du_processor_repository) (a : repo_op)
    (h : repo_step lim repo a = .ok repo1) (hinv : entries_in_range lim repo) :
    entries_in_range lim repo1 := by
  rcases repo_step_shape lim repo repo1 a h with
    ⟨_, h2 | ⟨i, ctx, h3, h4, _, h6⟩, _, _⟩ | ⟨i, _, h2, _⟩ | ⟨i, _, _, h3⟩ |
    ⟨i, k, rest, _, _, _, h4, _⟩
  · intro j hj
    rw [h2] at hj
    exact hinv j hj
  · intro j hj
    rw [h6] at hj
    by_cases hji : j = i
    · subst hji
      exact ⟨h3, h4⟩
    · rw [upd_other _ _ _ _ hji] at hj
      exact hinv j hj
  · intro j hj
    rw [h2] at hj
    exact hinv j hj
  · subst h3
    exact hinv
  · intro j hj
    rw [h4] at hj
    by_cases hjk : j = k
    · subst hjk
      rw [upd_same] at hj
      exact absurd rfl hj
    · rw [upd_other _ _ _ _ hjk] at hj
      exact hinv j hj

/-- Every sequence of calls keeps the entries of `du_db` inside the index range. -/
theorem repo_run_entries_in_range (lim : du_index_limits) (ops : List repo_op)
    (repo repo1 : du_processor_repository)
    (h : repo_run lim repo ops = .ok repo1) (hinv : entries_in_range lim repo) :
    entries_in_range lim repo1 := by
  induction ops generalizing repo with
  | nil =>
    simp only [repo_run] at h
    cases h
    exact hinv
  | cons a rest ih =>
    simp only [repo_run] at h
    cases hstep : repo_step lim repo a with
    | error e =>
      rw [hstep] at h
      cases h
    | ok repo2 =>
      rw [hstep] at h
      exact ih repo2 h (repo_step_entries_in_range lim repo repo2 a hstep hinv)

/-- The empty repository has no entry outside the index range. -/
theorem create_entries_in_range (lim : du_index_limits) (cfg : du_repository_config) :
    entries_in_range lim (du_processor_repository.create cfg) :=
  fun _ hj => absurd rfl hj

/-- C27: with `invalid` outside the index range and a factory that hands out a processor,
`add_du` raises no fault and either returns a valid index of the range that had no entry,
after which `du_db` is the previous map with one entry put at that index, or, exactly when
every index of the range has an entry, returns `invalid` and leaves the repository
unchanged; on such a full repository `handle_new_du_connection` changes nothing; and in
every state reached from the empty repository every entry sits at an index of the range, so
that any list of distinct indices with an entry has at most `MAX_NOF_DUS` members. -/
theorem add_du_adds_one_entry_or_nothing (repo : du_processor_repository)
    (lim : du_index_limits) (f : du_processor_config_t → Option du_processor_interface)
    (hinv : lim.invalid < lim.min ∨ lim.MAX_NOF_DUS ≤ lim.invalid)
    (hf : ∀ cfg, ∃ du, f cfg = some du) :
    (∃ i repo1, repo.add_du lim f = .ok (i, repo1) ∧
      ((i ≠ lim.invalid ∧ lim.min ≤ i ∧ i < lim.MAX_NOF_DUS ∧ repo.du_db i = none ∧
          (∃ ctx, repo1.du_db = upd repo.du_db i (some ctx)) ∧
          ¬ (∀ j, lim.min ≤ j → j < lim.MAX_NOF_DUS → repo.du_db j ≠ none)) ∨
        (i = lim.invalid ∧ repo1 = repo ∧
          ∀ j, lim.min ≤ j → j < lim.MAX_NOF_DUS → repo.du_db j ≠ none))) ∧
    ((∀ j, lim.min ≤ j → j < lim.MAX_NOF_DUS → repo.du_db j ≠ none) →
      repo.add_du lim f = .ok (lim.invalid, repo) ∧
      repo.handle_new_du_connection lim f = .ok repo) ∧
    (∀ cfg ops repo2, repo_run lim (du_processor_repository.create cfg) ops = .ok repo2 →
      (∀ j, repo2.du_db j ≠ none → lim.min ≤ j ∧ j < lim.MAX_NOF_DUS) ∧
      ∀ l : List Nat, l.Nodup → (∀ j ∈ l, repo2.du_db j ≠ none) →
        l.length ≤ lim.MAX_NOF_DUS) := by
  have hspec := get_next_du_index_spec repo lim
  refine ⟨?_, ?_, ?_⟩
  · obtain ⟨i, repo1, h⟩ := add_du_total repo lim f hf
    refine ⟨i, repo1, h, ?_⟩
    rcases add_du_spec repo lim f i repo1 h with ⟨h1, h2, h3⟩ | ⟨h1, h2, h3, h4, _, du, _, h7⟩
    · right
      refine ⟨h1, h3, ?_⟩
      rcases hspec with ⟨_, hfull⟩ | ⟨g1, g2, _, _⟩
      · exact hfull
      · rw [h2] at g1 g2
        omega
    · left
      subst h7
      exact ⟨h1, h2, h3, h4, ⟨_, rfl⟩, fun hfull => hfull i h2 h3 h4⟩
  · intro hfull
    have hnext : repo.get_next_du_index lim = lim.invalid := by
      rcases hspec with ⟨g, _⟩ | ⟨g1, g2, g3, _⟩
      · exact g
      · exact absurd g3 (hfull _ g1 g2)
    exact handle_new_du_connection_full repo lim f hnext
  · intro cfg ops repo2 hrun
    have hr := repo_run_entries_in_range lim ops _ repo2 hrun (create_entries_in_range lim cfg)
    refine ⟨hr, fun l hn hl => ?_⟩
    have := nodup_length_le_of_range l lim.min lim.MAX_NOF_DUS hn (fun j hj => hr j (hl j hj))
    omega

/-- Witness for C27 on `sample_repository`, which holds DU 0 and DU 1: `add_du` returns
index 2. -/
theorem add_du_adds_one_entry_or_nothing_witness :
    (sample_limits.invalid < sample_limits.min ∨
      sample_limits.MAX_NOF_DUS ≤ sample_limits.invalid) ∧
    (∀ cfg, ∃ du, sample_factory cfg = some du) ∧
    (∃ repo1, sample_repository.add_du sample_limits sample_factory = .ok (2, repo1)) ∧
    ∃ i repo1, sample_repository.add_du sample_limits sample_factory = .ok (i, repo1) ∧
      ((i ≠ sample_limits.invalid ∧ sample_limits.min ≤ i ∧ i < sample_limits.MAX_NOF_DUS ∧
          sample_repository.du_db i = none ∧
          (∃ ctx, repo1.du_db = upd sample_repository.du_db i (some ctx)) ∧
          ¬ (∀ j, sample_limits.min ≤ j → j < sample_limits.MAX_NOF_DUS →
            sample_repository.du_db j ≠ none)) ∨
        (i = sample_limits.invalid ∧ repo1 = sample_repository ∧
          ∀ j, sample_limits.min ≤ j → j < sample_limits.MAX_NOF_DUS →
            sample_repository.du_db j ≠ none)) :=
  ⟨Or.inr (by decide), fun _ => ⟨_, rfl⟩, ⟨_, rfl⟩,
    (add_du_adds_one_entry_or_nothing sample_repository sample_limits sample_factory
      (Or.inr (by decide)) (fun _ => ⟨_, rfl⟩)).1⟩


/-- What the discipline says about a `remove_du(i)` call: index `i` has an entry and no
pending task. -/
theorem removes_present_unfold (repo : du_processor_repository) (i : du_index_t)
    (h : (repo_op.remove_du i).removes_absent_or_pending repo = false) :
    repo.du_db i ≠ none ∧ repo.du_task_sched.queues i = [] := by
  simp only [repo_op.removes_absent_or_pending, Bool.or_eq_false_iff, Bool.not_eq_false',
    List.isEmpty_iff] at h
  refine ⟨?_, h.2⟩
  intro hn
  rw [hn] at h
  exact absurd h.1 (by decide)

/-- A call made under the discipline keeps the pending removals present. -/
theorem repo_step_pending (lim : du_index_limits) (repo repo1 : du_processor_repository)
    (a : repo_op) (h : repo_step lim repo a = .ok repo1)
    (hd : a.removes_absent_or_pending repo = false)
    (hp : pending_removals_present repo) : pending_removals_present repo1 := by
  rcases repo_step_shape lim repo repo1 a h with
    ⟨h1, h2 | ⟨i, ctx, _, _, _, h6⟩, _, _⟩ | ⟨i, ha, h2, h3⟩ | ⟨i, _, _, h3⟩ |
    ⟨i, k, rest, _, hq, _, h4, h5⟩
  · intro j
    rw [h1, h2]
    exact hp j
  · intro j
    rw [h1, h6]
    rcases hp j with hj | ⟨hj1, hj2⟩
    · exact Or.inl hj
    · refine Or.inr ⟨hj1, ?_⟩
      by_cases hji : j = i
      · subst hji
        rw [upd_same]
        exact Option.some_ne_none ctx
      · rw [upd_other _ _ _ _ hji]
        exact hj2
  · subst ha
    obtain ⟨hd1, hd2⟩ := removes_present_unfold repo i hd
    intro j
    rw [h3, h2]
    by_cases hji : j = i
    · subst hji
      rw [upd_same, hd2]
      exact Or.inr ⟨rfl, hd1⟩
    · rw [upd_other _ _ _ _ hji]
      exact hp j
  · subst h3
    exact hp
  · have hki : k = i ∧ rest = [] := by
      rcases hp i with hi | ⟨hi, _⟩
      · rw [hi] at hq
        cases hq
      · rw [hi] at hq
        cases hq
        exact ⟨rfl, rfl⟩
    obtain ⟨hk, hrest⟩ := hki
    subst hk
    subst hrest
    intro j
    rw [h5, h4]
    by_cases hjk : j = k
    · subst hjk
      rw [upd_same]
      exact Or.inl rfl
    · rw [upd_other _ _ _ _ hjk, upd_other _ _ _ _ hjk]
      exact hp j

/-- A sequence of calls made under the discipline keeps the pending removals present. -/
theorem repo_run_pending (lim : du_index_limits) (ops : List repo_op)
    (repo repo1 : du_processor_repository)
    (h : repo_run lim repo ops = .ok repo1)
    (hd : removes_only_present lim repo ops)
    (hp : pending_removals_present repo) : pending_removals_present repo1 := by
  induction ops generalizing repo with
  | nil =>
    simp only [repo_run] at h
    cases h
    exact hp
  | cons a rest ih =>
    simp only [repo_run] at h
    simp only [removes_only_present] at hd
    cases hstep : repo_step lim repo a with
    | error e =>
      rw [hstep] at h
      cases h
    | ok repo2 =>
      rw [hstep] at h hd
      exact ih repo2 h hd.2 (repo_step_pending lim repo repo2 a hstep hd.1 hp)

/-- With the pending removals present, the execution of the next task of any index raises
no fault: it does nothing on an empty queue and erases the entry of the index otherwise. -/
theorem run_next_du_task_ok (repo : du_processor_repository) (j : du_index_t)
    (hp : pending_removals_present repo) :
    (repo.du_task_sched.queues j = [] ∧ repo.run_next_du_task j = .ok repo) ∨
    (repo.du_task_sched.queues j = [async_task.remove_du j] ∧ repo.du_db j ≠ none ∧
      repo.run_next_du_task j =
        .ok { repo with
              du_db := upd repo.du_db j none,
              du_task_sched := ⟨upd repo.du_task_sched.queues j []⟩ }) := by
  rcases hp j with hj | ⟨hj1, hj2⟩
  · left
    refine ⟨hj, ?_⟩
    simp [du_processor_repository.run_next_du_task, hj]
  · right
    refine ⟨hj1, hj2, ?_⟩
    cases hdb : repo.du_db j with
    | none => exact absurd hdb hj2
    | some ctx =>
      simp [du_processor_repository.run_next_du_task, hj1, async_task.run, hdb]

/-- While the removal of index `i` is pending and no task of `i` executes, calls made under
the discipline leave the entry of `i` and the queue of `i` as they are. -/
theorem repo_step_keeps_pending_entry (lim : du_index_limits)
    (repo repo1 : du_processor_repository) (a : repo_op) (i : du_index_t) (ctx : du_context)
    (h : repo_step lim repo a = .ok repo1)
    (hd : a.removes_absent_or_pending repo = false)
    (hnot : a.runs_task_of i = false)
    (hp : pending_removals_present repo)
    (hq : repo.du_task_sched.queues i = [async_task.remove_du i])
    (he : repo.du_db i = some ctx) :
    repo1.du_task_sched.queues i = [async_task.remove_du i] ∧ repo1.du_db i = some ctx := by
  rcases repo_step_shape lim repo repo1 a h with
    ⟨h1, h2 | ⟨i2, ctx2, _, _, h5, h6⟩, _, _⟩ | ⟨i2, ha, h2, h3⟩ | ⟨i2, _, _, h3⟩ |
    ⟨i2, k, rest, ha, hq2, _, h4, h5⟩
  · rw [h1, h2]
    exact ⟨hq, he⟩
  · rw [h1, h6]
    have hne : i ≠ i2 := by
      intro hii
      subst hii
      rw [he] at h5
      cases h5
    rw [upd_other _ _ _ _ hne]
    exact ⟨hq, he⟩
  · subst ha
    obtain ⟨_, hd2⟩ := removes_present_unfold repo i2 hd
    have hne : i ≠ i2 := by
      intro hii
      subst hii
      rw [hq] at hd2
      cases hd2
    rw [h3, h2, upd_other _ _ _ _ hne]
    exact ⟨hq, he⟩
  · subst h3
    exact ⟨hq, he⟩
  · subst ha
    have hne : i ≠ i2 := by
      intro hii
      subst hii
      simp [repo_op.runs_task_of] at hnot
    have hk : k = i2 := by
      rcases hp i2 with hi | ⟨hi, _⟩
      · rw [hi] at hq2
        cases hq2
      · rw [hi] at hq2
        cases hq2
        rfl
    subst hk
    rw [h5, h4, upd_other _ _ _ _ hne, upd_other _ _ _ _ hne]
    exact ⟨hq, he⟩

/-- The statement of `repo_step_keeps_pending_entry` for a sequence of calls. -/
theorem repo_run_keeps_pending_entry (lim : du_index_limits) (ops : List repo_op)
    (repo repo1 : du_processor_repository) (i : du_index_t) (ctx : du_context)
    (h : repo_run lim repo ops = .ok repo1)
    (hd : removes_only_present lim repo ops)
    (hnot : ∀ a ∈ ops, a.runs_task_of i = false)
    (hp : pending_removals_present repo)
    (hq : repo.du_task_sched.queues i = [async_task.remove_du i])
    (he : repo.du_db i = some ctx) :
    repo1.du_task_sched.queues i = [async_task.remove_du i] ∧ repo1.du_db i = some ctx := by
  induction ops generalizing repo with
  | nil =>
    simp only [repo_run] at h
    cases h
    exact ⟨hq, he⟩
  | cons a rest ih =>
    simp only [repo_run] at h
    simp only [removes_only_present] at hd
    cases hstep : repo_step lim repo a with
    | error e =>
      rw [hstep] at h
      cases h
    | ok repo2 =>
      rw [hstep] at h hd
      have hnot1 := hnot a (List.mem_cons_self a rest)
      obtain ⟨hq2, he2⟩ :=
        repo_step_keeps_pending_entry lim repo repo2 a i ctx hstep hd.1 hnot1 hp hq he
      exact ih repo2 h hd.2 (fun b hb => hnot b (List.mem_cons_of_mem a hb))
        (repo_step_pending lim repo repo2 a hstep hd.1 hp) hq2 he2

/-- The empty repository has no pending removal. -/
theorem create_pending (cfg : du_repository_config) :
    pending_removals_present (du_processor_repository.create cfg) :=
  fun _ => Or.inl rfl

/-- C26, counterexample: a removal of index 0 requested while the repository is empty stays
pending, and when it executes after an `add_du` it erases the entity that `add_du` created
after the request; and when the removal of an index is requested twice, the second task runs
against an index that is absent and stops at its assertion. -/
theorem removal_erases_later_entity :
    (∃ repo1 ctx repo2,
      (du_processor_repository.create ⟨false, 0⟩).du_db 0 = none ∧
      repo_run sample_limits (du_processor_repository.create ⟨false, 0⟩)
        (early_removal.take 2) = .ok repo1 ∧
      repo1.du_db 0 = some ctx ∧
      repo_run sample_limits (du_processor_repository.create ⟨false, 0⟩) early_removal =
        .ok repo2 ∧
      repo2.du_db 0 = none) ∧
    repo_run sample_limits (du_processor_repository.create ⟨false, 0⟩) double_removal =
      .error (.assertion "Remove DU called for inexistent du_index") :=
  ⟨⟨_, _, _, rfl, rfl, rfl, rfl, rfl⟩, rfl⟩

/-- C26, amended: for every interleaving of `add_du` and `handle_new_du_connection` calls,
`remove_du` requests and executions of pending tasks, started on the empty repository, in
which `remove_du(i)` is only requested while index `i` has an entry and no pending task:
from the request `remove_du(i)` until a task of `i` executes, the entity stored under `i`
stays the one of the time of the request and its removal stays the one pending task of `i`;
that task then erases the entry of `i` and no other; and the next task of every index runs
without a fault, on an index that has an entry. -/
theorem removal_task_erases_requested_entity (lim : du_index_limits)
    (cfg : du_repository_config) (ops1 ops2 : List repo_op) (i : du_index_t)
    (repo1 repo2 : du_processor_repository)
    (hrun1 : repo_run lim (du_processor_repository.create cfg) ops1 = .ok repo1)
    (hdisc1 : removes_only_present lim (du_processor_repository.create cfg) ops1)
    (hrun2 : repo_run lim repo1 (.remove_du i :: ops2) = .ok repo2)
    (hdisc2 : removes_only_present lim repo1 (.remove_du i :: ops2))
    (hnot : ∀ a ∈ ops2, a.runs_task_of i = false) :
    (∃ ctx, repo1.du_db i = some ctx ∧ repo2.du_db i = some ctx) ∧
    repo2.du_task_sched.queues i = [async_task.remove_du i] ∧
    (∃ repo3, repo2.run_next_du_task i = .ok repo3 ∧
      repo3.du_db = upd repo2.du_db i none) ∧
    ∀ j, ∃ repo3, repo2.run_next_du_task j = .ok repo3 ∧
      (repo3 = repo2 ∨ (repo2.du_db j ≠ none ∧ repo3.du_db = upd repo2.du_db j none)) := by
  have hp1 := repo_run_pending lim ops1 _ repo1 hrun1 hdisc1 (create_pending cfg)
  simp only [repo_run] at hrun2
  simp only [removes_only_present] at hdisc2
  cases hstep : repo_step lim repo1 (.remove_du i) with
  | error e =>
    rw [hstep] at hrun2
    cases hrun2
  | ok repo1a =>
    rw [hstep] at hrun2 hdisc2
    obtain ⟨hd1, hd2⟩ := hdisc2
    obtain ⟨hentry, hqueue⟩ := removes_present_unfold repo1 i hd1
    have hp1a := repo_step_pending lim repo1 repo1a _ hstep hd1 hp1
    cases hctx : repo1.du_db i with
    | none => exact absurd hctx hentry
    | some ctx =>
      have hshape : repo1a.du_db = repo1.du_db ∧
          repo1a.du_task_sched.queues i = [async_task.remove_du i] := by
        by_cases hinv : i = lim.invalid
        · simp [repo_step, du_processor_repository.remove_du, hinv] at hstep
        · have hok := remove_du_ok repo1 lim i hinv
          simp only [repo_step] at hstep
          rw [hok] at hstep
          cases hstep
          refine ⟨rfl, ?_⟩
          simp only [upd_same, hqueue]
          rfl
      obtain ⟨hdb, hq1a⟩ := hshape
      have hctx1a : repo1a.du_db i = some ctx := by rw [hdb]; exact hctx
      simp only [] at hrun2 hd2
      obtain ⟨hq2, he2⟩ := repo_run_keeps_pending_entry lim ops2 repo1a repo2 i ctx hrun2 hd2
        hnot hp1a hq1a hctx1a
      have hp2 := repo_run_pending lim ops2 repo1a repo2 hrun2 hd2 hp1a
      refine ⟨⟨ctx, rfl, he2⟩, hq2, ?_, ?_⟩
      · rcases run_next_du_task_ok repo2 i hp2 with ⟨h1, _⟩ | ⟨_, _, h3⟩
        · rw [hq2] at h1
          cases h1
        · exact ⟨_, h3, rfl⟩
      · intro j
        rcases run_next_du_task_ok repo2 j hp2 with ⟨_, h2⟩ | ⟨_, h2, h3⟩
        · exact ⟨_, h2, Or.inl rfl⟩
        · exact ⟨_, h3, Or.inr ⟨h2, rfl⟩⟩

/-- Witness for C26 (amended): a DU is added, its removal is requested, a second DU is
added, and the pending task then erases the entry of index 0 only. -/
theorem removal_task_erases_requested_entity_witness :
    ∃ repo1 repo2,
      repo_run sample_limits (du_processor_repository.create ⟨false, 0⟩)
        (orderly_removal.take 1) = .ok repo1 ∧
      removes_only_present sample_limits (du_processor_repository.create ⟨false, 0⟩)
        (orderly_removal.take 1) ∧
      repo_run sample_limits repo1 [.remove_du 0, .add_du sample_factory] = .ok repo2 ∧
      removes_only_present sample_limits repo1 [.remove_du 0, .add_du sample_factory] ∧
      (∃ ctx, repo1.du_db 0 = some ctx ∧ repo2.du_db 0 = some ctx) ∧
      repo2.du_task_sched.queues 0 = [async_task.remove_du 0] ∧
      (∃ repo3, repo2.run_next_du_task 0 = .ok repo3 ∧
        repo3.du_db = upd repo2.du_db 0 none) ∧
      (∃ ctx, repo2.du_db 1 = some ctx) :=
  ⟨_, _, rfl, ⟨rfl, trivial⟩, rfl, ⟨rfl, rfl, trivial⟩,
    (removal_task_erases_requested_entity sample_limits ⟨false, 0⟩ (orderly_removal.take 1)
      [.add_du sample_factory] 0 _ _ rfl ⟨rfl, trivial⟩ rfl ⟨rfl, rfl, trivial⟩
      (fun a ha => by
        simp only [List.mem_singleton] at ha
        subst ha
        rfl)).1,
    rfl, ⟨_, rfl, rfl⟩, ⟨_, rfl⟩⟩

end srsran.srs_cu_cp

namespace srsran.search_space_helper

/-- C29: for every SearchSpace configuration, `get_dl_dci_format` and `get_ul_dci_format`
stop with the fatal error exactly when the SearchSpace is common and its flag
`f0_0_and_f1_0` is false; in every other case each returns a format, and the SearchSpace
supports the DL format returned: `search_space_supports_dl_dci_format` applied to it
returns true. -/
theorem get_dl_dci_format_is_supported (ss_cfg : search_space_configuration) :
    (get_dl_dci_format ss_cfg = .error (.fatal_error "Unsupported DL DCI format") ↔
      (ss_cfg.type = .common ∧ ss_cfg.common.f0_0_and_f1_0 = false)) ∧
    (get_ul_dci_format ss_cfg = .error (.fatal_error "Unsupported UL DCI format") ↔
      (ss_cfg.type = .common ∧ ss_cfg.common.f0_0_and_f1_0 = false)) ∧
    (¬ (ss_cfg.type = .common ∧ ss_cfg.common.f0_0_and_f1_0 = false) →
      (∃ fmt, get_dl_dci_format ss_cfg = .ok fmt ∧
        search_space_supports_dl_dci_format ss_cfg fmt = .ok true) ∧
      ∃ fmt, get_ul_dci_format ss_cfg = .ok fmt) ∧
    (∀ fmt, get_dl_dci_format ss_cfg = .ok fmt →
      search_space_supports_dl_dci_format ss_cfg fmt = .ok true) := by
  obtain ⟨type, ⟨f00, f20⟩, ue⟩ := ss_cfg
  cases type <;> cases f00 <;> cases ue <;>
    simp [get_dl_dci_format, get_ul_dci_format, search_space_supports_dl_dci_format]

end srsran.search_space_helper

namespace srsgnb

/-- C1, counterexample: after one pending observer was subscribed to two sources in turn and
then destroyed, all without fault, source 0 still has a subscriber (`has_subscriber()` is
true), yet `set(7)` on it does not return true: it writes through the pointer to the
destroyed observer. -/
theorem set_reaches_destroyed_observer :
    ∃ h src0, run heap.empty dangling_subscription = .ok h ∧
      h.sources 0 = some src0 ∧ src0.has_subscriber = true ∧
      async_event_source.set h 0 7 = .error .invalid_access :=
  ⟨_, _, rfl, rfl, rfl, rfl⟩

/-- C1, amended: in every state reached without fault by constructions, `subscribe_to` (with
or without timeout), `set`, timer expiries and destructions in which `subscribe_to` is only
applied to observers that are not connected, for every live source and every value `v`,
`set(v)` returns true exactly when the source had a subscriber before the call (and
otherwise changes nothing); when it returns true the former subscriber is complete with
result `v` and is not connected any more, and the source has no subscriber. -/
theorem set_true_iff_had_subscriber {T : Type} (ops : List (op T)) (h : heap T)
    (hrun : run heap.empty ops = .ok h)
    (hdisc : subscribes_only_unconnected heap.empty ops)
    (s : source_id) (src : async_event_source T) (v : T)
    (hs : h.sources s = some src) :
    ∃ r h', async_event_source.set h s v = .ok (r, h') ∧
      (r = true ↔ src.has_subscriber = true) ∧
      (r = false → h' = h) ∧
      (r = true → ∀ o, src.sub = some o →
        (∃ ob', h'.observers o = some ob' ∧ ob'.complete = true ∧ ob'.result = .ok v ∧
          ob'.connected = false) ∧
        (∃ src', h'.sources s = some src' ∧ src'.has_subscriber = false)) := by
  have hl := run_preserves_linked ops heap.empty h linked_empty hdisc hrun
  cases hsub : src.sub with
  | none =>
    refine ⟨false, h, set_without_subscriber h s src v hs hsub, ?_, ?_, ?_⟩
    · simp [async_event_source.has_subscriber, hsub]
    · intro _; rfl
    · intro hr; cases hr
  | some o =>
    obtain ⟨ob, ho, _⟩ := hl.1 s src o hs hsub
    refine ⟨true, _, set_with_subscriber h s src o ob v hs hsub ho, ?_, ?_, ?_⟩
    · simp [async_event_source.has_subscriber, hsub]
    · intro hr; cases hr
    · intro _ o' ho'
      cases ho'
      refine ⟨⟨_, upd_same _ _ _, ?_, ?_, ?_⟩, ⟨_, upd_same _ _ _, ?_⟩⟩
      · simp [async_single_event_observer.complete, manual_event.is_set]
      · simp [async_single_event_observer.result, async_single_event_observer.complete,
          manual_event.is_set, manual_event.get]
      · simp [async_single_event_observer.connected]
      · simp [async_event_source.has_subscriber]

/-- Witness for C1 (amended) on the state reached by `single_subscription`, with value 7:
source 0 holds observer 0 and `set(7)` returns true. -/
theorem set_true_iff_had_subscriber_witness :
    ∃ h, run heap.empty single_subscription = .ok h ∧
      subscribes_only_unconnected heap.empty single_subscription ∧
      h.sources 0 = some ⟨99, some 0, unique_timer.create⟩ ∧
      ∃ r h', async_event_source.set h 0 7 = .ok (r, h') ∧
        (r = true ↔
          (⟨99, some 0, unique_timer.create⟩ : async_event_source Nat).has_subscriber = true) ∧
        (r = false → h' = h) ∧
        (r = true →
          ∀ o, (⟨99, some 0, unique_timer.create⟩ : async_event_source Nat).sub = some o →
          (∃ ob', h'.observers o = some ob' ∧ ob'.complete = true ∧ ob'.result = .ok 7 ∧
            ob'.connected = false) ∧
          (∃ src', h'.sources 0 = some src' ∧ src'.has_subscriber = false)) :=
  ⟨_, rfl, single_subscription_unconnected, rfl,
    set_true_iff_had_subscriber single_subscription _ rfl single_subscription_unconnected
      0 ⟨99, some 0, unique_timer.create⟩ 7 rfl⟩

/-- C6, counterexample: after one pending observer was subscribed to source 0 and then to
source 1, source 0 holds it and it is not complete; its destruction raises no fault and
unlinks source 1 only, so source 0 still has a subscriber and the `subscribe_to` of a fresh
observer to source 0 stops at the assertion of `set_observer`. -/
theorem destroyed_observer_still_blocks_source :
    (∃ h src0 ob, run heap.empty double_subscription = .ok h ∧
      h.sources 0 = some src0 ∧ src0.sub = some 0 ∧
      h.observers 0 = some ob ∧ ob.complete = false) ∧
    (∃ h src0, run heap.empty dangling_subscription = .ok h ∧
      h.sources 0 = some src0 ∧ src0.has_subscriber = true ∧ h.observers 0 = none) ∧
    run heap.empty (dangling_subscription ++ [.new_observer 1, .subscribe_to 1 0]) =
      .error (.assertion "This class only allows one subscriber/listener per transaction") :=
  ⟨⟨_, _, _, rfl, rfl, rfl, rfl, rfl⟩, ⟨_, _, rfl, rfl, rfl, rfl⟩, rfl⟩

/-- C6, amended: in every state reached without fault by constructions, `subscribe_to` (with
or without timeout), `set`, timer expiries and destructions in which `subscribe_to` is only
applied to observers that are not connected, destroying an observer that a source holds as
its subscriber (such an observer is live, connected to that source and not complete) raises
no fault and leaves that source without subscriber, and a fresh observer constructed
afterwards (at any free address) subscribes to the same source without fault. -/
theorem destroy_observer_frees_source {T : Type} (ops : List (op T)) (h : heap T)
    (hrun : run heap.empty ops = .ok h)
    (hdisc : subscribes_only_unconnected heap.empty ops)
    (s : source_id) (o : observer_id) (src : async_event_source T)
    (hs : h.sources s = some src) (hsub : src.sub = some o) :
    ∃ ob h1 src1,
      h.observers o = some ob ∧ ob.parent = some s ∧
      async_single_event_observer.destroy h o = .ok h1 ∧
      h1.sources s = some src1 ∧ src1.has_subscriber = false ∧ h1.observers o = none ∧
      ∀ o2, h1.observers o2 = none →
        ∃ h2 h3 src3 ob3,
          async_single_event_observer.create h1 o2 = .ok h2 ∧
          async_single_event_observer.subscribe_to h2 o2 s = .ok h3 ∧
          h3.sources s = some src3 ∧ src3.sub = some o2 ∧
          h3.observers o2 = some ob3 ∧ ob3.parent = some s := by
  have hl := run_preserves_linked ops heap.empty h linked_empty hdisc hrun
  obtain ⟨ob, ho, hparent⟩ := hl.1 s src o hs hsub
  refine ⟨ob, _, _, ho, hparent, destroy_linked_observer h s o src ob hs ho hsub hparent,
    upd_same _ _ _, rfl, upd_same _ _ _, ?_⟩
  intro o2 hfree
  have hcreate : async_single_event_observer.create
      ({ sources := upd h.sources s (some { src with sub := none }),
         observers := upd h.observers o none } : heap T) o2 =
      .ok { sources := upd h.sources s (some { src with sub := none }),
            observers := upd (upd h.observers o none) o2 (some ⟨none, ⟨none⟩⟩) } := by
    simp only [async_single_event_observer.create]
    simp only [] at hfree
    rw [hfree]
  have hsubscribe := set_observer_ok
    ({ sources := upd h.sources s (some { src with sub := none }),
       observers := upd (upd h.observers o none) o2 (some ⟨none, ⟨none⟩⟩) } : heap T)
    s { src with sub := none } o2 ⟨none, ⟨none⟩⟩ (upd_same _ _ _) (upd_same _ _ _) rfl rfl
  exact ⟨_, _, _, _, hcreate, hsubscribe, upd_same _ _ _, rfl, upd_same _ _ _, rfl⟩

/-- Witness for C6 (amended) on the state reached by `single_subscription`: observer 0 is
destroyed and source 0 is left without subscriber. -/
theorem destroy_observer_frees_source_witness :
    ∃ h, run heap.empty single_subscription = .ok h ∧
      subscribes_only_unconnected heap.empty single_subscription ∧
      h.sources 0 = some ⟨99, some 0, unique_timer.create⟩ ∧
      ∃ ob h1 src1,
        h.observers 0 = some ob ∧ ob.parent = some 0 ∧
        async_single_event_observer.destroy h 0 = .ok h1 ∧
        h1.sources 0 = some src1 ∧ src1.has_subscriber = false ∧ h1.observers 0 = none ∧
        ∀ o2, h1.observers o2 = none →
          ∃ h2 h3 src3 ob3,
            async_single_event_observer.create h1 o2 = .ok h2 ∧
            async_single_event_observer.subscribe_to h2 o2 0 = .ok h3 ∧
            h3.sources 0 = some src3 ∧ src3.sub = some o2 ∧
            h3.observers o2 = some ob3 ∧ ob3.parent = some 0 :=
  ⟨_, rfl, single_subscription_unconnected, rfl,
    destroy_observer_frees_source single_subscription _ rfl single_subscription_unconnected
      0 0 ⟨99, some 0, unique_timer.create⟩ rfl rfl⟩

end srsgnb
